import Mathlib

/-!
# Book inventory: the AI metadata-extraction endpoint and the routes around it

A shallow embedding of `backend/routes/ai.js` (the credential resolver, the
upload middleware and the `extract-book-info` handler), of the routes of
`backend/routes/config.js` and their dispatch, of the registration and login
handlers of `backend/routes/auth.js`, of the pagination and the statistics of
`backend/routes/books.js`, and of the pages that use them: the upload, the
extraction and `saveBook` of `frontend/src/pages/AddBook.jsx`, the card
`Maintenance` of `Dashboard.jsx`, `validateForm` of `Setup.jsx` and the three
route guards (`ProtectedRoute.jsx`, `Login.jsx`, `Setup.jsx`). With them come
the JavaScript built-ins they call: `String.prototype.trim`, `startsWith`,
`includes`, `length`, the two `replace` calls and the `test` call with regular
expressions, `JSON.parse`, `parseInt`, property access, `||`, `Math.max`,
`Math.min`, `Math.ceil`, the arithmetic of the pagination and `Promise.race`
against a timer.

Conventions of the embedding:

* a JavaScript string is a list of characters;
* a JavaScript number is `JSNum`: `NaN`, the two infinities, or a finite value
  carried as a rational. Every finite double is a rational, so a statement
  about all `JSNum` covers all doubles. The value of a literal and the result
  of an arithmetic operation are rounded to the nearest double, ties to even
  (`roundDouble`), with overflow to infinity and gradual underflow. The sign of
  zero is not tracked (`-0` and `+0` are both falsy and compare equal);
* an exception is a value of `JSError` in the `Except` monad;
* `models/User.js` and `middleware/auth.js` are not among the sources: what the
  handlers of `auth.js` take from them is a parameter (`AuthEnv`).
-/

namespace BookInventory

/-! ## JavaScript values -/

/-- A JavaScript number. -/
inductive JSNum where
  | nan
  | negInf
  | fin (q : ℚ)
  | posInf
deriving DecidableEq

/-- The values `JSON.parse` can produce, plus `undefined` (the result of
reading a property that does not exist). The members of an object are kept
in source order; a later duplicate key shadows an earlier one. -/
inductive JVal where
  | undefined
  | null
  | bool (b : Bool)
  | num (n : JSNum)
  | str (s : String)
  | arr (xs : List JVal)
  | obj (kvs : List (String × JVal))

/-- The exceptions the handler can meet between `text.trim()` and `res.json`. -/
inductive JSError where
  | syntaxError
  | typeError
deriving DecidableEq

deriving instance DecidableEq for Except

mutual
/-- Decidable equality of JavaScript values. -/
def JVal.decEq : (a b : JVal) → Decidable (a = b)
  | .undefined, .undefined => isTrue rfl
  | .null, .null => isTrue rfl
  | .bool a, .bool b =>
    if h : a = b then isTrue (by rw [h]) else isFalse (by intro e; cases e; exact h rfl)
  | .num a, .num b =>
    if h : a = b then isTrue (by rw [h]) else isFalse (by intro e; cases e; exact h rfl)
  | .str a, .str b =>
    if h : a = b then isTrue (by rw [h]) else isFalse (by intro e; cases e; exact h rfl)
  | .arr a, .arr b =>
    match JVal.decEqList a b with
    | isTrue h => isTrue (by rw [h])
    | isFalse h => isFalse (by intro e; cases e; exact h rfl)
  | .obj a, .obj b =>
    match JVal.decEqMembers a b with
    | isTrue h => isTrue (by rw [h])
    | isFalse h => isFalse (by intro e; cases e; exact h rfl)
  | .undefined, .null | .undefined, .bool _ | .undefined, .num _ | .undefined, .str _
  | .undefined, .arr _ | .undefined, .obj _
  | .null, .undefined | .null, .bool _ | .null, .num _ | .null, .str _
  | .null, .arr _ | .null, .obj _
  | .bool _, .undefined | .bool _, .null | .bool _, .num _ | .bool _, .str _
  | .bool _, .arr _ | .bool _, .obj _
  | .num _, .undefined | .num _, .null | .num _, .bool _ | .num _, .str _
  | .num _, .arr _ | .num _, .obj _
  | .str _, .undefined | .str _, .null | .str _, .bool _ | .str _, .num _
  | .str _, .arr _ | .str _, .obj _
  | .arr _, .undefined | .arr _, .null | .arr _, .bool _ | .arr _, .num _
  | .arr _, .str _ | .arr _, .obj _
  | .obj _, .undefined | .obj _, .null | .obj _, .bool _ | .obj _, .num _
  | .obj _, .str _ | .obj _, .arr _ => isFalse (by intro e; cases e)
/-- Decidable equality of lists of values. -/
def JVal.decEqList : (a b : List JVal) → Decidable (a = b)
  | [], [] => isTrue rfl
  | [], _ :: _ | _ :: _, [] => isFalse (by intro e; cases e)
  | x :: xs, y :: ys =>
    match JVal.decEq x y, JVal.decEqList xs ys with
    | isTrue h, isTrue t => isTrue (by rw [h, t])
    | isFalse h, _ => isFalse (by intro e; cases e; exact h rfl)
    | _, isFalse t => isFalse (by intro e; cases e; exact t rfl)
/-- Decidable equality of member lists. -/
def JVal.decEqMembers : (a b : List (String × JVal)) → Decidable (a = b)
  | [], [] => isTrue rfl
  | [], _ :: _ | _ :: _, [] => isFalse (by intro e; cases e)
  | (k, x) :: xs, (l, y) :: ys =>
    if hk : k = l then
      match JVal.decEq x y, JVal.decEqMembers xs ys with
      | isTrue h, isTrue t => isTrue (by rw [hk, h, t])
      | isFalse h, _ => isFalse (by intro e; cases e; exact h rfl)
      | _, isFalse t => isFalse (by intro e; cases e; exact t rfl)
    else isFalse (by intro e; cases e; exact hk rfl)
end

instance : DecidableEq JVal := JVal.decEq

/-! ## Numbers -/

namespace JSNum

/-- The comparison `a < b` of two JavaScript numbers; false when either is NaN. -/
def lt : JSNum → JSNum → Bool
  | nan, _ => false
  | negInf, nan => false
  | negInf, negInf => false
  | negInf, fin _ => true
  | negInf, posInf => true
  | fin _, nan => false
  | fin _, negInf => false
  | fin a, fin b => decide (a < b)
  | fin _, posInf => true
  | posInf, _ => false

/-- ToBoolean on a number: `0` and `NaN` are falsy. -/
def truthy : JSNum → Bool
  | nan => false
  | fin q => decide (q ≠ 0)
  | negInf => true
  | posInf => true

/-- The number lies in the closed interval from `0.1` to `1.0`. -/
def inUnitRange : JSNum → Prop
  | fin q => (1 : ℚ) / 10 ≤ q ∧ q ≤ 1
  | _ => False

end JSNum

/-- `Math.max(a, b)` on two numbers: NaN if either is NaN, else `b` if it is the larger. -/
def mathMax (a b : JSNum) : JSNum :=
  if a = .nan ∨ b = .nan then .nan else if a.lt b then b else a

/-- `Math.min(a, b)` on two numbers: NaN if either is NaN, else `b` if it is the smaller. -/
def mathMin (a b : JSNum) : JSNum :=
  if a = .nan ∨ b = .nan then .nan else if b.lt a then b else a

/-- Two to an integer power. -/
def pow2 (e : Int) : ℚ :=
  if 0 ≤ e then ((2 ^ e.toNat : ℕ) : ℚ) else 1 / ((2 ^ (-e).toNat : ℕ) : ℚ)

/-- The number of halvings that bring `n` below 2, at most `fuel` of them. -/
def log2Fuel : Nat → Nat → Nat
  | 0, _ => 0
  | fuel + 1, n => if 2 ≤ n then log2Fuel fuel (n / 2) + 1 else 0

/-- The integer part of the binary logarithm of a positive natural number. -/
def floorLog2 (n : Nat) : Nat := log2Fuel n n

/-- The binade of a rational other than zero: the `e` with
`2^e ≤ |q| < 2^(e+1)`. -/
def binade (q : ℚ) : Int :=
  if pow2 ((floorLog2 q.num.natAbs : Int) - (floorLog2 q.den : Int)) ≤ |q| then
    (floorLog2 q.num.natAbs : Int) - (floorLog2 q.den : Int)
  else (floorLog2 q.num.natAbs : Int) - (floorLog2 q.den : Int) - 1

/-- The nearest integer, the even one of two that are equally near. -/
def roundHalfEven (x : ℚ) : Int :=
  if x - ⌊x⌋ < 1 / 2 then ⌊x⌋
  else if 1 / 2 < x - ⌊x⌋ then ⌊x⌋ + 1
  else if ⌊x⌋ % 2 = 0 then ⌊x⌋ else ⌊x⌋ + 1

/-- The spacing of the doubles around a rational other than zero: `2^(e-52)`
for `e` its binade, and `2^-1074` below the normal range. -/
def ulp (q : ℚ) : ℚ :=
  pow2 (max (binade q) (-1022) - 52)

/-- The magnitude of the double nearest to a rational other than zero, before
the check for overflow. -/
def nearest (q : ℚ) : ℚ :=
  (roundHalfEven (|q| / ulp q) : ℚ) * ulp q

/-- The double nearest to a rational (round to nearest, ties to even), an
infinity when the rounded magnitude reaches `2^1024`. -/
def roundDouble (q : ℚ) : JSNum :=
  if q = 0 then .fin 0
  else if pow2 1024 ≤ nearest q then (if 0 < q then .posInf else .negInf)
  else .fin (if 0 < q then nearest q else -nearest q)

/-- The value of a string of decimal digits. -/
def digitsToNat (ds : List Char) : Nat :=
  ds.foldl (fun n c => 10 * n + (c.toNat - 48)) 0

/-- Ten to an integer power. -/
def pow10 (e : Int) : ℚ :=
  if 0 ≤ e then ((10 ^ e.toNat : ℕ) : ℚ) else 1 / ((10 ^ (-e).toNat : ℕ) : ℚ)

/-- The number denoted by sign, integer digits, fraction digits and exponent. -/
def decimalToNumber (neg : Bool) (intDs fracDs : List Char) (exp : Int) : JSNum :=
  let m : ℚ := (digitsToNat (intDs ++ fracDs) : ℚ) * pow10 (exp - (fracDs.length : Int))
  roundDouble (if neg then -m else m)

/-- An optional sign at the head of the text (`-`, and `+` when `plus` is set):
whether the sign is `-`, and the text after the sign. -/
def scanSign (plus : Bool) : List Char → Bool × List Char
  | [] => (false, [])
  | c :: r =>
    if c = '-' then (true, r)
    else if plus = true ∧ c = '+' then (false, r)
    else (false, c :: r)

/-- An optional exponent part `[eE][+-]?[0-9]+`: the exponent (0 when there is no
`e`) and the rest; `none` when an `e` is not followed by a well-formed exponent. -/
def scanExponent : List Char → Option (Int × List Char)
  | [] => some (0, [])
  | c :: rest =>
    if c = 'e' ∨ c = 'E' then
      if ((scanSign true rest).2.takeWhile Char.isDigit) = [] then none
      else
        some (if (scanSign true rest).1
            then -(digitsToNat ((scanSign true rest).2.takeWhile Char.isDigit) : Int)
            else (digitsToNat ((scanSign true rest).2.takeWhile Char.isDigit) : Int),
          (scanSign true rest).2.dropWhile Char.isDigit)
    else some (0, c :: rest)

/-! ## Strings -/

/-- WhiteSpace and LineTerminator code points: what `trim` removes and what
StringToNumber skips. -/
def isJsWhitespace (c : Char) : Bool :=
  let n := c.toNat
  n = 0x09 || n = 0x0A || n = 0x0B || n = 0x0C || n = 0x0D || n = 0x20 || n = 0xA0
    || n = 0x1680 || (0x2000 ≤ n && n ≤ 0x200A) || n = 0x2028 || n = 0x2029
    || n = 0x202F || n = 0x205F || n = 0x3000 || n = 0xFEFF

/-- Remove the elements satisfying `p` from the end of a list. -/
def dropEndWhile (p : Char → Bool) (cs : List Char) : List Char :=
  (cs.reverse.dropWhile p).reverse

/-- `String.prototype.trim`. -/
def trim (cs : List Char) : List Char :=
  dropEndWhile isJsWhitespace (cs.dropWhile isJsWhitespace)

/-- `String.prototype.startsWith`. -/
def startsWith (cs pat : List Char) : Bool :=
  pat.isPrefixOf cs

/-- The value of a digit in the given radix, if it is one. -/
def digitValue (radix : Nat) (c : Char) : Option Nat :=
  let n := c.toNat
  let v : Option Nat :=
    if 48 ≤ n ∧ n ≤ 57 then some (n - 48)
    else if 97 ≤ n ∧ n ≤ 102 then some (n - 87)
    else if 65 ≤ n ∧ n ≤ 70 then some (n - 55)
    else none
  v.bind (fun d => if d < radix then some d else none)

/-- A NonDecimalIntegerLiteral body (after `0x`, `0o` or `0b`). -/
def radixLiteral (radix : Nat) (ds : List Char) : JSNum :=
  if ds = [] then .nan
  else
    match ds.mapM (digitValue radix) with
    | some vs => roundDouble ((vs.foldl (fun n d => radix * n + d) 0 : ℕ) : ℚ)
    | none => .nan

/-- An optional fraction `.[0-9]*`: its digits and the rest. -/
def scanOptionalFraction : List Char → List Char × List Char
  | [] => ([], [])
  | c :: r =>
    if c = '.' then (r.takeWhile Char.isDigit, r.dropWhile Char.isDigit) else ([], c :: r)

/-- StrDecimalLiteral: optional sign, then `Infinity` or decimal digits with an
optional fraction and exponent; anything else is NaN. -/
def strDecimalLiteral (t : List Char) : JSNum :=
  let neg := (scanSign true t).1
  let body := (scanSign true t).2
  if body = "Infinity".data then (if neg then .negInf else .posInf)
  else
    let intDs := body.takeWhile Char.isDigit
    let frac := scanOptionalFraction (body.dropWhile Char.isDigit)
    if intDs = [] ∧ frac.1 = [] then .nan
    else
      match scanExponent frac.2 with
      | some (e, []) => decimalToNumber neg intDs frac.1 e
      | _ => .nan

/-- StringToNumber: the number a string converts to. -/
def stringToNumber (s : List Char) : JSNum :=
  let t := trim s
  match t with
  | [] => .fin 0
  | '0' :: x :: rest =>
    if x = 'x' ∨ x = 'X' then radixLiteral 16 rest
    else if x = 'o' ∨ x = 'O' then radixLiteral 8 rest
    else if x = 'b' ∨ x = 'B' then radixLiteral 2 rest
    else strDecimalLiteral t
  | _ => strDecimalLiteral t

/-! ## Conversions and property access -/

namespace JVal

/-- ToBoolean: `undefined`, `null`, `false`, `0`, `NaN` and the empty string are
falsy; every other value, also an empty array or object, is truthy. -/
def truthy : JVal → Bool
  | undefined => false
  | null => false
  | bool b => b
  | num n => n.truthy
  | str s => decide (s ≠ "")
  | arr _ => true
  | obj _ => true

/-- The own property `name` of an object with the given members, the last
duplicate winning. -/
def ownProp (name : String) (kvs : List (String × JVal)) : Option JVal :=
  kvs.reverse.lookup name

mutual
/-- ToString throws a TypeError on this value. A parsed object inherits
`Object.prototype.toString` unless it has an own member `toString`, whose
value is never callable; an array joins the strings of its elements. -/
def toStringThrows : JVal → Bool
  | obj kvs => (ownProp "toString" kvs).isSome
  | arr xs => anyToStringThrows xs
  | _ => false
/-- ToString throws on some element of the list. -/
def anyToStringThrows : List JVal → Bool
  | [] => false
  | x :: xs => toStringThrows x || anyToStringThrows xs
end

mutual
/-- ToNumber. An object or array is first converted to a primitive: `valueOf`
returns the object itself, so the result is the number of its string. A plain
object has the string `[object Object]`, which is not numeric; an array has
the comma-separated strings of its elements (`null` giving the empty string),
which is numeric only when the array has at most one element; a number
element converts to its string and back to itself. -/
def toNumber : JVal → Except JSError JSNum
  | undefined => .ok .nan
  | null => .ok (.fin 0)
  | bool b => .ok (.fin (if b then 1 else 0))
  | num n => .ok n
  | str s => .ok (stringToNumber s.data)
  | obj kvs => if (ownProp "toString" kvs).isSome then .error .typeError else .ok .nan
  | arr xs => arrayToNumber xs
/-- ToNumber of an array with the given elements. -/
def arrayToNumber : List JVal → Except JSError JSNum
  | [] => .ok (.fin 0)
  | [x] =>
    match x with
    | undefined => .ok (.fin 0)
    | null => .ok (.fin 0)
    | bool _ => .ok .nan
    | num n => .ok n
    | str s => .ok (stringToNumber s.data)
    | obj kvs => if (ownProp "toString" kvs).isSome then .error .typeError else .ok .nan
    | arr ys => arrayToNumber ys
  | x :: y :: rest =>
    if anyToStringThrows (x :: y :: rest) then .error .typeError else .ok .nan
end

/-- The value of `base.name` on a value other than `null` and `undefined`, for
one of the property names the handler reads (`title`, `author`, `gradeLevel`,
`subject`, `series`, `publisher`, `isbn`, `description`, `confidence`), none of
which is defined on a built-in prototype: the own member of an object, and
`undefined` when there is none or the value is not an object. -/
def member (base : JVal) (name : String) : JVal :=
  match base with
  | obj kvs => (ownProp name kvs).getD undefined
  | _ => undefined

/-- Reading `base.name`: a TypeError on `null` and `undefined`. -/
def getProp (base : JVal) (name : String) : Except JSError JVal :=
  match base with
  | undefined => .error .typeError
  | null => .error .typeError
  | _ => .ok (base.member name)

/-- The expression `a || b`. -/
def or (a b : JVal) : JVal :=
  if a.truthy then a else b

end JVal

/-! ## `JSON.parse` -/

/-- Why a parse did not produce a value: the text is not JSON, or the
recursion budget of the embedding ran out. `parseValue_fuel` shows that the
budget `JSON.parse` uses never runs out, and `parseValue_fuel_independent` that
a larger budget gives the same result. -/
inductive ParseError where
  | badSyntax
  | outOfFuel
deriving DecidableEq

/-- JSON whitespace: tab, line feed, carriage return, space. -/
def isJsonWhitespace (c : Char) : Bool :=
  c = '\t' || c = '\n' || c = '\r' || c = ' '

/-- Skip JSON whitespace. -/
def skipWs (cs : List Char) : List Char :=
  cs.dropWhile isJsonWhitespace

/-- The UTF-16 code units of a character. -/
def utf16Units (c : Char) : List Nat :=
  let n := c.toNat
  if n < 0x10000 then [n]
  else [0xD800 + (n - 0x10000) / 0x400, 0xDC00 + (n - 0x10000) % 0x400]

/-- The character of a single code unit; an unpaired surrogate, which a list of
characters cannot hold, is shown as U+FFFD. -/
def unitChar (u : Nat) : Char :=
  if 0xD800 ≤ u ∧ u ≤ 0xDFFF then Char.ofNat 0xFFFD else Char.ofNat u

/-- Characters of a sequence of UTF-16 code units, surrogate pairs combined;
the first argument is a high surrogate waiting for its partner. -/
def decodeUtf16 : Option Nat → List Nat → List Char
  | none, [] => []
  | some _, [] => [Char.ofNat 0xFFFD]
  | none, a :: rest =>
    if 0xD800 ≤ a ∧ a ≤ 0xDBFF then decodeUtf16 (some a) rest
    else unitChar a :: decodeUtf16 none rest
  | some h, b :: rest =>
    if 0xDC00 ≤ b ∧ b ≤ 0xDFFF then
      Char.ofNat (0x10000 + (h - 0xD800) * 0x400 + (b - 0xDC00)) :: decodeUtf16 none rest
    else if 0xD800 ≤ b ∧ b ≤ 0xDBFF then Char.ofNat 0xFFFD :: decodeUtf16 (some b) rest
    else Char.ofNat 0xFFFD :: unitChar b :: decodeUtf16 none rest

/-- The code unit written by four hexadecimal digits. -/
def hex4 (a b c d : Char) : Option Nat :=
  (digitValue 16 a).bind fun x =>
  (digitValue 16 b).bind fun y =>
  (digitValue 16 c).bind fun z =>
  (digitValue 16 d).bind fun w => some (((x * 16 + y) * 16 + z) * 16 + w)

/-- The code unit of a single-character escape. -/
def escapeUnit (e : Char) : Option Nat :=
  if e = '\x22' then some 0x22
  else if e = '\x5c' then some 0x5C
  else if e = '/' then some 0x2F
  else if e = 'b' then some 0x08
  else if e = 'f' then some 0x0C
  else if e = 'n' then some 0x0A
  else if e = 'r' then some 0x0D
  else if e = 't' then some 0x09
  else none

/-- The body of a JSON string after its opening quote: the code units up to the
closing quote, and the text after it. -/
def scanString : List Char → Except ParseError (List Nat × List Char)
  | [] => .error .badSyntax
  | c :: rest =>
    if c = '\x22' then .ok ([], rest)
    else if c = '\x5c' then
      match rest with
      | [] => .error .badSyntax
      | e :: rest1 =>
        if e = 'u' then
          match rest1 with
          | a :: b :: c :: d :: rest2 =>
            match hex4 a b c d with
            | some u => (scanString rest2).map fun r => (u :: r.1, r.2)
            | none => .error .badSyntax
          | _ => .error .badSyntax
        else
          match escapeUnit e with
          | some u => (scanString rest1).map fun r => (u :: r.1, r.2)
          | none => .error .badSyntax
    else if c.toNat < 0x20 then .error .badSyntax
    else (scanString rest).map fun r => (utf16Units c ++ r.1, r.2)

/-- A JSON string after its opening quote. -/
def parseString (cs : List Char) : Except ParseError (String × List Char) :=
  (scanString cs).map fun r => (String.mk (decodeUtf16 none r.1), r.2)

/-- The integer part of a JSON number, `0 | [1-9][0-9]*`: its digits and the rest. -/
def scanInt : List Char → List Char × List Char
  | [] => ([], [])
  | c :: r =>
    if c = '0' then (['0'], r)
    else ((c :: r).takeWhile Char.isDigit, (c :: r).dropWhile Char.isDigit)

/-- The optional fraction of a JSON number, `. [0-9]+`: its digits and the rest;
`none` when a point is not followed by a digit. -/
def scanFraction : List Char → Option (List Char × List Char)
  | [] => some ([], [])
  | c :: r =>
    if c = '.' then
      if r.takeWhile Char.isDigit = [] then none
      else some (r.takeWhile Char.isDigit, r.dropWhile Char.isDigit)
    else some ([], c :: r)

/-- A JSON number: `-? (0 | [1-9][0-9]*) (. [0-9]+)? ([eE] [+-]? [0-9]+)?`. -/
def parseNumber (cs : List Char) : Except ParseError (JVal × List Char) :=
  if (scanInt (scanSign false cs).2).1 = [] then .error .badSyntax
  else
    match scanFraction (scanInt (scanSign false cs).2).2 with
    | none => .error .badSyntax
    | some (fracDs, r2) =>
      match scanExponent r2 with
      | some (e, r3) =>
        .ok (.num (decimalToNumber (scanSign false cs).1 (scanInt (scanSign false cs).2).1
          fracDs e), r3)
      | none => .error .badSyntax

/-- The text after the character `c`, when the text starts with it. -/
def expectChar (c : Char) : List Char → Option (List Char)
  | [] => none
  | d :: rest => if d = c then some rest else none

mutual
/-- A JSON value at the head of the text (no leading whitespace), and the text after it. -/
def parseValue : Nat → List Char → Except ParseError (JVal × List Char)
  | 0, _ => .error .outOfFuel
  | fuel + 1, cs =>
    match cs with
    | [] => .error .badSyntax
    | c :: rest =>
      if c = '\x7b' then
        match expectChar '\x7d' (skipWs rest) with
        | some rest2 => .ok (.obj [], rest2)
        | none => parseMembers fuel (skipWs rest) []
      else if c = '[' then
        match expectChar ']' (skipWs rest) with
        | some rest2 => .ok (.arr [], rest2)
        | none => parseElements fuel (skipWs rest) []
      else if c = '\x22' then (parseString rest).map fun r => (.str r.1, r.2)
      else if "true".data.isPrefixOf cs then .ok (.bool true, cs.drop 4)
      else if "false".data.isPrefixOf cs then .ok (.bool false, cs.drop 5)
      else if "null".data.isPrefixOf cs then .ok (.null, cs.drop 4)
      else parseNumber cs
/-- The elements of a non-empty array after `[` and whitespace, up to `]`. -/
def parseElements : Nat → List Char → List JVal → Except ParseError (JVal × List Char)
  | 0, _, _ => .error .outOfFuel
  | fuel + 1, cs, acc =>
    match parseValue fuel cs with
    | .error e => .error e
    | .ok (v, rest) =>
      match skipWs rest with
      | [] => .error .badSyntax
      | d :: rest2 =>
        if d = ',' then parseElements fuel (skipWs rest2) (acc ++ [v])
        else if d = ']' then .ok (.arr (acc ++ [v]), rest2)
        else .error .badSyntax
/-- The members of a non-empty object after the opening brace and whitespace, up
to the closing brace. -/
def parseMembers : Nat → List Char → List (String × JVal) →
    Except ParseError (JVal × List Char)
  | 0, _, _ => .error .outOfFuel
  | fuel + 1, cs, acc =>
    match expectChar '\x22' cs with
    | none => .error .badSyntax
    | some rest =>
      match parseString rest with
      | .error e => .error e
      | .ok (key, rest1) =>
        match expectChar ':' (skipWs rest1) with
        | none => .error .badSyntax
        | some rest2 =>
          match parseValue fuel (skipWs rest2) with
          | .error e => .error e
          | .ok (v, rest3) =>
            match skipWs rest3 with
            | [] => .error .badSyntax
            | d :: rest4 =>
              if d = ',' then parseMembers fuel (skipWs rest4) (acc ++ [(key, v)])
              else if d = '\x7d' then .ok (.obj (acc ++ [(key, v)]), rest4)
              else .error .badSyntax
end

/-- The text without its leading and trailing JSON whitespace. -/
def jsonBody (cs : List Char) : List Char :=
  dropEndWhile isJsonWhitespace (skipWs cs)

/-- `JSON.parse(text)`: the text is whitespace, one value, whitespace; anything
else is a SyntaxError. -/
def JSON.parse (text : List Char) : Except JSError JVal :=
  match parseValue (2 * (jsonBody text).length + 1) (jsonBody text) with
  | .ok (v, []) => .ok v
  | _ => .error .syntaxError

/-! ## `routes/ai.js`: from the model text to the response -/

/-- The string of three backticks. -/
def fence : List Char := "```".data

/-- The string of three backticks followed by `json`. -/
def jsonFence : List Char := "```json".data

/-- `s.replace(/<lit>\n?/, '')` for a non-empty literal `lit`: the leftmost
occurrence of `lit`, with a line feed right after it if there is one, is removed. -/
def replaceOpening (lit : List Char) : List Char → List Char
  | [] => []
  | c :: cs =>
    if lit.isPrefixOf (c :: cs) then
      match (c :: cs).drop lit.length with
      | '\n' :: r => r
      | r => r
    else c :: replaceOpening lit cs

/-- `s.replace(/\n?<fence>$/, '')`: a fence at the very end of the string, with a
line feed right before it if there is one, is removed. -/
def replaceClosing : List Char → List Char
  | [] => []
  | c :: cs =>
    if (c = '\n' ∧ cs = fence) ∨ c :: cs = fence then []
    else c :: replaceClosing cs

/-- The variable `cleanedText` when `JSON.parse` is reached (lines 110-117). -/
def cleanedText (text : List Char) : List Char :=
  let t := trim text
  if startsWith t jsonFence then replaceClosing (replaceOpening jsonFence t)
  else if startsWith t fence then replaceClosing (replaceOpening fence t)
  else t

/-- The variable `bookInfo` (line 119). -/
def bookInfo (text : List Char) : Except JSError JVal :=
  JSON.parse (cleanedText text)

/-- The `data` object of a response: the ten members of `sanitizedBookInfo`, and
the `error` member that only the fallback object has. -/
structure ExtractedBookInfo where
  title : JVal
  author : JVal
  gradeLevel : JVal
  subject : JVal
  series : JVal
  publisher : JVal
  isbn : JVal
  description : JVal
  confidence : JSNum
  extractedByAI : Bool
  error : Option String
deriving DecidableEq

/-- The expression `Math.min(Math.max(c || 0.5, 0.1), 1.0)` for `c` the value of
`bookInfo.confidence`. -/
def clampConfidence (c : JVal) : Except JSError JSNum := do
  let x ← (c.or (.num (.fin (1 / 2)))).toNumber
  pure (mathMin (mathMax x (.fin (1 / 10))) (.fin 1))

/-- The object `sanitizedBookInfo` (lines 122-133), its members evaluated in
source order. -/
def sanitizedBookInfo (bookInfo : JVal) : Except JSError ExtractedBookInfo := do
  let title ← bookInfo.getProp "title"
  let author ← bookInfo.getProp "author"
  let gradeLevel ← bookInfo.getProp "gradeLevel"
  let subject ← bookInfo.getProp "subject"
  let series ← bookInfo.getProp "series"
  let publisher ← bookInfo.getProp "publisher"
  let isbn ← bookInfo.getProp "isbn"
  let description ← bookInfo.getProp "description"
  let confidence ← bookInfo.getProp "confidence"
  let clamped ← clampConfidence confidence
  pure {
    title := title.or .null
    author := author.or .null
    gradeLevel := gradeLevel.or .null
    subject := subject.or .null
    series := series.or .null
    publisher := publisher.or .null
    isbn := isbn.or .null
    description := description.or .null
    confidence := clamped
    extractedByAI := true
    error := none }

/-- What the handler sends: the HTTP status and the members of the JSON body. -/
structure Response where
  status : Nat
  success : Bool
  message : Option String
  data : Option ExtractedBookInfo
  error : Option String
deriving DecidableEq

/-- The `data` object of the `catch (parseError)` branch (lines 148-160). -/
def fallbackData : ExtractedBookInfo where
  title := .null
  author := .null
  gradeLevel := .null
  subject := .null
  series := .null
  publisher := .null
  isbn := .null
  description := .null
  confidence := .fin (1 / 10)
  extractedByAI := true
  error := some "AI response parsing failed"

/-- The response of lines 135-138. -/
def successResponse (info : ExtractedBookInfo) : Response where
  status := 200
  success := true
  message := none
  data := some info
  error := none

/-- The response of the `catch (parseError)` branch (lines 145-161). -/
def fallbackResponse : Response where
  status := 200
  success := false
  message := some "Could not parse AI response. Please try again or enter book details manually."
  data := some fallbackData
  error := none

/-- The response of the outer `catch (error)` branch (lines 165-169), with the
text of its `error` member. -/
def failureResponse (detail : String) : Response where
  status := 500
  success := false
  message := some "Failed to extract book information. Please check your API key and try again."
  data := none
  error := some detail

/-- The body of the inner `try` (lines 109-138). -/
def parseAndSanitize (text : List Char) : Except JSError Response := do
  let parsed ← bookInfo text
  let info ← sanitizedBookInfo parsed
  pure (successResponse info)

/-- The inner `try ... catch (parseError)` statement (lines 108-162): an
exception of the body is answered with the fallback response. An exception
leaving this statement would reach the outer `catch (error)`. -/
def normalizeAndSanitize (text : List Char) : Except JSError Response :=
  tryCatch (parseAndSanitize text) (fun _ => pure fallbackResponse)

/-- The response of the handler once the model has answered with `text`
(lines 106-170). -/
def respond (text : List Char) : Response :=
  match normalizeAndSanitize text with
  | .ok r => r
  | .error _ => failureResponse "Internal server error"

/-! ## `pages/AddBook.jsx`: what the page does with the response -/

/-- The outcome of `extractBookInfo` on the page: the form is filled from the
record and a success notice is shown, or an error notice is shown. -/
inductive PageOutcome where
  | extracted (info : ExtractedBookInfo)
  | failed (notice : String)
deriving DecidableEq

/-- The expression `message || fallback` on an optional string. -/
def orDefault (message : Option String) (fallback : String) : String :=
  match message with
  | some m => if m ≠ "" then m else fallback
  | none => fallback

/-- The function `extractBookInfo` of the page (lines 80-104) on the response of
the request; a status outside 200-299 makes the request throw. -/
def AddBook.extractBookInfo (r : Response) : PageOutcome :=
  if 200 ≤ r.status ∧ r.status < 300 then
    match r.success, r.data with
    | true, some info => .extracted info
    | _, _ => .failed (orDefault r.message "Failed to extract book information")
  else if r.status = 400 then
    .failed (orDefault r.message "Invalid request. Please check your image and try again.")
  else if r.status = 500 then
    .failed "Server error. Please check if your API key is configured correctly."
  else .failed "Failed to extract book information"

/-! ## Vocabulary of the statements -/

/-- The eight string members of the schema, each with its projection. -/
def stringFields : List (String × (ExtractedBookInfo → JVal)) :=
  [("title", ExtractedBookInfo.title), ("author", ExtractedBookInfo.author),
   ("gradeLevel", ExtractedBookInfo.gradeLevel), ("subject", ExtractedBookInfo.subject),
   ("series", ExtractedBookInfo.series), ("publisher", ExtractedBookInfo.publisher),
   ("isbn", ExtractedBookInfo.isbn), ("description", ExtractedBookInfo.description)]

/-- The sanitized record all of whose string members are `null`. -/
def blankInfo (confidence : JSNum) : ExtractedBookInfo where
  title := .null
  author := .null
  gradeLevel := .null
  subject := .null
  series := .null
  publisher := .null
  isbn := .null
  description := .null
  confidence := confidence
  extractedByAI := true
  error := none

/-- The clamp of the specification, `clamp(c, min = 0.1, max = 1.0)`, on an exact value. -/
def clampSpec (c : ℚ) : ℚ :=
  min (max c (1 / 10)) 1

/-- The value is a string. -/
def JVal.isString : JVal → Bool
  | .str _ => true
  | _ => false

/-- A model answer that wraps the text `j` in a markdown fence: whitespace, the
opening fence (with the `json` tag or bare), an optional line feed, `j`, an
optional line feed, the closing fence, whitespace. -/
def fencedText (ws₁ : List Char) (tagged nl₁ : Bool) (j : List Char) (nl₂ : Bool)
    (ws₂ : List Char) : List Char :=
  ws₁ ++ ((if tagged then jsonFence else fence) ++ (if nl₁ then ['\n'] else []) ++ j
    ++ (if nl₂ then ['\n'] else []) ++ fence) ++ ws₂

/-- A text without one leading line feed. -/
def dropLeadingNewline : List Char → List Char
  | [] => []
  | c :: r => if c = '\n' then r else c :: r

/-- A text without one trailing line feed. -/
def dropTrailingNewline : List Char → List Char
  | [] => []
  | [c] => if c = '\n' then [] else [c]
  | c :: d :: r => c :: dropTrailingNewline (d :: r)

/-! ## `routes/ai.js`: the credential -/

/-- A thrown `Error`, known by its `message`. -/
structure JSException where
  message : String
deriving DecidableEq

/-- A document of the `Config` collection (`models/Config.js`); `value` is of
the schema type `Mixed`. -/
structure ConfigRecord where
  key : String
  value : JVal
  encrypted : Bool
deriving DecidableEq

/-- The configuration store as a handler meets it: the documents of the
collection, or a store whose queries reject. -/
inductive ConfigDb where
  | unavailable (error : JSException)
  | records (docs : List ConfigRecord)
deriving DecidableEq

/-- `Config.findOne({ key })`: the first document with the key, `null` when
there is none, a rejection when the store is unavailable. -/
def ConfigDb.findOne (db : ConfigDb) (key : String) : Except JSException (Option ConfigRecord) :=
  match db with
  | .unavailable e => .error e
  | .records docs => .ok (docs.find? fun d => decide (d.key = key))

/-- The value of `process.env.GEMINI_API_KEY`: a string, or `undefined` when the
variable is not set. -/
def environmentKey (env : Option String) : JVal :=
  match env with
  | some s => .str s
  | none => .undefined

/-- The function `getGeminiApiKey` (lines 24-42): the value of the stored
record when there is a record with a truthy value, else the environment
variable when it is truthy, else `null`; when the query throws, the
environment variable or `null`. -/
def getGeminiApiKey (db : ConfigDb) (env : Option String) : Except JSException JVal :=
  tryCatch
    (do
      let apiKeyConfig ← db.findOne "gemini_api_key"
      match apiKeyConfig with
      | some config =>
        if config.value.truthy then pure config.value
        else if (environmentKey env).truthy then pure (environmentKey env)
        else pure .null
      | none =>
        if (environmentKey env).truthy then pure (environmentKey env)
        else pure .null)
    (fun _ => pure ((environmentKey env).or .null))

/-! ## `routes/ai.js`: the upload -/

/-- What the upload checks read of a file: its size in bytes and its declared
MIME type (`file.mimetype` on the server, `file.type` on the page). -/
structure UploadFile where
  size : Nat
  mimetype : String
deriving DecidableEq

/-- The two errors of the upload middleware: the `Error` of `fileFilter`, and the
`LIMIT_FILE_SIZE` error of the upload library. -/
inductive UploadError where
  | onlyImages
  | limitFileSize
deriving DecidableEq

/-- The message of an upload error. -/
def UploadError.message : UploadError → String
  | .onlyImages => "Only image files are allowed"
  | .limitFileSize => "File too large"

/-- The option `limits.fileSize` (line 12). -/
def fileSizeLimit : Nat := 10 * 1024 * 1024

/-- The option `fileFilter` (lines 14-20). -/
def fileFilter (file : UploadFile) : Except UploadError Unit :=
  if startsWith file.mimetype.data "image/".data then .ok () else .error .onlyImages

/-- When the upload library raises `LIMIT_FILE_SIZE`: as soon as the bytes read
reach `limits.fileSize`, so that a file of exactly that size is rejected (multer
1.4.5-lts with busboy 1.x), or only for a larger file (earlier versions, and the
documentation, which calls the option the maximum file size). The sources pin no
version of the library, so the rule is a parameter of the middleware. -/
inductive LimitRule where
  | whenReached
  | whenExceeded
deriving DecidableEq

/-- The middleware `upload.single('image')` on the file of the `image` field, if
the request has one. The upload library calls `fileFilter` when the file part
begins and then reads the bytes, raising `LIMIT_FILE_SIZE` for a file larger
than `limits.fileSize` and, under the rule `whenReached`, also for a file of
exactly that size. -/
def upload (rule : LimitRule) (file : Option UploadFile) :
    Except UploadError (Option UploadFile) :=
  match file with
  | none => .ok none
  | some f => do
    fileFilter f
    if fileSizeLimit < f.size ∨ (rule = .whenReached ∧ f.size = fileSizeLimit) then
      throw .limitFileSize
    pure (some f)

/-! ## `routes/ai.js`: the request to the model -/

/-- What a resolved model call gives the handler: a response with a `text`
function returning the text, or no such response. -/
inductive ModelReply where
  | text (t : List Char)
  | missing
deriving DecidableEq

/-- How the promise of `model.generateContent` settles: resolved or rejected so
many milliseconds after the call, or never. A `text()` that throws counts as a
rejection. -/
inductive ModelCall where
  | resolves (ms : Nat) (reply : ModelReply)
  | rejects (ms : Nat) (error : JSException)
  | never
deriving DecidableEq

/-- What a handler did: the response it sent and when (in milliseconds after the
model call was made, 0 when it was not made), if it sent one, and the number
of calls to the model. -/
structure Outcome (ρ : Type) where
  answer : Option (Nat × ρ)
  modelCalls : Nat
deriving DecidableEq

/-- The response of lines 48-51. -/
def noFileResponse : Response where
  status := 400
  success := false
  message := some "No image file provided"
  data := none
  error := none

/-- The response of lines 57-60. -/
def notConfiguredResponse : Response where
  status := 400
  success := false
  message := some "Gemini API key not configured. Please configure it in Settings."
  data := none
  error := none

/-- The member `error` of the response of the outer `catch (error)` (line 168). -/
def errorDetail (development : Bool) (error : JSException) : String :=
  if development then error.message else "Internal server error"

/-- The engine's message for the TypeError of `response.text()` on a missing
response. -/
def missingTextMessage : String := "Cannot read properties of undefined (reading 'text')"

/-- The handler of `POST /extract-book-info` (lines 45-171) after the upload
middleware: `file` is `req.file`, `development` says whether `NODE_ENV` is
`development`, `call` is how the one model call would settle. The handler
awaits the model call itself, with no timer. -/
def extractBookInfoHandler (file : Option UploadFile) (db : ConfigDb) (env : Option String)
    (development : Bool) (call : ModelCall) : Outcome Response :=
  match file with
  | none => { answer := some (0, noFileResponse), modelCalls := 0 }
  | some _ =>
    match getGeminiApiKey db env with
    | .error e => { answer := some (0, failureResponse (errorDetail development e)), modelCalls := 0 }
    | .ok apiKey =>
      if apiKey.truthy = false then { answer := some (0, notConfiguredResponse), modelCalls := 0 }
      else
        match call with
        | .resolves ms (.text t) => { answer := some (ms, respond t), modelCalls := 1 }
        | .resolves ms .missing =>
          { answer := some (ms, failureResponse (errorDetail development ⟨missingTextMessage⟩))
            modelCalls := 1 }
        | .rejects ms e =>
          { answer := some (ms, failureResponse (errorDetail development e)), modelCalls := 1 }
        | .never => { answer := none, modelCalls := 1 }

/-- What became of a request to `POST /extract-book-info`: the upload middleware
passed an error on and the handler was not called, or the handler ran. -/
inductive RouteOutcome where
  | uploadError (e : UploadError)
  | handled (o : Outcome Response)
deriving DecidableEq

/-- The route `POST /extract-book-info`: the upload middleware, then the handler. -/
def extractBookInfoRoute (rule : LimitRule) (file : Option UploadFile) (db : ConfigDb)
    (env : Option String) (development : Bool) (call : ModelCall) : RouteOutcome :=
  match upload rule file with
  | .error e => .uploadError e
  | .ok accepted => .handled (extractBookInfoHandler accepted db env development call)

/-- The number of calls to the model made for a request. -/
def RouteOutcome.modelCalls : RouteOutcome → Nat
  | .uploadError _ => 0
  | .handled o => o.modelCalls

/-! ## `routes/config.js`: the test of an API key -/

/-- `String.prototype.includes`. -/
def includes : List Char → List Char → Bool
  | [], pat => pat.isPrefixOf []
  | c :: cs, pat => pat.isPrefixOf (c :: cs) || includes cs pat

/-- The body of a response of `POST /test-api-key`, and its status. -/
structure KeyTestResponse where
  status : Nat
  success : Bool
  valid : Bool
  message : String
  testResponse : Option (List Char)
  error : Option String
deriving DecidableEq

/-- The variable `errorMessage` of the `catch` of the handler (lines 115-122),
from the message of the caught error. -/
def errorMessage (message : String) : String :=
  if includes message.data "API_KEY_INVALID".data then "Invalid API key provided"
  else if includes message.data "PERMISSION_DENIED".data then
    "API key does not have required permissions"
  else if includes message.data "timeout".data then
    "Request timeout - please check your connection"
  else "Invalid API key or service unavailable"

/-- The response of the `catch` of the handler (lines 124-129). -/
def keyTestFailure (development : Bool) (error : JSException) : KeyTestResponse where
  status := 200
  success := false
  valid := false
  message := errorMessage error.message
  testResponse := none
  error := if development then some error.message else none

/-- The timer outruns the model call: the call settles later than `delay`
milliseconds after it was made, or never. -/
def timerFirst (delay : Nat) : ModelCall → Prop
  | .resolves ms _ => delay < ms
  | .rejects ms _ => delay < ms
  | .never => True

instance (delay : Nat) (call : ModelCall) : Decidable (timerFirst delay call) :=
  match call with
  | .resolves ms _ => inferInstanceAs (Decidable (delay < ms))
  | .rejects ms _ => inferInstanceAs (Decidable (delay < ms))
  | .never => isTrue trivial

/-- `Promise.race([testPromise, timeoutPromise])` (lines 90-95), the timer
rejecting with `Error('Request timeout')` after `delay` milliseconds: when and
how the race settles. A call that settles at the very instant the timer is due
wins, a timer firing no earlier than its delay. -/
def raceWithTimer (delay : Nat) (call : ModelCall) : Nat × Except JSException ModelReply :=
  if timerFirst delay call then (delay, .error ⟨"Request timeout"⟩)
  else
    match call with
    | .resolves ms reply => (ms, .ok reply)
    | .rejects ms e => (ms, .error e)
    | .never => (delay, .error ⟨"Request timeout"⟩)

/-- The handler registered for `POST /test-api-key` (lines 72-131) on the member
`apiKey` of the request body. -/
def testApiKeyHandler (apiKey : JVal) (development : Bool) (call : ModelCall) :
    Outcome KeyTestResponse :=
  let invalid : Outcome KeyTestResponse :=
    { answer := some (0,
        { status := 400
          success := false
          valid := false
          message := "API key is required and must be a non-empty string"
          testResponse := none
          error := none })
      modelCalls := 0 }
  match apiKey with
  | .str s =>
    if s = "" ∨ trim s.data = [] then invalid
    else
      match raceWithTimer 10000 call with
      | (ms, .ok (.text t)) =>
        { answer := some (ms,
            { status := 200
              success := true
              valid := true
              message := "API key is valid and working"
              testResponse := some t
              error := none })
          modelCalls := 1 }
      | (ms, .ok .missing) =>
        { answer := some (ms,
            { status := 200
              success := false
              valid := false
              message := "API key test failed - no valid response received"
              testResponse := none
              error := none })
          modelCalls := 1 }
      | (ms, .error e) => { answer := some (ms, keyTestFailure development e), modelCalls := 1 }
  | _ => invalid

/-! ## `pages/AddBook.jsx` and `utils/api.js`: the upload and the request -/

/-- The part of the state of the page that the upload touches. -/
structure UploadState where
  uploadedImage : Option UploadFile
  error : Option String
deriving DecidableEq

/-- The function `handleImageUpload` of the page (lines 43-67) on the chosen
file, if one was chosen; an accepted file is stored once it has been read. -/
def AddBook.handleImageUpload (s : UploadState) (file : Option UploadFile) : UploadState :=
  match file with
  | none => s
  | some f =>
    if 10 * 1024 * 1024 < f.size then { s with error := some "File size must be less than 10MB" }
    else if startsWith f.mimetype.data "image/".data = false then
      { s with error := some "Please select a valid image file" }
    else { uploadedImage := some f, error := none }

/-- The file that `extractBookInfo` of the page sends (line 70: it returns at
once when there is no uploaded image). -/
def AddBook.requestFile (s : UploadState) : Option UploadFile :=
  s.uploadedImage

/-- The request `aiAPI.extractBookInfo` (`utils/api.js` lines 81-87, `timeout:
60000`) and what the page makes of it: a response that has not come after 60
seconds makes the request throw an error without `response`, for which the
page shows its default notice. -/
def AddBook.extractBookInfoOver (o : Outcome Response) : PageOutcome :=
  match o.answer with
  | some (ms, r) =>
    if ms < 60000 then AddBook.extractBookInfo r
    else .failed "Failed to extract book information"
  | none => .failed "Failed to extract book information"

/-! ## More built-ins: `parseInt`, arithmetic, `length`, ToString -/

/-- `parseInt(string)` without a radix: leading whitespace is skipped, then an
optional sign, then `0x` or `0X` selects radix 16; the value is that of the
longest run of digits that follows, NaN when the run is empty. Whatever comes
after the digits is ignored. -/
def parseInt (s : List Char) : JSNum :=
  let neg := (scanSign true (s.dropWhile isJsWhitespace)).1
  let body := (scanSign true (s.dropWhile isJsWhitespace)).2
  let hex : Bool :=
    match body with
    | a :: x :: _ => decide (a = '0' ∧ (x = 'x' ∨ x = 'X'))
    | _ => false
  let radix : Nat := if hex then 16 else 10
  let digits := (if hex then body.drop 2 else body).takeWhile fun c => (digitValue radix c).isSome
  if digits = [] then .nan
  else
    let n : ℚ := ((digits.foldl (fun n c => radix * n + (digitValue radix c).getD 0) 0 : ℕ) : ℚ)
    roundDouble (if neg then -n else n)

namespace JSNum

/-- The difference `a - b`: the double nearest to the exact difference. -/
def sub : JSNum → JSNum → JSNum
  | fin a, fin b => roundDouble (a - b)
  | fin _, posInf => negInf
  | fin _, negInf => posInf
  | posInf, fin _ => posInf
  | posInf, negInf => posInf
  | negInf, fin _ => negInf
  | negInf, posInf => negInf
  | _, _ => nan

/-- The sign of an infinite product or quotient. -/
def signedInf (positive : Bool) : JSNum :=
  if positive then posInf else negInf

/-- The product `a * b`: the double nearest to the exact product. -/
def mul : JSNum → JSNum → JSNum
  | fin a, fin b => roundDouble (a * b)
  | fin a, posInf => if a = 0 then nan else signedInf (decide (0 < a))
  | fin a, negInf => if a = 0 then nan else signedInf (decide (a < 0))
  | posInf, fin b => if b = 0 then nan else signedInf (decide (0 < b))
  | negInf, fin b => if b = 0 then nan else signedInf (decide (b < 0))
  | posInf, posInf => posInf
  | posInf, negInf => negInf
  | negInf, posInf => negInf
  | negInf, negInf => posInf
  | _, _ => nan

/-- The quotient `a / b`: the double nearest to the exact quotient. A zero
divisor counts as `+0`. -/
def div : JSNum → JSNum → JSNum
  | fin a, fin b =>
    if b = 0 then (if a = 0 then nan else signedInf (decide (0 < a))) else roundDouble (a / b)
  | fin _, posInf => fin 0
  | fin _, negInf => fin 0
  | posInf, fin b => signedInf (decide (0 ≤ b))
  | negInf, fin b => signedInf (decide (b < 0))
  | _, _ => nan

/-- `Math.ceil`. -/
def ceil : JSNum → JSNum
  | fin q => fin (⌈q⌉ : ℤ)
  | n => n

/-- The natural number a JavaScript number is, if it is one. -/
def toNat? : JSNum → Option Nat
  | fin q => if q.den = 1 ∧ 0 ≤ q.num then some q.num.toNat else none
  | _ => none

end JSNum

/-- The `length` of a string: the number of its UTF-16 code units, two for a
character outside the basic plane. -/
def jsLength (s : List Char) : Nat :=
  (s.map fun c => (utf16Units c).length).sum

namespace JVal

mutual
/-- ToString on a parsed value, given the string of a number
(`Number.prototype.toString`, which is not modelled). An array joins the strings
of its elements with commas, `null` giving the empty string; a plain object
gives `[object Object]` unless an own member `toString` makes the conversion
throw. -/
def toText (numberToString : JSNum → List Char) : JVal → Except JSError (List Char)
  | undefined => .ok "undefined".data
  | null => .ok "null".data
  | bool b => .ok (if b then "true".data else "false".data)
  | num n => .ok (numberToString n)
  | str s => .ok s.data
  | obj kvs =>
    if (ownProp "toString" kvs).isSome then .error .typeError else .ok "[object Object]".data
  | arr xs => joinText numberToString xs
/-- `Array.prototype.join` with the comma. -/
def joinText (numberToString : JSNum → List Char) : List JVal → Except JSError (List Char)
  | [] => .ok []
  | x :: rest =>
    match ((match x with
      | undefined => .ok []
      | null => .ok []
      | v => toText numberToString v) : Except JSError (List Char)) with
    | .error e => .error e
    | .ok head =>
      match rest with
      | [] => .ok head
      | _ :: _ =>
        match joinText numberToString rest with
        | .error e => .error e
        | .ok tail => .ok (head ++ ',' :: tail)
end

/-- The value of `base.length` on a truthy value: the number of code units of a
string, the number of elements of an array, the own member of an object, and
`undefined` on a number or a boolean. -/
def lengthOf : JVal → JVal
  | str s => num (.fin (jsLength s.data))
  | arr xs => num (.fin xs.length)
  | obj kvs => (ownProp "length" kvs).getD undefined
  | _ => undefined

/-- The comparison `v < n` with a number on the right: ToNumber of the left
operand, then the comparison of numbers. -/
def ltNumber (v : JVal) (n : JSNum) : Except JSError Bool :=
  match toNumber v with
  | .ok m => .ok (m.lt n)
  | .error e => .error e

end JVal

/-! ## The regular expression of the email check -/

/-- The class `[^\s@]`. -/
def plainChar (c : Char) : Bool :=
  !isJsWhitespace c && c != '@'

/-- The test of `/^[^\s@]+@[^\s@]+\.[^\s@]+$/` on a string: a non-empty run of
plain characters, an `@`, and then plain characters only, with a dot that is
neither the first nor the last of them. -/
def emailRegexTest (s : List Char) : Bool :=
  match s.dropWhile plainChar with
  | c :: rest =>
    c = '@' && !(s.takeWhile plainChar).isEmpty && rest.all plainChar
      && (rest.drop 1).dropLast.contains '.'
  | [] => false

/-! ## `routes/ai.js`: the record as it is sent -/

/-- The keys of the record in the body written by `res.json`: `JSON.stringify`
leaves out a member whose value is `undefined`, and writes every other member,
a NaN confidence as `null`. -/
def ExtractedBookInfo.jsonKeys (d : ExtractedBookInfo) : List String :=
  ((stringFields.filter fun f => decide (f.2 d ≠ .undefined)).map fun f => f.1)
    ++ ["confidence", "extractedByAI"] ++ (if d.error.isSome then ["error"] else [])

/-! ## `routes/config.js`: the routes and the stored configuration -/

/-- A document of the `Config` collection with the time of its last update
(the schema option `timestamps`). -/
structure ConfigDocument extends ConfigRecord where
  updatedAt : Nat
deriving DecidableEq

/-- The configuration store as the routes of `config.js` meet it. -/
inductive ConfigStore where
  | unavailable (error : JSException)
  | documents (docs : List ConfigDocument)
deriving DecidableEq

/-- `Config.findOne({ key })` on the store. -/
def ConfigStore.findOne (store : ConfigStore) (key : String) :
    Except JSException (Option ConfigDocument) :=
  match store with
  | .unavailable e => .error e
  | .documents docs => .ok (docs.find? fun d => decide (d.key = key))

/-- The body of a response of `GET /:key` or `POST /:key`, and its status. -/
structure ConfigResponse where
  status : Nat
  success : Bool
  message : Option String
  hasValue : Option Bool
  key : Option String
  encrypted : Option Bool
  updatedAt : Option Nat
  error : Option String
deriving DecidableEq

/-- The handler registered for `GET /:key` (lines 8-35). -/
def getConfigHandler (store : ConfigStore) (key : String) : ConfigResponse :=
  match store.findOne key with
  | .ok none =>
    { status := 404
      success := false
      message := some "Configuration not found"
      hasValue := some false
      key := none
      encrypted := none
      updatedAt := none
      error := none }
  | .ok (some config) =>
    { status := 200
      success := true
      message := none
      hasValue := some config.value.truthy
      key := some key
      encrypted := some (config.encrypted || false)
      updatedAt := some config.updatedAt
      error := none }
  | .error e =>
    { status := 500
      success := false
      message := some "Failed to get configuration"
      hasValue := none
      key := none
      encrypted := none
      updatedAt := none
      error := some e.message }

/-- The engine's message for destructuring a missing request body. -/
def destructureMessage (name : String) : String :=
  "Cannot destructure property '" ++ name ++ "' of 'req.body' as it is undefined."

/-- The handler registered for `POST /:key` (lines 38-69) on the request body,
given what `Config.findOneAndUpdate` with `upsert` answers for the key, the
value and the `encrypted` member (`false` when the body has none). -/
def setConfigHandler (findOneAndUpdate : String → JVal → JVal → Except JSException ConfigDocument)
    (key : String) (body : JVal) : ConfigResponse :=
  let failure (e : JSException) : ConfigResponse :=
    { status := 500
      success := false
      message := some "Failed to save configuration"
      hasValue := none
      key := none
      encrypted := none
      updatedAt := none
      error := some e.message }
  match body with
  | .undefined => failure ⟨destructureMessage "value"⟩
  | .null => failure ⟨destructureMessage "value"⟩
  | _ =>
    if (body.member "value").truthy then
      match findOneAndUpdate key (body.member "value")
          (if body.member "encrypted" = .undefined then .bool false
            else body.member "encrypted") with
      | .ok config =>
        { status := 200
          success := true
          message := some "Configuration saved successfully"
          hasValue := none
          key := some key
          encrypted := some config.encrypted
          updatedAt := none
          error := none }
      | .error e => failure e
    else
      { status := 400
        success := false
        message := some "Configuration value is required"
        hasValue := none
        key := none
        encrypted := none
        updatedAt := none
        error := none }

/-- The request methods the router of `config.js` has routes for. -/
inductive Method where
  | get
  | post
  | delete
deriving DecidableEq

/-- The path of a route of the router: a literal segment such as
`/test-api-key`, or a named parameter such as `/:key`. -/
inductive RoutePath where
  | literal (segment : String)
  | param (name : String)
deriving DecidableEq

/-- The handlers of `config.js`, named after their comments. -/
inductive ConfigHandler where
  | getConfiguration
  | setConfiguration
  | testApiKey
  | deleteConfiguration
deriving DecidableEq

/-- The routes of `config.js` in the order of their registration (lines 8, 38,
72 and 134). -/
def configRoutes : List (Method × RoutePath × ConfigHandler) :=
  [(.get, .param "key", .getConfiguration),
   (.post, .param "key", .setConfiguration),
   (.post, .literal "test-api-key", .testApiKey),
   (.delete, .param "key", .deleteConfiguration)]

/-- Whether a route path matches a request path of one segment (the text after
the leading slash), and the parameters it binds: a parameter matches every
non-empty segment; a literal matches itself, letter case aside. -/
def RoutePath.matchSegment (path : RoutePath) (segment : String) :
    Option (List (String × String)) :=
  match path with
  | .literal s =>
    if s.data.map Char.toLower = segment.data.map Char.toLower then some [] else none
  | .param name =>
    if segment = "" ∨ '/' ∈ segment.data then none else some [(name, segment)]

/-- The dispatch of the router: the routes are tried in the order of their
registration and the first whose method and path match handles the request.
No handler of `config.js` calls `next`, so no later route is tried. -/
def dispatch (routes : List (Method × RoutePath × ConfigHandler)) (method : Method)
    (segment : String) : Option (ConfigHandler × List (String × String)) :=
  match routes with
  | [] => none
  | (m, path, handler) :: rest =>
    if m = method then
      match path.matchSegment segment with
      | some params => some (handler, params)
      | none => dispatch rest method segment
    else dispatch rest method segment

/-- What the router of `config.js` answers to a `POST`. -/
inductive ConfigPostOutcome where
  | configuration (response : ConfigResponse)
  | keyTest (outcome : Outcome KeyTestResponse)
  | unhandled
deriving DecidableEq

/-- A `POST` to the router of `config.js` after `authenticate` has let it
pass: the handler the dispatch selects runs on the request body. -/
def configPost (findOneAndUpdate : String → JVal → JVal → Except JSException ConfigDocument)
    (development : Bool) (call : ModelCall) (segment : String) (body : JVal) :
    ConfigPostOutcome :=
  match dispatch configRoutes .post segment with
  | some (.setConfiguration, params) =>
    .configuration (setConfigHandler findOneAndUpdate ((params.lookup "key").getD "") body)
  | some (.testApiKey, _) =>
    match body with
    | .undefined =>
      .keyTest
        { answer := some (0, keyTestFailure development ⟨destructureMessage "apiKey"⟩)
          modelCalls := 0 }
    | .null =>
      .keyTest
        { answer := some (0, keyTestFailure development ⟨destructureMessage "apiKey"⟩)
          modelCalls := 0 }
    | _ => .keyTest (testApiKeyHandler (body.member "apiKey") development call)
  | _ => .unhandled

/-- The request `configAPI.testApiKey(apiKey)` of `utils/api.js` (line 77): the
segment after `/config/` and the body. -/
def configAPI.testApiKey (apiKey : String) : String × JVal :=
  ("test-api-key", .obj [("apiKey", .str apiKey)])

/-! ## `routes/books.js` and `pages/Dashboard.jsx`: the statistics -/

/-- A document of the `Book` collection, as far as the statistics read it. -/
structure Book where
  status : String
deriving DecidableEq

/-- The values of the enumeration of `status` in `models/Book.js`. -/
def bookStatuses : List String := ["available", "checked-out", "maintenance", "lost"]

/-- The three counts of `GET /stats/overview` (lines 106-108). -/
structure Stats where
  totalBooks : Nat
  availableBooks : Nat
  checkedOutBooks : Nat
deriving DecidableEq

/-- `Book.countDocuments({ status })`. -/
def countStatus (books : List Book) (status : String) : Nat :=
  (books.filter fun b => decide (b.status = status)).length

/-- The counts of the statistics handler. -/
def statsOverview (books : List Book) : Stats where
  totalBooks := books.length
  availableBooks := countStatus books "available"
  checkedOutBooks := countStatus books "checked-out"

/-- The expression `stats?.member || 0` on a count. -/
def countOrZero (stats : Option Stats) (member : Stats → Nat) : Int :=
  match stats with
  | some s => if member s = 0 then 0 else (member s : Int)
  | none => 0

/-- The `value` of the card titled `Maintenance` (line 149). -/
def Dashboard.maintenanceValue (stats : Option Stats) : Int :=
  countOrZero stats Stats.totalBooks - countOrZero stats Stats.availableBooks
    - countOrZero stats Stats.checkedOutBooks

/-- The number a card shows when loading is over: `value || 0`. -/
def Dashboard.shown (value : Int) : Int :=
  if value = 0 then 0 else value

/-! ## `routes/books.js`: the pagination -/

/-- A value of `req.query`: a string, or an array or object of such values. -/
inductive QueryValue where
  | str (s : String)
  | arr (xs : List QueryValue)
  | obj (kvs : List (String × QueryValue))

mutual
/-- ToString on a query value. -/
def QueryValue.toText : QueryValue → List Char
  | .str s => s.data
  | .arr xs => QueryValue.joinText xs
  | .obj _ => "[object Object]".data
/-- The strings of the elements of an array, joined by commas. -/
def QueryValue.joinText : List QueryValue → List Char
  | [] => []
  | x :: rest =>
    match rest with
    | [] => x.toText
    | _ :: _ => x.toText ++ ',' :: QueryValue.joinText rest
end

/-- The expression `parseInt(value) || fallback` on a member of `req.query`
that may be missing (lines 10 and 11). -/
def queryNumber (value : Option QueryValue) (fallback : JSNum) : JSNum :=
  let n :=
    match value with
    | none => parseInt "undefined".data
    | some v => parseInt v.toText
  if n.truthy then n else fallback

/-- The variable `page` (line 10). -/
def pageOf (page : Option QueryValue) : JSNum :=
  queryNumber page (.fin 1)

/-- The variable `limit` (line 11). -/
def limitOf (limit : Option QueryValue) : JSNum :=
  queryNumber limit (.fin 20)

/-- The variable `skip` (line 12): `(page - 1) * limit`. -/
def skipOf (page limit : JSNum) : JSNum :=
  (page.sub (.fin 1)).mul limit

/-- The member `pages` of the answer (line 40): `Math.ceil(total / limit)`. -/
def pagesOf (total : Nat) (limit : JSNum) : JSNum :=
  (JSNum.div (.fin total) limit).ceil

/-- The documents `find(filter).sort(...).skip(skip).limit(limit)` returns from
the sorted list of the matching documents, for a skip that is a natural number
and a limit that is a positive one; `none` for other numbers, which the store
rejects or reads in another way and which are not modelled. -/
def findWindow {α : Type} (matching : List α) (skip limit : JSNum) : Option (List α) :=
  match skip.toNat?, limit.toNat? with
  | some s, some l => if l = 0 then none else some ((matching.drop s).take l)
  | _, _ => none

/-! ## `pages/AddBook.jsx`: saving the book -/

/-- The member `quantity` of the form data: the number `1` the form starts
with, or the text of the input once the user has changed it. -/
inductive QuantityField where
  | initial
  | entered (text : List Char)
deriving DecidableEq

/-- The members of the form data that `saveBook` reads; the others pass into
the request unchanged. -/
structure BookForm where
  title : JVal
  author : JVal
  quantity : QuantityField
deriving DecidableEq

/-- The result of `saveBook`: the error it sets, or the book data it submits. -/
inductive SaveOutcome where
  | error (message : String)
  | submitted (title author : JVal) (quantity : JSNum)
deriving DecidableEq

/-- The member `quantity` of the submitted book data (line 167):
`parseInt(formData.quantity) || 1`. -/
def submittedQuantity (quantity : QuantityField) : JSNum :=
  let n :=
    match quantity with
    | .initial => parseInt "1".data
    | .entered text => parseInt text
  if n.truthy then n else .fin 1

/-- The function `saveBook` (lines 152-169), up to the request. -/
def saveBook (formData : BookForm) : SaveOutcome :=
  if !formData.title.truthy || !formData.author.truthy then
    .error "Title and author are required"
  else .submitted formData.title formData.author (submittedQuantity formData.quantity)

/-- The text a number input holds when the user enters the natural number `q`
in decimal digits. -/
def enteredNumber (q : Nat) : QuantityField :=
  .entered (Nat.repr q).data

/-! ## `routes/auth.js`: registration and login -/

/-- A document of the `User` collection, as far as `routes/auth.js` reads it.
The schema (`models/User.js`) is not among the sources: `fullName` and
`isLocked` are read as plain members. -/
structure UserRecord where
  id : String
  username : String
  email : String
  firstName : String
  lastName : String
  fullName : String
  isActive : Bool
  isLocked : Bool
  lastLogin : Option Nat
deriving DecidableEq

/-- The argument of `new User(...)` in the registration handler. -/
structure NewUser where
  username : String
  email : String
  password : JVal
  firstName : String
  lastName : String
deriving DecidableEq

/-- How `user.save()` can reject: with a duplicate-key error (`code` 11000) on a
field, or with another error. -/
inductive SaveError where
  | duplicateKey (field : String)
  | other (error : JSException)
deriving DecidableEq

/-- What `routes/auth.js` takes from files that are not among the sources
(`models/User.js`, `middleware/auth.js`), from the process environment and from
built-ins that are not modelled. -/
structure AuthEnv where
  /-- The document `user.save()` stores, or the error it rejects with. -/
  save : NewUser → Except SaveError UserRecord
  /-- The function `generateToken` on the id of a user. -/
  generateToken : String → String
  /-- The method `comparePassword` of a user on the password of the request. -/
  comparePassword : UserRecord → JVal → Except JSException Bool
  /-- `String.prototype.toLowerCase`. -/
  toLowerCase : List Char → List Char
  /-- `Number.prototype.toString`. -/
  numberToString : JSNum → List Char
  /-- Whether `NODE_ENV` is `development`. -/
  development : Bool

/-- A request to a route of `auth.js`: its parsed body, and the error the
store rejects its queries with while it cannot be reached. -/
structure AuthRequest where
  body : JVal
  storeFailure : Option JSException
deriving DecidableEq

/-- The body of a response of `POST /register` or `POST /login`, and its
status; `user` is the document whose members the body lists. -/
structure AuthResponse where
  status : Nat
  success : Bool
  message : String
  token : Option String
  user : Option UserRecord
  error : Option String
deriving DecidableEq

/-- A response without token and user. -/
def authFailure (status : Nat) (message : String) : AuthResponse where
  status := status
  success := false
  message := message
  token := none
  user := none
  error := none

/-- The response of a `catch` of `auth.js` that is not about a duplicate key. -/
def authError (env : AuthEnv) (message : String) (error : JSException) : AuthResponse where
  status := 500
  success := false
  message := message
  token := none
  user := none
  error := if env.development then some error.message else none

/-- The engine's message for calling `trim` on a value that has none. -/
def notAFunctionMessage (name : String) : String :=
  name ++ ".trim is not a function"

/-- The engine's message for a value that has no primitive. -/
def noPrimitiveMessage : String := "Cannot convert object to primitive value"

/-- The call `value.trim()` on a truthy member of the body: a string gives its
trimmed text, every other value a TypeError. -/
def trimCall (name : String) (value : JVal) : Except JSException (List Char) :=
  match value with
  | .str s => .ok (trim s.data)
  | _ => .error ⟨notAFunctionMessage name⟩

/-- The expression `field.charAt(0).toUpperCase() + field.slice(1)` on the name
of a schema path. -/
def capitalized (field : String) : String :=
  match field.data with
  | [] => ""
  | c :: rest => String.mk (c.toUpper :: rest)

/-- The steps of the registration handler between the count and the response
(lines 50-107): the validation, the creation of the user and the response of
success. An error is what the `catch` receives. -/
def registerSteps (env : AuthEnv) (body : JVal) :
    Except SaveError (AuthResponse × Option UserRecord) :=
  match body with
  | .undefined => .error (.other ⟨destructureMessage "username"⟩)
  | .null => .error (.other ⟨destructureMessage "username"⟩)
  | _ =>
    let username := body.member "username"
    let email := body.member "email"
    let password := body.member "password"
    let firstName := body.member "firstName"
    let lastName := body.member "lastName"
    if !username.truthy || !email.truthy || !password.truthy || !firstName.truthy
        || !lastName.truthy then
      .ok (authFailure 400 "All fields are required.", none)
    else
      match password.lengthOf.ltNumber (.fin 6) with
      | .error _ => .error (.other ⟨noPrimitiveMessage⟩)
      | .ok true => .ok (authFailure 400 "Password must be at least 6 characters long.", none)
      | .ok false =>
        match email.toText env.numberToString with
        | .error _ => .error (.other ⟨noPrimitiveMessage⟩)
        | .ok emailText =>
          if !emailRegexTest emailText then
            .ok (authFailure 400 "Please provide a valid email address.", none)
          else
            match trimCall "username" username with
            | .error e => .error (.other e)
            | .ok u =>
              match trimCall "email" email with
              | .error e => .error (.other e)
              | .ok m =>
                match trimCall "firstName" firstName with
                | .error e => .error (.other e)
                | .ok f =>
                  match trimCall "lastName" lastName with
                  | .error e => .error (.other e)
                  | .ok l =>
                    match env.save
                        { username := String.mk u
                          email := String.mk (env.toLowerCase m)
                          password := password
                          firstName := String.mk f
                          lastName := String.mk l } with
                    | .error e => .error e
                    | .ok user =>
                      .ok ({ status := 201
                             success := true
                             message := "User registered successfully"
                             token := some (env.generateToken user.id)
                             user := some user
                             error := none }, some user)

/-- The handler registered for `POST /register` (lines 35-124) on the documents
of the `User` collection: the response, and the documents afterwards. -/
def register (env : AuthEnv) (users : List UserRecord) (req : AuthRequest) :
    AuthResponse × List UserRecord :=
  match req.storeFailure with
  | some e => (authError env "Registration failed. Please try again." e, users)
  | none =>
    if users.length > 0 then
      (authFailure 400 "User already exists. This is a single-user application.", users)
    else
      match registerSteps env req.body with
      | .ok (response, some user) => (response, users ++ [user])
      | .ok (response, none) => (response, users)
      | .error (.duplicateKey field) =>
        (authFailure 400 (capitalized field ++ " already exists."), users)
      | .error (.other e) => (authError env "Registration failed. Please try again." e, users)

/-- The documents of the collection after a sequence of registration requests,
one after the other. -/
def registerAll (env : AuthEnv) (users : List UserRecord) : List AuthRequest → List UserRecord
  | [] => users
  | req :: rest => registerAll env (register env users req).2 rest

/-- `User.findOne` with the two alternatives of the login handler: the first
document whose `username` is the first text or whose `email` is the second. -/
def findUser (users : List UserRecord) (username email : List Char) : Option UserRecord :=
  users.find? fun u => decide (u.username.data = username) || decide (u.email.data = email)

/-- The handler registered for `POST /login` (lines 127-208). -/
def login (env : AuthEnv) (users : List UserRecord) (req : AuthRequest) : AuthResponse :=
  let failed (e : JSException) := authError env "Login failed. Please try again." e
  match req.body with
  | .undefined => failed ⟨"Cannot read properties of undefined (reading 'username')"⟩
  | .null => failed ⟨"Cannot read properties of null (reading 'username')"⟩
  | body =>
    let username := body.member "username"
    let password := body.member "password"
    if !username.truthy || !password.truthy then
      authFailure 400 "Username and password are required."
    else
      match trimCall "username" username with
      | .error e => failed e
      | .ok name =>
        match req.storeFailure with
        | some e => failed e
        | none =>
          match findUser users name (env.toLowerCase name) with
          | none => authFailure 401 "Invalid credentials."
          | some user =>
            if !user.isActive then authFailure 401 "Account is deactivated."
            else if user.isLocked then
              authFailure 423 ("Account is temporarily locked due to too many failed login " ++
                "attempts. Please try again later.")
            else
              match env.comparePassword user password with
              | .error e => failed e
              | .ok false => authFailure 401 "Invalid credentials."
              | .ok true =>
                { status := 200
                  success := true
                  message := "Login successful"
                  token := some (env.generateToken user.id)
                  user := some user
                  error := none }

/-! ## `pages/Setup.jsx`: the validation of the form -/

/-- The form data of the setup page: the texts of its six inputs. -/
structure SetupForm where
  username : String
  email : String
  firstName : String
  lastName : String
  password : String
  confirmPassword : String
deriving DecidableEq

/-- The function `validateForm` (lines 72-101): the error it sets, `none` when
it returns `true`. -/
def validateForm (formData : SetupForm) : Option String :=
  if formData.username = "" ∨ formData.email = "" ∨ formData.firstName = ""
      ∨ formData.lastName = "" ∨ formData.password = "" ∨ formData.confirmPassword = "" then
    some "All fields are required"
  else if jsLength formData.username.data < 3 then
    some "Username must be at least 3 characters long"
  else if !emailRegexTest formData.email.data then some "Please enter a valid email address"
  else if jsLength formData.password.data < 6 then
    some "Password must be at least 6 characters long"
  else if formData.password ≠ formData.confirmPassword then some "Passwords do not match"
  else none

/-! ## The route guards of the pages -/

/-- The state of `AuthContext` that the guards read. -/
structure AuthState where
  user : Option UserRecord
  loading : Bool
  setupRequired : Bool
deriving DecidableEq

/-- The routes of `App.jsx`: `/login`, `/setup`, and `/*` for every other path. -/
inductive Page where
  | login
  | setup
  | home
deriving DecidableEq

/-- What a guard returns: the spinner, a `Navigate` to a path, or its own
content. -/
inductive Rendered where
  | spinner
  | navigate (target : Page)
  | content
deriving DecidableEq

/-- The component `ProtectedRoute` (lines 6-29). -/
def ProtectedRoute (s : AuthState) : Rendered :=
  if s.loading then .spinner
  else if s.setupRequired then .navigate .setup
  else if s.user.isNone then .navigate .login
  else .content

/-- The guard of the page `Login` (lines 31-53). -/
def Login (s : AuthState) : Rendered :=
  if s.loading then .spinner
  else if s.user.isSome then .navigate .home
  else if s.setupRequired then .navigate .setup
  else .content

/-- The guard of the page `Setup` (lines 39-61). -/
def Setup (s : AuthState) : Rendered :=
  if s.loading then .spinner
  else if s.user.isSome then .navigate .home
  else if !s.setupRequired then .navigate .login
  else .content

/-- The element `App.jsx` renders for a route. -/
def App (page : Page) (s : AuthState) : Rendered :=
  match page with
  | .login => Login s
  | .setup => Setup s
  | .home => ProtectedRoute s

/-- Follow the `Navigate` elements from a route, at most `steps` times: the
route whose content is rendered, if one is reached. -/
def followRedirects (s : AuthState) : Nat → Page → Option Page
  | steps, page =>
    match App page s with
    | .content => some page
    | .spinner => none
    | .navigate target =>
      match steps with
      | 0 => none
      | n + 1 => followRedirects s n target

/-! ## Vocabulary of the statements on the routes and the pages -/

/-- Two configuration documents agree in their key, their `encrypted` flag and
their time of update, and the stored value of one is truthy exactly when that
of the other is: they differ at most in the stored value itself. -/
def ConfigDocument.agreesUpToValue (a b : ConfigDocument) : Prop :=
  a.key = b.key ∧ a.encrypted = b.encrypted ∧ a.updatedAt = b.updatedAt
    ∧ a.value.truthy = b.value.truthy

/-- The text does not begin, after whitespace and an optional sign, with a
decimal digit: it is not numeric for `parseInt`. -/
def nonNumeric (s : List Char) : Prop :=
  ∀ c ∈ ((scanSign true (s.dropWhile isJsWhitespace)).2).head?, (digitValue 10 c) = none

/-- A member of a request body is missing: `undefined` or `null`. -/
def JVal.missing (v : JVal) : Prop :=
  v = .undefined ∨ v = .null

/-- The five members the registration handler reads. -/
def registrationMembers : List String :=
  ["username", "email", "password", "firstName", "lastName"]

/-- The shape the regular expression of the email check describes: a local
part, an `@`, and a domain with an inner dot, all three parts non-empty and
free of whitespace and of `@`. -/
def emailShape (s : List Char) : Prop :=
  ∃ a b c : List Char, s = a ++ '@' :: (b ++ '.' :: c) ∧ a ≠ [] ∧ b ≠ [] ∧ c ≠ []
    ∧ (∀ x ∈ a, plainChar x = true) ∧ (∀ x ∈ b, plainChar x = true)
    ∧ (∀ x ∈ c, plainChar x = true)

/-- The index window `[skip, skip + limit)` of a page, when `skip` and `limit`
are natural numbers. -/
def inWindow (skip limit : JSNum) (i : Nat) : Prop :=
  ∃ s l : Nat, skip = .fin s ∧ limit = .fin l ∧ s ≤ i ∧ i < s + l

/-- An environment for the examples: `save` stores the user under the id `u1`
as an active account, the token of an id is the id after `token-`, the
password `correct horse` matches every user, and lower-casing is that of the
ASCII letters; no number occurs in the examples. -/
def exampleEnv : AuthEnv where
  save := fun u =>
    .ok
      { id := "u1"
        username := u.username
        email := u.email
        firstName := u.firstName
        lastName := u.lastName
        fullName := u.firstName ++ " " ++ u.lastName
        isActive := true
        isLocked := false
        lastLogin := none }
  generateToken := fun id => "token-" ++ id
  comparePassword := fun _ password => .ok (decide (password = .str "correct horse"))
  toLowerCase := fun s => s.map Char.toLower
  numberToString := fun _ => []
  development := false

/-- The user the examples register. -/
def exampleUser : UserRecord where
  id := "u1"
  username := "ada"
  email := "ada@example.org"
  firstName := "Ada"
  lastName := "Lovelace"
  fullName := "Ada Lovelace"
  isActive := true
  isLocked := false
  lastLogin := none

/-- A request with the given body to a store that answers. -/
def requestOf (body : JVal) : AuthRequest where
  body := body
  storeFailure := none

/-- The body of the registration request of the examples. -/
def exampleRegistration : JVal :=
  .obj [("username", .str " ada "), ("email", .str "Ada@Example.org"),
    ("password", .str "correct horse"), ("firstName", .str "Ada"), ("lastName", .str "Lovelace")]

/-! ## Lists of characters -/

theorem dropWhile_append_of_all (p : Char → Bool) (l₁ l₂ : List Char)
    (h : ∀ c ∈ l₁, p c = true) : (l₁ ++ l₂).dropWhile p = l₂.dropWhile p := by
  induction l₁ with
  | nil => rfl
  | cons a l ih =>
    have ha : p a = true := h a (List.mem_cons_self a l)
    simp only [List.cons_append, List.dropWhile_cons, ha, if_true]
    exact ih (fun c hc => h c (List.mem_cons_of_mem a hc))

theorem dropWhile_append_singleton_neg (p : Char → Bool) (l : List Char) (c : Char)
    (hc : p c = false) : (l ++ [c]).dropWhile p = l.dropWhile p ++ [c] := by
  induction l with
  | nil => simp [List.dropWhile, hc]
  | cons a l ih =>
    by_cases ha : p a = true
    · simp only [List.cons_append, List.dropWhile_cons, ha, if_true, ih]
    · simp [List.dropWhile_cons, ha]

theorem dropEndWhile_cons_neg (p : Char → Bool) (c : Char) (cs : List Char)
    (hc : p c = false) : dropEndWhile p (c :: cs) = c :: dropEndWhile p cs := by
  simp [dropEndWhile, dropWhile_append_singleton_neg p _ c hc]

theorem dropEndWhile_append_of_all (p : Char → Bool) (l₁ l₂ : List Char)
    (h : ∀ c ∈ l₂, p c = true) : dropEndWhile p (l₁ ++ l₂) = dropEndWhile p l₁ := by
  unfold dropEndWhile
  rw [List.reverse_append, dropWhile_append_of_all p _ _ (by simpa using h)]

theorem dropEndWhile_append_singleton_neg (p : Char → Bool) (l : List Char) (c : Char)
    (hc : p c = false) : dropEndWhile p (l ++ [c]) = l ++ [c] := by
  simp [dropEndWhile, List.dropWhile_cons, hc]

/-- Trimming removes surrounding whitespace from a core that starts and ends
with a character that is not whitespace. -/
theorem trim_surrounded (ws₁ ws₂ mid : List Char) (a b : Char)
    (h₁ : ∀ c ∈ ws₁, isJsWhitespace c = true) (h₂ : ∀ c ∈ ws₂, isJsWhitespace c = true)
    (ha : isJsWhitespace a = false) (hb : isJsWhitespace b = false) :
    trim (ws₁ ++ (a :: mid ++ [b]) ++ ws₂) = a :: mid ++ [b] := by
  unfold trim
  rw [List.append_assoc, dropWhile_append_of_all _ _ _ h₁]
  have hd : ((a :: mid ++ [b]) ++ ws₂).dropWhile isJsWhitespace = (a :: mid ++ [b]) ++ ws₂ := by
    simp [List.dropWhile_cons, ha]
  rw [hd, dropEndWhile_append_of_all _ _ _ h₂]
  exact dropEndWhile_append_singleton_neg _ (a :: mid) b hb


/-! ## The two `replace` calls -/

theorem replaceOpening_jsonFence (rest : List Char) :
    replaceOpening jsonFence (jsonFence ++ rest) = dropLeadingNewline rest := by
  simp only [jsonFence, List.cons_append, List.nil_append, replaceOpening]
  simp only [List.isPrefixOf, Bool.and_self, beq_self_eq_true, if_true, List.length, List.drop]
  cases rest with
  | nil => rfl
  | cons c r => by_cases hc : c = '\n' <;> simp [dropLeadingNewline, hc]

theorem replaceOpening_fence (rest : List Char) :
    replaceOpening fence (fence ++ rest) = dropLeadingNewline rest := by
  simp only [fence, List.cons_append, List.nil_append, replaceOpening]
  simp only [List.isPrefixOf, Bool.and_self, beq_self_eq_true, if_true, List.length, List.drop]
  cases rest with
  | nil => rfl
  | cons c r => by_cases hc : c = '\n' <;> simp [dropLeadingNewline, hc]

theorem replaceClosing_append_fence (x : List Char) :
    replaceClosing (x ++ fence) = dropTrailingNewline x := by
  induction x with
  | nil => simp [replaceClosing, fence, dropTrailingNewline]
  | cons c x ih =>
    cases x with
    | nil =>
      by_cases hc : c = '\n'
      · simp [replaceClosing, fence, dropTrailingNewline, hc]
      · have h := ih
        simp only [List.nil_append] at h
        simp [replaceClosing, dropTrailingNewline, hc, h, fence]
    | cons d r =>
      have hne : ¬ (d :: r ++ fence = fence) := by
        intro h
        have := congrArg List.length h
        simp [fence] at this
      have hne2 : ¬ (c :: (d :: r ++ fence) = fence) := by
        intro h
        have := congrArg List.length h
        simp [fence] at this
      rw [List.cons_append, replaceClosing]
      rw [if_neg (by rintro (⟨_, h⟩ | h); exact hne h; exact hne2 h), ih]
      rfl


/-! ## `JSON.parse` and whitespace -/

theorem jsonBody_cons_ws (c : Char) (cs : List Char) (hc : isJsonWhitespace c = true) :
    jsonBody (c :: cs) = jsonBody cs := by
  simp [jsonBody, skipWs, List.dropWhile_cons, hc]

theorem jsonBody_cons_not_ws (c : Char) (cs : List Char) (hc : isJsonWhitespace c = false) :
    jsonBody (c :: cs) = c :: dropEndWhile isJsonWhitespace cs := by
  simp only [jsonBody, skipWs, List.dropWhile_cons, hc, Bool.false_eq_true, if_false]
  exact dropEndWhile_cons_neg _ _ _ hc

theorem jsonBody_append_ws (x : List Char) (c : Char) (hc : isJsonWhitespace c = true) :
    jsonBody (x ++ [c]) = jsonBody x := by
  induction x with
  | nil => simp [jsonBody, skipWs, List.dropWhile_cons, hc, dropEndWhile]
  | cons a x ih =>
    by_cases ha : isJsonWhitespace a = true
    · rw [List.cons_append, jsonBody_cons_ws _ _ ha, jsonBody_cons_ws _ _ ha, ih]
    · have ha' : isJsonWhitespace a = false := by simpa using ha
      rw [List.cons_append, jsonBody_cons_not_ws _ _ ha', jsonBody_cons_not_ws _ _ ha']
      rw [dropEndWhile_append_of_all _ _ _ (by simpa using hc)]

theorem jsonBody_dropLeadingNewline (x : List Char) :
    jsonBody (dropLeadingNewline x) = jsonBody x := by
  cases x with
  | nil => rfl
  | cons c r =>
    by_cases hc : c = '\n'
    · subst hc
      rw [jsonBody_cons_ws _ _ (by decide)]
      rfl
    · simp [dropLeadingNewline, hc]

theorem dropTrailingNewline_eq (x : List Char) :
    dropTrailingNewline x = x ∨ x = dropTrailingNewline x ++ ['\n'] := by
  induction x with
  | nil => exact Or.inl rfl
  | cons c x ih =>
    cases x with
    | nil =>
      by_cases hc : c = '\n'
      · right; simp [dropTrailingNewline, hc]
      · left; simp [dropTrailingNewline, hc]
    | cons d r =>
      rcases ih with h | h
      · left; simp [dropTrailingNewline, h]
      · right
        show c :: d :: r = c :: dropTrailingNewline (d :: r) ++ ['\n']
        rw [List.cons_append, ← h]

theorem jsonBody_dropTrailingNewline (x : List Char) :
    jsonBody (dropTrailingNewline x) = jsonBody x := by
  rcases dropTrailingNewline_eq x with h | h
  · rw [h]
  · conv_rhs => rw [h]
    rw [jsonBody_append_ws _ _ (by decide)]

theorem JSON.parse_congr (a b : List Char) (h : jsonBody a = jsonBody b) :
    JSON.parse a = JSON.parse b := by
  unfold JSON.parse
  rw [h]

theorem parseValue_cons_j (n : Nat) (rest : List Char) :
    parseValue (n + 1) ('j' :: rest) = .error .badSyntax := by
  rw [parseValue]
  simp [parseNumber, scanSign, scanInt, List.takeWhile]

/-- No JSON text starts with the letter `j`. -/
theorem JSON.parse_cons_j (rest : List Char) :
    JSON.parse ('j' :: rest) = .error .syntaxError := by
  unfold JSON.parse
  rw [jsonBody_cons_not_ws _ _ (by decide), parseValue_cons_j]

theorem JSON.parse_nil : JSON.parse [] = .error .syntaxError := by
  decide


theorem dropLeadingNewline_append (j t : List Char) (hj : j ≠ []) :
    dropLeadingNewline (j ++ t) = dropLeadingNewline j ++ t := by
  cases j with
  | nil => exact absurd rfl hj
  | cons c r => by_cases hc : c = '\n' <;> simp [dropLeadingNewline, hc]

theorem dropTrailingNewline_append_newline (x : List Char) :
    dropTrailingNewline (x ++ ['\n']) = x := by
  induction x with
  | nil => simp [dropTrailingNewline]
  | cons c x ih =>
    cases x with
    | nil => simp [dropTrailingNewline]
    | cons d r =>
      show c :: dropTrailingNewline (d :: r ++ ['\n']) = c :: d :: r
      rw [ih]

/-! ## The cleaned text of a fenced answer -/

theorem trim_fencedText (ws₁ ws₂ R : List Char) (tagged : Bool)
    (h₁ : ∀ c ∈ ws₁, isJsWhitespace c = true) (h₂ : ∀ c ∈ ws₂, isJsWhitespace c = true) :
    trim (ws₁ ++ ((if tagged then jsonFence else fence) ++ R ++ fence) ++ ws₂)
      = (if tagged then jsonFence else fence) ++ R ++ fence := by
  have h := trim_surrounded ws₁ ws₂
    (((if tagged then jsonFence else fence).tail) ++ R ++ ['\x60', '\x60']) '\x60' '\x60'
    h₁ h₂ (by decide) (by decide)
  cases tagged <;> simpa [fence, jsonFence] using h

/-- The text after the tag-less opening fence does not start with `json` when it
starts with a line feed or with a JSON text. -/
theorem not_json_tag (nl₁ : Bool) (j t : List Char) (v : JVal) (hj : JSON.parse j = .ok v) :
    "json".data.isPrefixOf ((if nl₁ then ['\n'] else []) ++ j ++ t) = false := by
  cases nl₁ with
  | true => simp [List.isPrefixOf]
  | false =>
    cases j with
    | nil => rw [JSON.parse_nil] at hj; cases hj
    | cons c r =>
      by_cases hc : c = 'j'
      · subst hc; rw [JSON.parse_cons_j] at hj; cases hj
      · simp [List.isPrefixOf, hc]
        intro h; exact absurd h.symm hc

theorem cleanedText_fencedText (ws₁ ws₂ j : List Char) (tagged nl₁ nl₂ : Bool) (v : JVal)
    (h₁ : ∀ c ∈ ws₁, isJsWhitespace c = true) (h₂ : ∀ c ∈ ws₂, isJsWhitespace c = true)
    (hj : JSON.parse j = .ok v) :
    cleanedText (fencedText ws₁ tagged nl₁ j nl₂ ws₂)
      = (if nl₂ then id else dropTrailingNewline) ((if nl₁ then id else dropLeadingNewline) j) := by
  have hne : j ≠ [] := by
    intro h; rw [h, JSON.parse_nil] at hj; cases hj
  have hopen : dropLeadingNewline ((if nl₁ then ['\n'] else []) ++ j
        ++ (if nl₂ then ['\n'] else []) ++ fence)
      = ((if nl₁ then id else dropLeadingNewline) j ++ (if nl₂ then ['\n'] else [])) ++ fence := by
    cases nl₁ with
    | true => simp [dropLeadingNewline]
    | false =>
      simp only [Bool.false_eq_true, if_false, List.nil_append, List.append_assoc]
      exact dropLeadingNewline_append j _ hne
  have hclose : replaceClosing (((if nl₁ then id else dropLeadingNewline) j
        ++ (if nl₂ then ['\n'] else [])) ++ fence)
      = (if nl₂ then id else dropTrailingNewline) ((if nl₁ then id else dropLeadingNewline) j) := by
    rw [replaceClosing_append_fence]
    cases nl₂ with
    | true => simp [dropTrailingNewline_append_newline]
    | false => simp
  unfold cleanedText fencedText
  simp only [List.append_assoc]
  have ht := trim_fencedText ws₁ ws₂
    ((if nl₁ then ['\n'] else []) ++ j ++ (if nl₂ then ['\n'] else [])) tagged h₁ h₂
  simp only [List.append_assoc] at ht
  rw [ht]
  cases tagged with
  | true =>
    have hs : startsWith (jsonFence ++ ((if nl₁ then ['\n'] else []) ++ (j
        ++ ((if nl₂ then ['\n'] else []) ++ fence)))) jsonFence = true := by
      simp [startsWith, jsonFence, List.isPrefixOf]
    simp only [if_true, hs]
    rw [replaceOpening_jsonFence]
    simp only [List.append_assoc] at hopen hclose
    rw [hopen, hclose]
  | false =>
    have hs : startsWith (fence ++ ((if nl₁ then ['\n'] else []) ++ (j
        ++ ((if nl₂ then ['\n'] else []) ++ fence)))) jsonFence = false := by
      have := not_json_tag nl₁ j ((if nl₂ then ['\n'] else []) ++ fence) v hj
      simp only [List.append_assoc] at this
      simpa [startsWith, jsonFence, fence, List.isPrefixOf] using this
    have hs' : startsWith (fence ++ ((if nl₁ then ['\n'] else []) ++ (j
        ++ ((if nl₂ then ['\n'] else []) ++ fence)))) fence = true := by
      simp [startsWith, fence, List.isPrefixOf]
    simp only [Bool.false_eq_true, if_false, hs, hs', if_true]
    rw [replaceOpening_fence]
    simp only [List.append_assoc] at hopen hclose
    rw [hopen, hclose]

theorem bookInfo_fencedText (ws₁ ws₂ j : List Char) (tagged nl₁ nl₂ : Bool) (v : JVal)
    (h₁ : ∀ c ∈ ws₁, isJsWhitespace c = true) (h₂ : ∀ c ∈ ws₂, isJsWhitespace c = true)
    (hj : JSON.parse j = .ok v) :
    bookInfo (fencedText ws₁ tagged nl₁ j nl₂ ws₂) = .ok v := by
  unfold bookInfo
  rw [cleanedText_fencedText ws₁ ws₂ j tagged nl₁ nl₂ v h₁ h₂ hj, ← hj]
  apply JSON.parse_congr
  cases nl₁ <;> cases nl₂ <;>
    simp [jsonBody_dropTrailingNewline, jsonBody_dropLeadingNewline]

/-! ## The sanitizer -/

theorem mathMax_fin (a b : ℚ) : mathMax (.fin a) (.fin b) = .fin (max a b) := by
  unfold mathMax
  by_cases h : a < b
  · simp [JSNum.lt, h, max_eq_right (le_of_lt h)]
  · simp [JSNum.lt, h, max_eq_left (not_lt.mp h)]

theorem mathMin_fin (a b : ℚ) : mathMin (.fin a) (.fin b) = .fin (min a b) := by
  unfold mathMin
  by_cases h : b < a
  · simp [JSNum.lt, h, min_eq_right (le_of_lt h)]
  · simp [JSNum.lt, h, min_eq_left (not_lt.mp h)]

theorem clampConfidence_falsy (x : JVal) (h : x.truthy = false) :
    clampConfidence x = .ok (.fin (1 / 2)) := by
  have e : mathMin (mathMax (.fin (1 / 2)) (.fin (1 / 10))) (.fin 1) = .fin (1 / 2) := by
    rw [mathMax_fin, mathMin_fin]; norm_num
  simp only [clampConfidence, JVal.or, h, Bool.false_eq_true, if_false, JVal.toNumber]
  exact congrArg Except.ok e

theorem clampConfidence_fin (c : ℚ) (hc : c ≠ 0) :
    clampConfidence (.num (.fin c)) = .ok (.fin (clampSpec c)) := by
  have ht : (JVal.num (.fin c)).truthy = true := by simp [JVal.truthy, JSNum.truthy, hc]
  simp only [clampConfidence, JVal.or, ht, if_true, JVal.toNumber]
  exact congrArg Except.ok (by rw [mathMax_fin, mathMin_fin]; rfl)

theorem clampConfidence_posInf : clampConfidence (.num .posInf) = .ok (.fin 1) := by
  decide

theorem clampConfidence_negInf : clampConfidence (.num .negInf) = .ok (.fin (1 / 10)) := by
  decide!

theorem clampSpec_of_mem (c : ℚ) (h₁ : 1 / 10 ≤ c) (h₂ : c ≤ 1) : clampSpec c = c := by
  unfold clampSpec
  rw [max_eq_left h₁, min_eq_left h₂]

theorem getProp_eq (v : JVal) (name : String) (hv : v ≠ .null) (hv' : v ≠ .undefined) :
    v.getProp name = .ok (v.member name) := by
  cases v <;> first | rfl | exact absurd rfl hv | exact absurd rfl hv'

/-- The sanitizer on a value other than `null` and `undefined`: it returns as soon
as the confidence has been clamped. -/
theorem sanitizedBookInfo_eq (v : JVal) (hv : v ≠ .null) (hv' : v ≠ .undefined) :
    sanitizedBookInfo v = (clampConfidence (v.member "confidence")).map fun c =>
      { title := (v.member "title").or .null
        author := (v.member "author").or .null
        gradeLevel := (v.member "gradeLevel").or .null
        subject := (v.member "subject").or .null
        series := (v.member "series").or .null
        publisher := (v.member "publisher").or .null
        isbn := (v.member "isbn").or .null
        description := (v.member "description").or .null
        confidence := c
        extractedByAI := true
        error := none } := by
  unfold sanitizedBookInfo
  simp only [getProp_eq v _ hv hv', bind, Except.bind, Except.map, pure, Except.pure]

theorem sanitizedBookInfo_null : sanitizedBookInfo .null = .error .typeError := rfl

theorem sanitizedBookInfo_undefined : sanitizedBookInfo .undefined = .error .typeError := rfl

/-! ## The recursion budget of `JSON.parse` is sufficient -/

theorem skipWs_length_le (cs : List Char) : (skipWs cs).length ≤ cs.length := by
  unfold skipWs
  induction cs with
  | nil => simp
  | cons c cs ih =>
    rw [List.dropWhile_cons]
    split
    · exact Nat.le_succ_of_le ih
    · exact Nat.le_refl _

theorem dropWhile_length_le (p : Char → Bool) (cs : List Char) :
    (cs.dropWhile p).length ≤ cs.length := by
  induction cs with
  | nil => simp
  | cons c cs ih =>
    rw [List.dropWhile_cons]
    split
    · exact Nat.le_succ_of_le ih
    · exact Nat.le_refl _

theorem expectChar_length (c : Char) (cs rest : List Char) (h : expectChar c cs = some rest) :
    rest.length + 1 = cs.length := by
  cases cs with
  | nil => simp [expectChar] at h
  | cons d r =>
    simp only [expectChar] at h
    split at h
    · cases h; rfl
    · cases h

theorem except_map_ok {ε α β : Type} (f : α → β) (x : Except ε α) (b : β) :
    x.map f = .ok b ↔ ∃ a, x = .ok a ∧ f a = b := by
  cases x <;> simp [Except.map]

theorem except_map_error {ε α β : Type} (f : α → β) (x : Except ε α) (e : ε) :
    x.map f = .error e ↔ x = .error e := by
  cases x <;> simp [Except.map]

theorem scanString_progress_aux (n : Nat) :
    ∀ cs : List Char, cs.length ≤ n →
      ∀ us rest, scanString cs = .ok (us, rest) → rest.length < cs.length := by
  induction n with
  | zero =>
    intro cs hlen us rest h
    cases cs with
    | nil => rw [scanString.eq_def] at h; cases h
    | cons c r => simp at hlen
  | succ n ih =>
    intro cs hlen us rest h
    rw [scanString.eq_def] at h
    (repeat' split at h) <;> simp_all [except_map_ok]
    all_goals
      obtain ⟨a, ha, _⟩ := h
      have := ih _ (by omega) _ _ ha
      omega

theorem scanString_progress (cs : List Char) (us : List Nat) (rest : List Char)
    (h : scanString cs = .ok (us, rest)) : rest.length < cs.length :=
  scanString_progress_aux cs.length cs (Nat.le_refl _) us rest h

theorem scanString_fuel_aux (n : Nat) :
    ∀ cs : List Char, cs.length ≤ n → scanString cs ≠ .error .outOfFuel := by
  induction n with
  | zero =>
    intro cs hlen h
    cases cs with
    | nil => rw [scanString.eq_def] at h; cases h
    | cons c r => simp at hlen
  | succ n ih =>
    intro cs hlen h
    rw [scanString.eq_def] at h
    (repeat' split at h) <;> simp_all [except_map_error]
    all_goals exact ih _ (by omega) h

theorem parseString_progress (cs : List Char) (s : String) (rest : List Char)
    (h : parseString cs = .ok (s, rest)) : rest.length < cs.length := by
  unfold parseString at h
  rw [except_map_ok] at h
  obtain ⟨a, ha, hb⟩ := h
  cases hb
  exact scanString_progress cs a.1 a.2 ha

theorem parseString_fuel (cs : List Char) : parseString cs ≠ .error .outOfFuel := by
  unfold parseString
  rw [Ne, except_map_error]
  exact scanString_fuel_aux cs.length cs (Nat.le_refl _)

theorem takeWhile_dropWhile_length (p : Char → Bool) (cs : List Char) :
    (cs.takeWhile p).length + (cs.dropWhile p).length = cs.length := by
  rw [← List.length_append, List.takeWhile_append_dropWhile]

theorem dropWhile_length_lt (p : Char → Bool) (cs : List Char) (h : cs.takeWhile p ≠ []) :
    (cs.dropWhile p).length < cs.length := by
  have h1 := takeWhile_dropWhile_length p cs
  have h2 : 0 < (cs.takeWhile p).length := List.length_pos.mpr h
  omega

theorem scanSign_length (plus : Bool) (cs : List Char) :
    (scanSign plus cs).2.length ≤ cs.length := by
  cases cs with
  | nil => simp [scanSign]
  | cons c r =>
    simp only [scanSign]
    split
    · simp
    · split <;> simp

theorem scanExponent_length (cs : List Char) (e : Int) (rest : List Char)
    (h : scanExponent cs = some (e, rest)) : rest.length ≤ cs.length := by
  cases cs with
  | nil => simp [scanExponent] at h; simp [h]
  | cons c r =>
    simp only [scanExponent] at h
    split at h
    · split at h
      · cases h
      · cases h
        have h1 := dropWhile_length_le Char.isDigit (scanSign true r).2
        have h2 := scanSign_length true r
        simp only [List.length_cons]
        omega
    · cases h; simp

theorem scanInt_length (cs : List Char) (h : (scanInt cs).1 ≠ []) :
    (scanInt cs).2.length < cs.length := by
  cases cs with
  | nil => simp [scanInt] at h
  | cons c r =>
    simp only [scanInt] at h ⊢
    split
    · simp
    · rename_i hc
      simp only [hc, if_false] at h
      exact dropWhile_length_lt _ _ h

theorem scanFraction_length (cs fracDs rest : List Char)
    (h : scanFraction cs = some (fracDs, rest)) : rest.length ≤ cs.length := by
  cases cs with
  | nil => simp [scanFraction] at h; simp [h]
  | cons c r =>
    simp only [scanFraction] at h
    split at h
    · split at h
      · cases h
      · cases h
        have := dropWhile_length_le Char.isDigit r
        simp only [List.length_cons]
        omega
    · cases h; simp

theorem parseNumber_progress (cs : List Char) (v : JVal) (rest : List Char)
    (h : parseNumber cs = .ok (v, rest)) : rest.length < cs.length := by
  unfold parseNumber at h
  split at h
  · cases h
  · rename_i hint
    split at h
    · cases h
    · rename_i fracDs r2 hfrac
      split at h
      · rename_i e r3 hexp
        cases h
        have h1 := scanExponent_length _ _ _ hexp
        have h2 := scanFraction_length _ _ _ hfrac
        have h3 := scanInt_length _ hint
        have h4 := scanSign_length false cs
        omega
      · cases h

theorem parseNumber_fuel (cs : List Char) : parseNumber cs ≠ .error .outOfFuel := by
  intro h
  unfold parseNumber at h
  (repeat' split at h) <;> cases h


theorem skipWs_eq_cons_length (cs : List Char) (d : Char) (r : List Char)
    (h : skipWs cs = d :: r) : r.length < cs.length := by
  have := skipWs_length_le cs
  rw [h] at this
  simpa using this

theorem expectChar_skipWs_length (c : Char) (cs rest : List Char)
    (h : expectChar c (skipWs cs) = some rest) : rest.length < cs.length := by
  have h1 := expectChar_length _ _ _ h
  have h2 := skipWs_length_le cs
  omega

theorem parse_progress (fuel : Nat) :
    (∀ cs v rest, parseValue fuel cs = .ok (v, rest) → rest.length < cs.length)
    ∧ (∀ cs acc v rest, parseElements fuel cs acc = .ok (v, rest) → rest.length < cs.length)
    ∧ (∀ cs acc v rest, parseMembers fuel cs acc = .ok (v, rest) → rest.length < cs.length) := by
  induction fuel with
  | zero =>
    refine ⟨?_, ?_, ?_⟩
    · intro cs v rest h; rw [parseValue] at h; cases h
    · intro cs acc v rest h; rw [parseElements] at h; cases h
    · intro cs acc v rest h; rw [parseMembers] at h; cases h
  | succ n ih =>
    obtain ⟨ihV, ihE, ihM⟩ := ih
    refine ⟨?_, ?_, ?_⟩
    · intro cs v rest h
      cases cs with
      | nil => rw [parseValue] at h; cases h
      | cons c r =>
        rw [parseValue] at h
        split at h
        · split at h
          · rename_i rest2 he
            cases h
            have := expectChar_skipWs_length _ _ _ he
            simp only [List.length_cons]; omega
          · have h1 := ihM _ _ _ _ h
            have h2 := skipWs_length_le r
            simp only [List.length_cons]; omega
        · split at h
          · split at h
            · rename_i rest2 he
              cases h
              have := expectChar_skipWs_length _ _ _ he
              simp only [List.length_cons]; omega
            · have h1 := ihE _ _ _ _ h
              have h2 := skipWs_length_le r
              simp only [List.length_cons]; omega
          · split at h
            · rw [except_map_ok] at h
              obtain ⟨a, ha, hb⟩ := h
              cases hb
              have := parseString_progress _ _ _ ha
              simp only [List.length_cons]; omega
            · split at h
              · cases h; simp only [List.length_drop, List.length_cons]; omega
              · split at h
                · cases h; simp only [List.length_drop, List.length_cons]; omega
                · split at h
                  · cases h; simp only [List.length_drop, List.length_cons]; omega
                  · exact parseNumber_progress _ _ _ h
    · intro cs acc v rest h
      rw [parseElements] at h
      split at h
      · cases h
      · rename_i v1 rest1 hv
        have h1 := ihV _ _ _ hv
        split at h
        · cases h
        · rename_i d rest2 hs
          have h2 := skipWs_eq_cons_length _ _ _ hs
          split at h
          · have h3 := ihE _ _ _ _ h
            have h4 := skipWs_length_le rest2
            omega
          · split at h
            · cases h; omega
            · cases h
    · intro cs acc v rest h
      rw [parseMembers] at h
      split at h
      · cases h
      · rename_i rest0 he0
        have h0 := expectChar_length _ _ _ he0
        split at h
        · cases h
        · rename_i key rest1 hk
          have h1 := parseString_progress _ _ _ hk
          split at h
          · cases h
          · rename_i rest2 he2
            have h2 := expectChar_skipWs_length _ _ _ he2
            split at h
            · cases h
            · rename_i v1 rest3 hv
              have h3 := ihV _ _ _ hv
              have h3' := skipWs_length_le rest2
              split at h
              · cases h
              · rename_i d rest4 hs
                have h4 := skipWs_eq_cons_length _ _ _ hs
                split at h
                · have h5 := ihM _ _ _ _ h
                  have h6 := skipWs_length_le rest4
                  omega
                · split at h
                  · cases h; omega
                  · cases h


theorem parse_fuel (fuel : Nat) :
    (∀ cs, 2 * cs.length + 1 ≤ fuel → parseValue fuel cs ≠ .error .outOfFuel)
    ∧ (∀ cs acc, 2 * cs.length + 2 ≤ fuel → parseElements fuel cs acc ≠ .error .outOfFuel)
    ∧ (∀ cs acc, 2 * cs.length + 2 ≤ fuel → parseMembers fuel cs acc ≠ .error .outOfFuel) := by
  induction fuel with
  | zero =>
    refine ⟨?_, ?_, ?_⟩
    · intro cs hlen; omega
    · intro cs acc hlen; omega
    · intro cs acc hlen; omega
  | succ n ih =>
    obtain ⟨ihV, ihE, ihM⟩ := ih
    obtain ⟨pV, -, -⟩ := parse_progress n
    refine ⟨?_, ?_, ?_⟩
    · intro cs hlen h
      cases cs with
      | nil => rw [parseValue] at h; cases h
      | cons c r =>
        rw [parseValue] at h
        simp only [List.length_cons] at hlen
        have hws := skipWs_length_le r
        split at h
        · split at h
          · cases h
          · exact ihM _ _ (by omega) h
        · split at h
          · split at h
            · cases h
            · exact ihE _ _ (by omega) h
          · split at h
            · rw [except_map_error] at h
              exact parseString_fuel _ h
            · split at h
              · cases h
              · split at h
                · cases h
                · split at h
                  · cases h
                  · exact parseNumber_fuel _ h
    · intro cs acc hlen h
      rw [parseElements] at h
      split at h
      · rename_i e he
        cases h
        exact ihV _ (by omega) he
      · rename_i v1 rest1 hv
        have h1 := pV _ _ _ hv
        split at h
        · cases h
        · rename_i d rest2 hs
          have h2 := skipWs_eq_cons_length _ _ _ hs
          have h4 := skipWs_length_le rest2
          split at h
          · exact ihE _ _ (by omega) h
          · split at h <;> cases h
    · intro cs acc hlen h
      rw [parseMembers] at h
      split at h
      · cases h
      · rename_i rest0 he0
        have h0 := expectChar_length _ _ _ he0
        split at h
        · rename_i e he
          cases h
          exact parseString_fuel _ he
        · rename_i key rest1 hk
          have h1 := parseString_progress _ _ _ hk
          split at h
          · cases h
          · rename_i rest2 he2
            have h2 := expectChar_skipWs_length _ _ _ he2
            have h3' := skipWs_length_le rest2
            split at h
            · rename_i e he
              cases h
              exact ihV _ (by omega) he
            · rename_i v1 rest3 hv
              have h3 := pV _ _ _ hv
              split at h
              · cases h
              · rename_i d rest4 hs
                have h4 := skipWs_eq_cons_length _ _ _ hs
                have h6 := skipWs_length_le rest4
                split at h
                · exact ihM _ _ (by omega) h
                · split at h <;> cases h

/-- The recursion budget that `JSON.parse` gives `parseValue` is never used up:
an error of `JSON.parse` is a syntax error of the text. -/
theorem parseValue_fuel (cs : List Char) :
    parseValue (2 * cs.length + 1) cs ≠ .error .outOfFuel :=
  (parse_fuel _).1 cs (Nat.le_refl _)

theorem parse_fuel_succ (n : Nat) :
    (∀ cs, parseValue n cs ≠ .error .outOfFuel → parseValue (n + 1) cs = parseValue n cs)
    ∧ (∀ cs acc, parseElements n cs acc ≠ .error .outOfFuel →
      parseElements (n + 1) cs acc = parseElements n cs acc)
    ∧ (∀ cs acc, parseMembers n cs acc ≠ .error .outOfFuel →
      parseMembers (n + 1) cs acc = parseMembers n cs acc) := by
  induction n with
  | zero =>
    refine ⟨?_, ?_, ?_⟩
    · intro cs h; rw [parseValue] at h; exact absurd rfl h
    · intro cs acc h; rw [parseElements] at h; exact absurd rfl h
    · intro cs acc h; rw [parseMembers] at h; exact absurd rfl h
  | succ n ih =>
    obtain ⟨ihV, ihE, ihM⟩ := ih
    refine ⟨?_, ?_, ?_⟩
    · intro cs h
      cases cs with
      | nil => rw [parseValue, parseValue]
      | cons c r =>
        rw [parseValue] at h ⊢
        rw [parseValue.eq_def (n + 1)]
        simp only
        split
        · split
          · rfl
          · rename_i hc _ he
            simp only [hc, if_true, he] at h
            rw [ihM _ _ h]
        · split
          · split
            · rfl
            · rename_i hc1 hc _ he
              simp only [hc1, hc, if_true, if_false, he] at h
              rw [ihE _ _ h]
          · rfl
    · intro cs acc h
      rw [parseElements] at h ⊢
      rw [parseElements.eq_def (n + 1)]
      simp only
      cases hv : parseValue n cs with
      | error e =>
        have hne : parseValue n cs ≠ .error .outOfFuel := by
          intro h'
          rw [h'] at h
          exact h rfl
        rw [ihV cs hne, hv]
      | ok p =>
        have hne : parseValue n cs ≠ .error .outOfFuel := by rw [hv]; intro h'; cases h'
        rw [ihV cs hne, hv]
        rw [hv] at h
        obtain ⟨v, rest⟩ := p
        simp only at h ⊢
        split
        · rfl
        · rename_i hs
          simp only [hs] at h
          split
          · rename_i hd
            simp only [hd, if_true] at h
            rw [ihE _ _ h]
          · rfl
    · intro cs acc h
      rw [parseMembers] at h ⊢
      rw [parseMembers.eq_def (n + 1)]
      simp only
      split
      · rfl
      · rename_i he0
        simp only [he0] at h
        split
        · rfl
        · rename_i hk
          simp only [hk] at h
          split
          · rfl
          · rename_i rest2 he2
            simp only [he2] at h
            cases hv : parseValue n (skipWs rest2) with
            | error e =>
              have hne : parseValue n (skipWs rest2) ≠ .error .outOfFuel := by
                intro h'
                rw [h'] at h
                exact h rfl
              rw [ihV _ hne, hv]
            | ok p =>
              have hne : parseValue n (skipWs rest2) ≠ .error .outOfFuel := by
                rw [hv]; intro h'; cases h'
              rw [ihV _ hne, hv]
              rw [hv] at h
              obtain ⟨v, rest3⟩ := p
              simp only at h ⊢
              split
              · rfl
              · rename_i hs
                simp only [hs] at h
                split
                · rename_i hd
                  simp only [hd, if_true] at h
                  rw [ihM _ _ h]
                · rfl


/-- A larger recursion budget does not change the result of `parseValue`: the
budget that `JSON.parse` uses gives the value that any larger one gives. -/
theorem parseValue_fuel_independent (cs : List Char) (k : Nat) :
    parseValue (2 * cs.length + 1 + k) cs = parseValue (2 * cs.length + 1) cs := by
  induction k with
  | zero => rfl
  | succ k ih =>
    have hne : parseValue (2 * cs.length + 1 + k) cs ≠ .error .outOfFuel := by
      rw [ih]
      exact parseValue_fuel cs
    rw [← Nat.add_assoc, (parse_fuel_succ _).1 cs hne, ih]

/-! ## Helper lemmas on the handler -/

theorem normalizeAndSanitize_of_error (text : List Char) (e : JSError)
    (h : bookInfo text = .error e) : normalizeAndSanitize text = .ok fallbackResponse := by
  simp [normalizeAndSanitize, parseAndSanitize, h, tryCatch, tryCatchThe, MonadExceptOf.tryCatch,
    Except.tryCatch, bind, Except.bind, pure, Except.pure]

theorem normalizeAndSanitize_of_ok (text : List Char) (v : JVal) (h : bookInfo text = .ok v) :
    normalizeAndSanitize text =
      match sanitizedBookInfo v with
      | .ok r => .ok (successResponse r)
      | .error _ => .ok fallbackResponse := by
  simp only [normalizeAndSanitize, parseAndSanitize, h, tryCatch, tryCatchThe,
    MonadExceptOf.tryCatch, Except.tryCatch, bind, Except.bind, pure, Except.pure]
  cases sanitizedBookInfo v <;> rfl

theorem respond_of_error (text : List Char) (e : JSError) (h : bookInfo text = .error e) :
    respond text = fallbackResponse := by
  simp [respond, normalizeAndSanitize_of_error text e h]

theorem respond_of_ok (text : List Char) (v : JVal) (h : bookInfo text = .ok v) :
    respond text =
      match sanitizedBookInfo v with
      | .ok r => successResponse r
      | .error _ => fallbackResponse := by
  rw [respond, normalizeAndSanitize_of_ok text v h]
  cases sanitizedBookInfo v <;> rfl

theorem successResponse_ne_fallback (r : ExtractedBookInfo) :
    successResponse r ≠ fallbackResponse := by
  intro h
  have := congrArg Response.success h
  simp [successResponse, fallbackResponse] at this

/-- The sanitizer throws exactly on `null`, on `undefined`, and when the
conversion of the confidence to a number throws. -/
theorem sanitizedBookInfo_error_iff (v : JVal) :
    (∃ e, sanitizedBookInfo v = .error e) ↔
      v = .null ∨ v = .undefined ∨ ∃ e, clampConfidence (v.member "confidence") = .error e := by
  by_cases hv : v = .null
  · subst hv; simp [sanitizedBookInfo_null]
  by_cases hv' : v = .undefined
  · subst hv'; simp [sanitizedBookInfo_undefined]
  rw [sanitizedBookInfo_eq v hv hv']
  cases h : clampConfidence (v.member "confidence") <;> simp [Except.map, hv, hv']

/-! ## Field Sanitizer: confidence -/

/-- C1 (failing input): a parsed confidence of `0` is sanitized to `0.5`, while
the claim's `clamp(0, 0.1, 1.0)` is `0.1`; the neighbouring low values `0.01`
and `-1` are raised to the floor `0.1` by the clamp, so that the confidence
zero, the lowest of the scale, comes out above them. -/
theorem sanitize_confidence_zero :
    sanitizedBookInfo (.obj [("confidence", .num (.fin 0))]) = .ok (blankInfo (.fin (1 / 2)))
    ∧ clampSpec 0 = 1 / 10 ∧ JSNum.fin (1 / 2) ≠ .fin (clampSpec 0)
    ∧ respond "\x7b\"confidence\":0\x7d".data = successResponse (blankInfo (.fin (1 / 2)))
    ∧ respond "\x7b\"confidence\":0.01\x7d".data = successResponse (blankInfo (.fin (1 / 10)))
    ∧ respond "\x7b\"confidence\":-1\x7d".data = successResponse (blankInfo (.fin (1 / 10))) := by
  refine ⟨by decide!, by norm_num [clampSpec], ?_, by decide!, by decide!, by decide!⟩
  intro h
  have h' := JSNum.fin.inj h
  norm_num [clampSpec] at h'

/-- The confidence away from zero: on a parsed structure whose confidence is a
number other than zero the sanitizer returns a record whose confidence is that
number clamped into the interval from 0.1 to 1.0 (an infinite confidence is
clamped to the nearer bound); when the confidence is absent, `null` or zero the
record's confidence is 0.5. -/
theorem sanitize_confidence (v : JVal) (hv : v ≠ .null) (hv' : v ≠ .undefined) :
    (∀ c : ℚ, v.member "confidence" = .num (.fin c) → c ≠ 0 →
      ∃ r, sanitizedBookInfo v = .ok r ∧ r.confidence = .fin (clampSpec c))
    ∧ (v.member "confidence" = .num .posInf →
      ∃ r, sanitizedBookInfo v = .ok r ∧ r.confidence = .fin 1)
    ∧ (v.member "confidence" = .num .negInf →
      ∃ r, sanitizedBookInfo v = .ok r ∧ r.confidence = .fin (1 / 10))
    ∧ (v.member "confidence" = .undefined ∨ v.member "confidence" = .null
        ∨ v.member "confidence" = .num (.fin 0) →
      ∃ r, sanitizedBookInfo v = .ok r ∧ r.confidence = .fin (1 / 2)) := by
  rw [sanitizedBookInfo_eq v hv hv']
  refine ⟨?_, ?_, ?_, ?_⟩
  · intro c h hc
    rw [h, clampConfidence_fin c hc]
    exact ⟨_, rfl, rfl⟩
  · intro h
    rw [h, clampConfidence_posInf]
    exact ⟨_, rfl, rfl⟩
  · intro h
    rw [h, clampConfidence_negInf]
    exact ⟨_, rfl, rfl⟩
  · intro h
    have hf : (v.member "confidence").truthy = false := by
      rcases h with h | h | h <;> rw [h] <;> decide
    rw [clampConfidence_falsy _ hf]
    exact ⟨_, rfl, rfl⟩

/-- The examples of the specification: `sanitize({confidence: 5})` has
confidence 1.0, `sanitize({confidence: -1})` has confidence 0.1, `sanitize({})`
has confidence 0.5. -/
theorem sanitize_confidence_witness :
    (∃ r, sanitizedBookInfo (.obj [("confidence", .num (.fin 5))]) = .ok r
      ∧ r.confidence = .fin (clampSpec 5))
    ∧ clampSpec 5 = 1
    ∧ (∃ r, sanitizedBookInfo (.obj [("confidence", .num (.fin (-1)))]) = .ok r
      ∧ r.confidence = .fin (clampSpec (-1)))
    ∧ clampSpec (-1) = 1 / 10
    ∧ (∃ r, sanitizedBookInfo (.obj []) = .ok r ∧ r.confidence = .fin (1 / 2)) :=
  ⟨(sanitize_confidence (.obj [("confidence", .num (.fin 5))]) (by decide) (by decide)).1 5
      (by decide) (by norm_num),
    by norm_num [clampSpec],
    (sanitize_confidence (.obj [("confidence", .num (.fin (-1)))]) (by decide) (by decide)).1 (-1)
      (by decide) (by norm_num),
    by norm_num [clampSpec],
    (sanitize_confidence (.obj []) (by decide) (by decide)).2.2.2 (Or.inl (by decide))⟩

/-! ## Confidence invariant -/

/-- C2 (failing input): for the model text `{"confidence":"high"}` the handler
answers with the success response whose confidence is NaN, which is not a
number between 0.1 and 1.0 (and is written as `null` in the JSON body). -/
theorem confidence_nan_for_text_confidence :
    respond "\x7b\"confidence\":\"high\"\x7d".data = successResponse (blankInfo .nan)
      ∧ ¬ (blankInfo .nan).confidence.inUnitRange := by
  refine ⟨by decide!, ?_⟩
  simp [JSNum.inUnitRange, blankInfo]

/-! ## Response Normalizer -/

/-- C3: for every valid JSON text `j`, the value parsed from the text made of
whitespace, an opening fence (tagged `json` or bare), an optional line feed, `j`,
an optional line feed, the closing fence and whitespace is exactly the value
parsed from `j` alone. -/
theorem fence_stripping (ws₁ ws₂ j : List Char) (tagged nl₁ nl₂ : Bool) (v : JVal)
    (h₁ : ∀ c ∈ ws₁, isJsWhitespace c = true) (h₂ : ∀ c ∈ ws₂, isJsWhitespace c = true)
    (hj : JSON.parse j = .ok v) :
    bookInfo (fencedText ws₁ tagged nl₁ j nl₂ ws₂) = JSON.parse j := by
  rw [hj]
  exact bookInfo_fencedText ws₁ ws₂ j tagged nl₁ nl₂ v h₁ h₂ hj

/-- C3 (witness): the fenced text of the specification parses to `{title: "X"}`. -/
theorem fence_stripping_witness :
    fencedText [] true true "\x7b\"title\":\"X\"\x7d".data true []
        = "```json\n\x7b\"title\":\"X\"\x7d\n```".data
    ∧ JSON.parse "\x7b\"title\":\"X\"\x7d".data = .ok (.obj [("title", .str "X")])
    ∧ bookInfo (fencedText [] true true "\x7b\"title\":\"X\"\x7d".data true [])
        = JSON.parse "\x7b\"title\":\"X\"\x7d".data :=
  ⟨by decide, by decide,
    fence_stripping [] [] "\x7b\"title\":\"X\"\x7d".data true true true
      (.obj [("title", .str "X")]) (by simp) (by simp) (by decide)⟩

/-- C4: when the cleaned text is not valid JSON the inner statement does not
throw and the handler answers with the fallback record: the eight string
members `null`, confidence 0.1, `extractedByAI` true and an `error` marker. -/
theorem fallback_on_parse_failure (text : List Char) (e : JSError)
    (h : bookInfo text = .error e) :
    normalizeAndSanitize text = .ok (respond text)
    ∧ ∃ d, (respond text).data = some d
      ∧ d.title = .null ∧ d.author = .null ∧ d.gradeLevel = .null ∧ d.subject = .null
      ∧ d.series = .null ∧ d.publisher = .null ∧ d.isbn = .null ∧ d.description = .null
      ∧ d.confidence = .fin (1 / 10) ∧ d.extractedByAI = true
      ∧ d.error = some "AI response parsing failed" := by
  rw [respond_of_error text e h, normalizeAndSanitize_of_error text e h]
  exact ⟨rfl, fallbackData, rfl, rfl, rfl, rfl, rfl, rfl, rfl, rfl, rfl, rfl, rfl, rfl⟩

/-- C4 (witness): the text `not json at all`. -/
theorem fallback_on_parse_failure_witness :
    bookInfo "not json at all".data = .error .syntaxError
    ∧ normalizeAndSanitize "not json at all".data = .ok (respond "not json at all".data)
    ∧ ∃ d, (respond "not json at all".data).data = some d
      ∧ d.title = .null ∧ d.author = .null ∧ d.gradeLevel = .null ∧ d.subject = .null
      ∧ d.series = .null ∧ d.publisher = .null ∧ d.isbn = .null ∧ d.description = .null
      ∧ d.confidence = .fin (1 / 10) ∧ d.extractedByAI = true
      ∧ d.error = some "AI response parsing failed" :=
  ⟨by decide, fallback_on_parse_failure "not json at all".data .syntaxError (by decide)⟩

/-- C5 (counterexample): the text `null` parses successfully, to `null`, and the
handler answers with the fallback response, not a sanitized record with
confidence 0.5. -/
theorem parsed_null_gives_fallback :
    bookInfo "null".data = .ok .null ∧ respond "null".data = fallbackResponse
    ∧ (respond "null".data).data = some fallbackData
    ∧ fallbackData.confidence = .fin (1 / 10) := by
  decide!

/-- C5 (amended): when the cleaned text parses to a value that the sanitizer
accepts, the handler answers with the success response carrying the sanitized
value, whose confidence is 0.5 when the value has no confidence; the fallback
response is the answer exactly when parsing throws or the sanitizer throws, and
the sanitizer throws exactly on `null` and when converting the confidence to a
number throws. -/
theorem respond_on_parse_success (text : List Char) :
    (∀ v r, bookInfo text = .ok v → sanitizedBookInfo v = .ok r →
      respond text = successResponse r)
    ∧ (respond text = fallbackResponse ↔
      (∃ e, bookInfo text = .error e)
        ∨ ∃ v e, bookInfo text = .ok v ∧ sanitizedBookInfo v = .error e)
    ∧ (∀ v, bookInfo text = .ok v →
      ((∃ e, sanitizedBookInfo v = .error e) ↔
        v = .null ∨ v = .undefined
          ∨ ∃ e, clampConfidence (v.member "confidence") = .error e))
    ∧ (∀ v, bookInfo text = .ok v → v ≠ .null → v ≠ .undefined →
      v.member "confidence" = .undefined →
      ∃ r, sanitizedBookInfo v = .ok r ∧ r.confidence = .fin (1 / 2)) := by
  refine ⟨?_, ?_, ?_, ?_⟩
  · intro v r hv hr
    rw [respond_of_ok text v hv, hr]
  · cases hb : bookInfo text with
    | error e =>
      rw [respond_of_error text e hb]
      simp
    | ok v =>
      rw [respond_of_ok text v hb]
      cases hs : sanitizedBookInfo v with
      | error e => simp [hs]
      | ok r => simp [hs, successResponse_ne_fallback]
  · intro v _
    exact sanitizedBookInfo_error_iff v
  · intro v _ hv hv' hc
    rw [sanitizedBookInfo_eq v hv hv', hc, clampConfidence_falsy _ (by decide)]
    exact ⟨_, rfl, rfl⟩

/-- C5 (witness): the texts `42`, `"abc"` and `[]` are answered with the blank
sanitized record of confidence 0.5. -/
theorem respond_on_parse_success_witness :
    respond "42".data = successResponse (blankInfo (.fin (1 / 2)))
    ∧ respond "\"abc\"".data = successResponse (blankInfo (.fin (1 / 2)))
    ∧ respond "[]".data = successResponse (blankInfo (.fin (1 / 2))) :=
  ⟨(respond_on_parse_success "42".data).1 (.num (.fin 42)) _ (by decide!) (by decide!),
    (respond_on_parse_success "\"abc\"".data).1 (.str "abc") _ (by decide!) (by decide!),
    (respond_on_parse_success "[]".data).1 (.arr []) _ (by decide!) (by decide!)⟩


/-! ## Field Sanitizer: string members -/

theorem or_null_spec (x : JVal) :
    (x.or .null = if x.truthy then x else .null)
    ∧ (∀ s, x = .str s → s ≠ "" → x.or .null = .str s)
    ∧ (x = .undefined ∨ x = .null ∨ x = .str "" → x.or .null = .null) := by
  refine ⟨rfl, ?_, ?_⟩
  · intro s hs hne
    subst hs
    simp [JVal.or, JVal.truthy, hne]
  · intro h
    rcases h with h | h | h <;> subst h <;> rfl

/-- C6 (counterexample): the text `{"title":"T","confidence":{"toString":1}}`
parses to a structure whose title is the non-empty string `T`; converting its
confidence to a number throws, so the sanitizer returns no record and the
handler answers with the fallback record, whose title is `null`. -/
theorem sanitizer_throws_on_confidence :
    bookInfo "\x7b\"title\":\"T\",\"confidence\":\x7b\"toString\":1\x7d\x7d".data
      = .ok (.obj [("title", .str "T"), ("confidence", .obj [("toString", .num (.fin 1))])])
    ∧ (JVal.obj [("title", .str "T"),
        ("confidence", .obj [("toString", .num (.fin 1))])]).member "title" = .str "T"
    ∧ sanitizedBookInfo
        (.obj [("title", .str "T"), ("confidence", .obj [("toString", .num (.fin 1))])])
      = .error .typeError
    ∧ respond "\x7b\"title\":\"T\",\"confidence\":\x7b\"toString\":1\x7d\x7d".data
      = fallbackResponse
    ∧ fallbackResponse.data = some fallbackData
    ∧ fallbackData.title = .null := by
  decide!

/-- C6 (amended): the sanitizer returns a record exactly for a parsed structure
other than `null` whose confidence converts to a number without throwing. In
the record it returns, each of the eight string members is the parsed member
when that is truthy and `null` otherwise: a non-empty string is kept, and an
absent member, `null` and the empty string give `null`. When the sanitizer
throws, the handler answers with the fallback record, all of whose eight string
members are `null` whatever the parsed members are. -/
theorem sanitize_string_fields (v : JVal) :
    ((∃ r, sanitizedBookInfo v = .ok r) ↔
      v ≠ .null ∧ v ≠ .undefined ∧ ∃ c, clampConfidence (v.member "confidence") = .ok c)
    ∧ (∀ r, sanitizedBookInfo v = .ok r → ∀ f ∈ stringFields,
      (f.2 r = if (v.member f.1).truthy then v.member f.1 else .null)
      ∧ (∀ s, v.member f.1 = .str s → s ≠ "" → f.2 r = .str s)
      ∧ (v.member f.1 = .undefined ∨ v.member f.1 = .null ∨ v.member f.1 = .str "" →
        f.2 r = .null))
    ∧ (∀ e text, sanitizedBookInfo v = .error e → bookInfo text = .ok v →
      respond text = fallbackResponse ∧ (respond text).data = some fallbackData
      ∧ ∀ f ∈ stringFields, f.2 fallbackData = .null) := by
  refine ⟨?_, ?_, ?_⟩
  · constructor
    · rintro ⟨r, hr⟩
      have hne : ¬ ∃ e, sanitizedBookInfo v = .error e := by
        rintro ⟨e, he⟩
        rw [he] at hr
        cases hr
      rw [sanitizedBookInfo_error_iff] at hne
      push_neg at hne
      obtain ⟨h1, h2, h3⟩ := hne
      refine ⟨h1, h2, ?_⟩
      cases hc : clampConfidence (v.member "confidence") with
      | ok c => exact ⟨c, rfl⟩
      | error e => exact absurd hc (h3 e)
    · rintro ⟨hv, hv', c, hc⟩
      rw [sanitizedBookInfo_eq v hv hv', hc]
      exact ⟨_, rfl⟩
  · intro r hr
    have hne : ¬ ∃ e, sanitizedBookInfo v = .error e := by
      rintro ⟨e, he⟩
      rw [he] at hr
      cases hr
    rw [sanitizedBookInfo_error_iff] at hne
    push_neg at hne
    obtain ⟨hv, hv', h3⟩ := hne
    rw [sanitizedBookInfo_eq v hv hv'] at hr
    cases hc : clampConfidence (v.member "confidence") with
    | error e => exact absurd hc (h3 e)
    | ok c =>
      rw [hc] at hr
      have hr' := Except.ok.inj hr
      subst hr'
      intro f hf
      simp only [stringFields, List.mem_cons, List.mem_singleton, List.not_mem_nil,
        or_false] at hf
      rcases hf with h | h | h | h | h | h | h | h <;> subst h <;> exact or_null_spec _
  · intro e text he hb
    have h : respond text = fallbackResponse := by
      rw [respond_of_ok text v hb, he]
    refine ⟨h, by rw [h]; rfl, ?_⟩
    intro f hf
    simp only [stringFields, List.mem_cons, List.mem_singleton, List.not_mem_nil,
      or_false] at hf
    rcases hf with h | h | h | h | h | h | h | h <;> subst h <;> rfl

/-- C6 (witness): `sanitize({title: ""})` has `title: null`, and
`sanitize({title: "Dune"})` has the title `Dune`. -/
theorem sanitize_string_fields_witness :
    (∃ r, sanitizedBookInfo (.obj [("title", .str "")]) = .ok r ∧ r.title = .null)
    ∧ ∃ r, sanitizedBookInfo (.obj [("title", .str "Dune")]) = .ok r
      ∧ r.title = .str "Dune" :=
  ⟨((sanitize_string_fields (.obj [("title", .str "")])).1.mpr
      ⟨by decide, by decide, .fin (1 / 2), by decide!⟩).imp fun r hr =>
      ⟨hr, ((sanitize_string_fields (.obj [("title", .str "")])).2.1 r hr
        ("title", ExtractedBookInfo.title) (by simp [stringFields])).2.2
        (Or.inr (Or.inr (by decide)))⟩,
    ((sanitize_string_fields (.obj [("title", .str "Dune")])).1.mpr
      ⟨by decide, by decide, .fin (1 / 2), by decide!⟩).imp fun r hr =>
      ⟨hr, ((sanitize_string_fields (.obj [("title", .str "Dune")])).2.1 r hr
        ("title", ExtractedBookInfo.title) (by simp [stringFields])).2.1 "Dune"
        (by decide) (by decide)⟩⟩

/-- C7 (counterexample): for the model text `{"isbn":9780134685991}` the `isbn` of
the returned record is a number. -/
theorem numeric_isbn_passes_through :
    ∃ r, respond "\x7b\"isbn\":9780134685991\x7d".data = successResponse r
      ∧ r.isbn = .num (.fin 9780134685991) ∧ r.isbn ≠ .null ∧ r.isbn.isString = false :=
  ⟨{ blankInfo (.fin (1 / 2)) with isbn := .num (.fin 9780134685991) },
    by decide!, rfl, by decide, rfl⟩

/-- C7 (amended): for every model text, each of the eight string members of the
returned record is `null`, or a non-empty string, or a truthy value of another
type (a non-zero number, `true`, an array or an object) that the parsed JSON
supplies for that member and that is passed through unchanged. -/
theorem field_types (text : List Char) :
    ∃ r, (respond text).data = some r ∧ ∀ f ∈ stringFields,
      f.2 r = .null ∨ (∃ s, s ≠ "" ∧ f.2 r = .str s)
      ∨ ∃ v, bookInfo text = .ok v ∧ f.2 r = v.member f.1
          ∧ (v.member f.1).truthy = true ∧ (v.member f.1).isString = false := by
  have hfb : ∀ f ∈ stringFields, f.2 fallbackData = JVal.null := by
    intro f hf
    simp only [stringFields, List.mem_cons, List.mem_singleton, List.not_mem_nil, or_false] at hf
    rcases hf with h | h | h | h | h | h | h | h <;> subst h <;> rfl
  have hor : ∀ x : JVal, x.or .null = .null ∨ (∃ s, s ≠ "" ∧ x.or .null = .str s)
      ∨ (x.or .null = x ∧ x.truthy = true ∧ x.isString = false) := by
    intro x
    by_cases ht : x.truthy = true
    · cases x with
      | str s =>
        right; left
        refine ⟨s, ?_, by simp [JVal.or, ht]⟩
        simpa [JVal.truthy] using ht
      | _ => first | (right; right; exact ⟨by simp [JVal.or, ht], ht, rfl⟩)
    · left; simp [JVal.or, ht]
  cases hb : bookInfo text with
  | error e =>
    rw [respond_of_error text e hb]
    exact ⟨fallbackData, rfl, fun f hf => Or.inl (hfb f hf)⟩
  | ok v =>
    rw [respond_of_ok text v hb]
    by_cases hv : v = .null
    · subst hv
      exact ⟨fallbackData, rfl, fun f hf => Or.inl (hfb f hf)⟩
    by_cases hv' : v = .undefined
    · subst hv'
      exact ⟨fallbackData, rfl, fun f hf => Or.inl (hfb f hf)⟩
    rw [sanitizedBookInfo_eq v hv hv']
    cases hc : clampConfidence (v.member "confidence") with
    | error e => exact ⟨fallbackData, rfl, fun f hf => Or.inl (hfb f hf)⟩
    | ok c =>
      refine ⟨_, rfl, ?_⟩
      intro f hf
      simp only [stringFields, List.mem_cons, List.mem_singleton, List.not_mem_nil, or_false] at hf
      rcases hf with h | h | h | h | h | h | h | h <;> subst h <;>
        · rcases hor (v.member _) with h | h | h
          · exact Or.inl h
          · exact Or.inr (Or.inl h)
          · exact Or.inr (Or.inr ⟨v, rfl, h⟩)


/-- C7 (witness): for a model text with a string title and a numeric `isbn`, the
title of the record is a non-empty string and its `isbn` is the number passed
through. -/
theorem field_types_witness :
    ∃ r, (respond "\x7b\"title\":\"Dune\",\"isbn\":9780441013593\x7d".data).data = some r
      ∧ ∀ f ∈ stringFields,
        f.2 r = .null ∨ (∃ s, s ≠ "" ∧ f.2 r = .str s)
        ∨ ∃ v, bookInfo "\x7b\"title\":\"Dune\",\"isbn\":9780441013593\x7d".data = .ok v
            ∧ f.2 r = v.member f.1
            ∧ (v.member f.1).truthy = true ∧ (v.member f.1).isString = false :=
  field_types "\x7b\"title\":\"Dune\",\"isbn\":9780441013593\x7d".data

/-! ## Totality and the shape of the answer -/

/-- C8: for every model text the inner `try ... catch` statement completes
without throwing, so the outer failure handler is not reached, and its answer
carries a record: the fallback record or a sanitized one. -/
theorem normalizeAndSanitize_total (text : List Char) :
    ∃ r, normalizeAndSanitize text = .ok r ∧ respond text = r ∧ r.status = 200
      ∧ (∀ detail, r ≠ failureResponse detail)
      ∧ ∃ d, r.data = some d ∧ (r = fallbackResponse ∨ r = successResponse d) := by
  have hne : ∀ r : Response, r.status = 200 → ∀ detail, r ≠ failureResponse detail := by
    intro r hr detail h
    rw [h] at hr
    simp [failureResponse] at hr
  cases hb : bookInfo text with
  | error e =>
    refine ⟨fallbackResponse, normalizeAndSanitize_of_error text e hb,
      respond_of_error text e hb, rfl, hne _ rfl, fallbackData, rfl, Or.inl rfl⟩
  | ok v =>
    rw [normalizeAndSanitize_of_ok text v hb, respond_of_ok text v hb]
    cases sanitizedBookInfo v with
    | error e => exact ⟨fallbackResponse, rfl, rfl, rfl, hne _ rfl, fallbackData, rfl, Or.inl rfl⟩
    | ok d => exact ⟨successResponse d, rfl, rfl, rfl, hne _ rfl, d, rfl, Or.inr rfl⟩

/-- C9 (counterexample): for the unparseable text `not json at all` the answer
carries `success: false`, unlike every answer to a successful extraction, and
the page shows its message as an error. -/
theorem parse_failure_flagged_unsuccessful :
    bookInfo "not json at all".data = .error .syntaxError
    ∧ (respond "not json at all".data).success = false
    ∧ (∀ info, (successResponse info).success = true)
    ∧ AddBook.extractBookInfo (respond "not json at all".data) = .failed
        "Could not parse AI response. Please try again or enter book details manually." :=
  ⟨by decide, by decide, fun _ => rfl, by decide⟩

/-- C9 (amended): for every model text that cannot be parsed, the handler answers
with HTTP status 200 and the empty low-confidence record, but with
`success: false` and the message that the AI response could not be parsed; the
page shows that message as an error and does not use the record. -/
theorem parse_failure_response (text : List Char) (e : JSError)
    (h : bookInfo text = .error e) :
    respond text =
      { status := 200
        success := false
        message := some
          "Could not parse AI response. Please try again or enter book details manually."
        data := some fallbackData
        error := none }
    ∧ AddBook.extractBookInfo (respond text) = .failed
        "Could not parse AI response. Please try again or enter book details manually." := by
  rw [respond_of_error text e h]
  exact ⟨rfl, by decide⟩

/-- C9 (witness): a fenced text whose content is not JSON. -/
theorem parse_failure_response_witness :
    respond "```json\nTitle: Dune\n```".data =
      { status := 200
        success := false
        message := some
          "Could not parse AI response. Please try again or enter book details manually."
        data := some fallbackData
        error := none }
    ∧ AddBook.extractBookInfo (respond "```json\nTitle: Dune\n```".data) = .failed
        "Could not parse AI response. Please try again or enter book details manually." :=
  parse_failure_response "```json\nTitle: Dune\n```".data .syntaxError (by decide)

/-! ## End to end -/

/-- C10: when the model answers with a fenced JSON object whose `title` and
`author` are non-empty strings, whose `confidence` is a number between 0.1 and
1.0 and which has no other schema member, the handler answers with the success
response whose record has that title, author and confidence, `extractedByAI`
true and every other string member `null`. -/
theorem round_trip (ws₁ ws₂ j : List Char) (tagged nl₁ nl₂ : Bool)
    (kvs : List (String × JVal)) (t a : String) (c : ℚ)
    (h₁ : ∀ x ∈ ws₁, isJsWhitespace x = true) (h₂ : ∀ x ∈ ws₂, isJsWhitespace x = true)
    (hj : JSON.parse j = .ok (.obj kvs))
    (ht : (JVal.obj kvs).member "title" = .str t) (ha : (JVal.obj kvs).member "author" = .str a)
    (hc : (JVal.obj kvs).member "confidence" = .num (.fin c))
    (hrest : ∀ name ∈ ["gradeLevel", "subject", "series", "publisher", "isbn", "description"],
      (JVal.obj kvs).member name = .undefined)
    (htne : t ≠ "") (hane : a ≠ "") (hlo : 1 / 10 ≤ c) (hhi : c ≤ 1) :
    respond (fencedText ws₁ tagged nl₁ j nl₂ ws₂) =
      successResponse
        { title := .str t
          author := .str a
          gradeLevel := .null
          subject := .null
          series := .null
          publisher := .null
          isbn := .null
          description := .null
          confidence := .fin c
          extractedByAI := true
          error := none } := by
  have hb := bookInfo_fencedText ws₁ ws₂ j tagged nl₁ nl₂ _ h₁ h₂ hj
  have hc0 : c ≠ 0 := by
    intro h0
    rw [h0] at hlo
    norm_num at hlo
  rw [respond_of_ok _ _ hb, sanitizedBookInfo_eq _ (by simp) (by simp), hc,
    clampConfidence_fin c hc0, clampSpec_of_mem c hlo hhi, ht, ha,
    hrest "gradeLevel" (by simp), hrest "subject" (by simp), hrest "series" (by simp),
    hrest "publisher" (by simp), hrest "isbn" (by simp), hrest "description" (by simp)]
  simp [Except.map, JVal.or, JVal.truthy, htne, hane]

/-- C10 (witness): title `Dune`, author `Frank Herbert`, confidence 0.85, which
is read as the double nearest to it, 7656119366529843 / 2^53. -/
theorem round_trip_witness :
    respond "```json\n\x7b\"title\":\"Dune\",\"author\":\"Frank Herbert\",\"confidence\":0.85\x7d\n```".data =
      successResponse
        { title := .str "Dune"
          author := .str "Frank Herbert"
          gradeLevel := .null
          subject := .null
          series := .null
          publisher := .null
          isbn := .null
          description := .null
          confidence := .fin (7656119366529843 / 9007199254740992)
          extractedByAI := true
          error := none } :=
  round_trip [] []
    "\x7b\"title\":\"Dune\",\"author\":\"Frank Herbert\",\"confidence\":0.85\x7d".data
    true true true
    [("title", .str "Dune"), ("author", .str "Frank Herbert"),
      ("confidence", .num (.fin (7656119366529843 / 9007199254740992)))]
    "Dune" "Frank Herbert" (7656119366529843 / 9007199254740992) (by simp) (by simp)
    (by decide!) (by decide) (by decide)
    (by decide!) (by decide) (by decide) (by decide) (by norm_num) (by norm_num)

/-! ## The credential resolver -/

theorem environmentKey_truthy (env : Option String) :
    (environmentKey env).truthy = true ↔ ∃ s, env = some s ∧ s ≠ "" := by
  cases env with
  | none => simp [environmentKey, JVal.truthy]
  | some s => simp [environmentKey, JVal.truthy]

theorem environmentKey_or_null (env : Option String) :
    (environmentKey env).or .null
      = if (environmentKey env).truthy then environmentKey env else .null := rfl

/-- The resolver on a store that answers: the stored value when truthy, else the
environment variable when truthy, else `null`. -/
theorem getGeminiApiKey_records (docs : List ConfigRecord) (env : Option String) :
    getGeminiApiKey (.records docs) env = .ok
      (match docs.find? fun d => decide (d.key = "gemini_api_key") with
      | some config =>
        if config.value.truthy then config.value
        else if (environmentKey env).truthy then environmentKey env else .null
      | none => if (environmentKey env).truthy then environmentKey env else .null) := by
  simp only [getGeminiApiKey, ConfigDb.findOne, tryCatch, tryCatchThe, MonadExceptOf.tryCatch,
    Except.tryCatch, bind, Except.bind, pure, Except.pure]
  cases docs.find? fun d => decide (d.key = "gemini_api_key") with
  | none =>
    by_cases he : (environmentKey env).truthy = true <;> simp [he]
  | some config =>
    by_cases hc : config.value.truthy = true
    · simp [hc]
    · by_cases he : (environmentKey env).truthy = true <;> simp [hc, he]

/-- The resolver on a store whose query throws: the environment variable when
truthy, else `null`. -/
theorem getGeminiApiKey_unavailable (e : JSException) (env : Option String) :
    getGeminiApiKey (.unavailable e) env
      = .ok (if (environmentKey env).truthy then environmentKey env else .null) := by
  simp [getGeminiApiKey, ConfigDb.findOne, tryCatch, tryCatchThe, MonadExceptOf.tryCatch,
    Except.tryCatch, bind, Except.bind, pure, Except.pure, JVal.or]

theorem find_of_unique (docs : List ConfigRecord) (key : String) (config : ConfigRecord)
    (hmem : config ∈ docs) (hkey : config.key = key)
    (huniq : ∀ d ∈ docs, d.key = key → d = config) :
    (docs.find? fun d => decide (d.key = key)) = some config := by
  induction docs with
  | nil => simp at hmem
  | cons d ds ih =>
    by_cases hd : d.key = key
    · have := huniq d (List.mem_cons_self d ds) hd
      subst this
      simp [List.find?, hd]
    · have hne : config ≠ d := by
        intro h; rw [h] at hkey; exact hd hkey
      have hmem' : config ∈ ds := by
        rcases List.mem_cons.mp hmem with h | h
        · exact absurd h hne
        · exact h
      simp only [List.find?, hd, decide_False]
      exact ih hmem' (fun x hx => huniq x (List.mem_cons_of_mem d hx))

/-- The resolver never returns a falsy value other than `null`. -/
theorem getGeminiApiKey_falsy (db : ConfigDb) (env : Option String) (v : JVal)
    (h : getGeminiApiKey db env = .ok v) (hv : v.truthy = false) : v = .null := by
  cases db with
  | unavailable e =>
    rw [getGeminiApiKey_unavailable] at h
    split at h
    · rename_i ht; cases h; rw [ht] at hv; cases hv
    · cases h; rfl
  | records docs =>
    rw [getGeminiApiKey_records] at h
    split at h
    · split at h
      · rename_i ht; cases h; rw [ht] at hv; cases hv
      · split at h
        · rename_i ht; cases h; rw [ht] at hv; cases hv
        · cases h; rfl
    · split at h
      · rename_i ht; cases h; rw [ht] at hv; cases hv
      · cases h; rfl

theorem getGeminiApiKey_total (db : ConfigDb) (env : Option String) :
    ∃ v, getGeminiApiKey db env = .ok v := by
  cases db with
  | unavailable e => exact ⟨_, getGeminiApiKey_unavailable e env⟩
  | records docs => exact ⟨_, getGeminiApiKey_records docs env⟩


/-! ## Credential Resolver -/

/-- C11: when the store holds, as its one record under the key `gemini_api_key`,
a record with a truthy value (a non-empty string is one), the resolver returns
that value, whatever the environment variable is. -/
theorem credential_precedence (docs : List ConfigRecord) (env : Option String)
    (config : ConfigRecord) (hmem : config ∈ docs) (hkey : config.key = "gemini_api_key")
    (huniq : ∀ d ∈ docs, d.key = "gemini_api_key" → d = config)
    (hv : config.value.truthy = true) :
    getGeminiApiKey (.records docs) env = .ok config.value := by
  rw [getGeminiApiKey_records, find_of_unique docs _ config hmem hkey huniq]
  simp [hv]

/-- C11 (witness): the stored key `stored-key` is returned both when the
environment variable is set and when it is not. -/
theorem credential_precedence_witness :
    getGeminiApiKey
        (.records [⟨"theme", .str "dark", false⟩, ⟨"gemini_api_key", .str "stored-key", false⟩])
        (some "env-key") = .ok (.str "stored-key")
    ∧ getGeminiApiKey
        (.records [⟨"theme", .str "dark", false⟩, ⟨"gemini_api_key", .str "stored-key", false⟩])
        none = .ok (.str "stored-key") :=
  ⟨credential_precedence _ (some "env-key") ⟨"gemini_api_key", .str "stored-key", false⟩
      (by decide) rfl (by decide) (by decide),
    credential_precedence _ none ⟨"gemini_api_key", .str "stored-key", false⟩
      (by decide) rfl (by decide) (by decide)⟩

/-- C12: when the store lookup throws, the resolver does not throw: it returns
the environment variable when that is set and non-empty, and `null` otherwise,
and on `null` the handler answers that the API key is not configured. -/
theorem credential_store_failure (e : JSException) (env : Option String) :
    (∀ e', getGeminiApiKey (.unavailable e) env ≠ .error e')
    ∧ (∀ s, env = some s → s ≠ "" → getGeminiApiKey (.unavailable e) env = .ok (.str s))
    ∧ (env = none ∨ env = some "" →
      getGeminiApiKey (.unavailable e) env = .ok .null
      ∧ ∀ f development call,
        extractBookInfoHandler (some f) (.unavailable e) env development call
          = { answer := some (0, notConfiguredResponse), modelCalls := 0 }) := by
  refine ⟨?_, ?_, ?_⟩
  · intro e' h
    rw [getGeminiApiKey_unavailable] at h
    cases h
  · intro s hs hne
    subst hs
    rw [getGeminiApiKey_unavailable]
    simp [environmentKey, JVal.truthy, hne]
  · intro h
    have hk : getGeminiApiKey (.unavailable e) env = .ok .null := by
      rw [getGeminiApiKey_unavailable]
      rcases h with h | h <;> subst h <;> rfl
    refine ⟨hk, ?_⟩
    intro f development call
    simp [extractBookInfoHandler, hk, JVal.truthy]

/-- C12 (witness): a store that is down, with the environment variable set and
with it unset. -/
theorem credential_store_failure_witness :
    getGeminiApiKey (.unavailable ⟨"connection refused"⟩) (some "env-key") = .ok (.str "env-key")
    ∧ getGeminiApiKey (.unavailable ⟨"connection refused"⟩) none = .ok .null :=
  ⟨(credential_store_failure ⟨"connection refused"⟩ (some "env-key")).2.1 "env-key" rfl
      (by decide),
    ((credential_store_failure ⟨"connection refused"⟩ none).2.2 (Or.inl rfl)).1⟩

/-- C13: on a store that answers, the resolver reports the credential as missing
(returns `null`) exactly when the store has no record for `gemini_api_key`, or
one with a falsy value (the empty string is one), and the environment variable
is absent or empty; when the store has no truthy value and the environment
variable is set and non-empty, the environment variable is returned. -/
theorem credential_resolution_order (docs : List ConfigRecord) (env : Option String)
    (found : Option ConfigRecord)
    (hfind : (ConfigDb.records docs).findOne "gemini_api_key" = .ok found) :
    (getGeminiApiKey (.records docs) env = .ok .null ↔
      (found = none ∨ ∃ config, found = some config ∧ config.value.truthy = false)
        ∧ (env = none ∨ env = some ""))
    ∧ (∀ s, (found = none ∨ ∃ config, found = some config ∧ config.value.truthy = false) →
      env = some s → s ≠ "" → getGeminiApiKey (.records docs) env = .ok (.str s))
    ∧ (JVal.str "").truthy = false := by
  have hf : (docs.find? fun d => decide (d.key = "gemini_api_key")) = found := by
    simpa [ConfigDb.findOne] using hfind
  have hnone : (environmentKey none).truthy = false := rfl
  have hsome : ∀ s : String, (JVal.str s).truthy = decide (s ≠ "") := fun _ => rfl
  have hstr : ∀ s : String, environmentKey (some s) = .str s := fun _ => rfl
  rw [getGeminiApiKey_records, hf]
  refine ⟨?_, ?_, rfl⟩
  · cases found with
    | none =>
      cases env with
      | none => simp [hnone]
      | some s =>
        by_cases hs : s = "" <;> simp [hsome, hstr, hs]
    | some config =>
      by_cases hc : config.value.truthy = true
      · have hne : config.value ≠ .null := by
          intro h; rw [h] at hc; cases hc
        simp [hc, hne]
      · have hc' : config.value.truthy = false := by simpa using hc
        cases env with
        | none => simp [hnone, hc']
        | some s =>
          by_cases hs : s = "" <;> simp [hsome, hstr, hs, hc']
  · intro s hstore henv hne
    subst henv
    rcases hstore with h | ⟨config, h, hc⟩
    · subst h; simp [hsome, hstr, hne]
    · subst h; simp [hsome, hstr, hne, hc]

/-- C13 (witness): a record with an empty value and no environment variable give
`null`; the same store with the environment variable set gives the variable. -/
theorem credential_resolution_order_witness :
    getGeminiApiKey (.records [⟨"gemini_api_key", .str "", false⟩]) none = .ok .null
    ∧ getGeminiApiKey (.records [⟨"gemini_api_key", .str "", false⟩]) (some "env-key")
        = .ok (.str "env-key") :=
  ⟨(credential_resolution_order [⟨"gemini_api_key", .str "", false⟩] none
      (some ⟨"gemini_api_key", .str "", false⟩) (by decide)).1.mpr
      ⟨Or.inr ⟨_, rfl, by decide⟩, Or.inl rfl⟩,
    (credential_resolution_order [⟨"gemini_api_key", .str "", false⟩] (some "env-key")
      (some ⟨"gemini_api_key", .str "", false⟩) (by decide)).2.1 "env-key"
      (Or.inr ⟨_, rfl, by decide⟩) rfl (by decide)⟩

/-! ## The upload checks -/

theorem fileSizeLimit_eq : fileSizeLimit = 10485760 := rfl

theorem upload_not_image (rule : LimitRule) (f : UploadFile)
    (h : startsWith f.mimetype.data "image/".data = false) :
    upload rule (some f) = .error .onlyImages := by
  simp [upload, fileFilter, h, bind, Except.bind]

theorem upload_image (rule : LimitRule) (f : UploadFile)
    (h : startsWith f.mimetype.data "image/".data = true) :
    upload rule (some f)
      = if 10485760 < f.size ∨ (rule = .whenReached ∧ f.size = 10485760) then
          .error .limitFileSize
        else .ok (some f) := by
  simp only [upload, fileFilter, h, if_true, bind, Except.bind, fileSizeLimit_eq]
  split <;> rfl

theorem upload_image_large (rule : LimitRule) (f : UploadFile)
    (h : startsWith f.mimetype.data "image/".data = true) (hs : 10485760 < f.size) :
    upload rule (some f) = .error .limitFileSize := by
  rw [upload_image rule f h, if_pos (Or.inl hs)]

theorem upload_image_small (rule : LimitRule) (f : UploadFile)
    (h : startsWith f.mimetype.data "image/".data = true) (hs : f.size < 10485760) :
    upload rule (some f) = .ok (some f) := by
  rw [upload_image rule f h, if_neg]
  rintro (h' | ⟨_, h'⟩) <;> omega

theorem handleImageUpload_large (s : UploadState) (f : UploadFile) (h : 10485760 < f.size) :
    AddBook.handleImageUpload s (some f)
      = { s with error := some "File size must be less than 10MB" } := by
  simp [AddBook.handleImageUpload, h]

theorem handleImageUpload_not_image (s : UploadState) (f : UploadFile) (h : f.size ≤ 10485760)
    (hm : startsWith f.mimetype.data "image/".data = false) :
    AddBook.handleImageUpload s (some f)
      = { s with error := some "Please select a valid image file" } := by
  simp [AddBook.handleImageUpload, Nat.not_lt.mpr h, hm]

theorem handleImageUpload_accepts (s : UploadState) (f : UploadFile) (h : f.size ≤ 10485760)
    (hm : startsWith f.mimetype.data "image/".data = true) :
    AddBook.handleImageUpload s (some f) = { uploadedImage := some f, error := none } := by
  simp [AddBook.handleImageUpload, Nat.not_lt.mpr h, hm]

theorem route_of_upload_error (rule : LimitRule) (f : UploadFile) (e : UploadError)
    (h : upload rule (some f) = .error e)
    (db : ConfigDb) (env : Option String) (development : Bool) (call : ModelCall) :
    extractBookInfoRoute rule (some f) db env development call = .uploadError e := by
  simp [extractBookInfoRoute, h]

/-! ## Image Intake Validator -/

/-- C14: an upload of more than 10,485,760 bytes is rejected whatever its MIME
type and whatever the boundary rule of the upload library: the upload
middleware raises an error, so the handler is not called and no model call is
made, and `handleImageUpload` of the page shows an error and leaves the
uploaded image as it was, so that from a page without an image no request is
sent. -/
theorem upload_size_limit (rule : LimitRule) (f : UploadFile) (h : 10485760 < f.size) :
    (∃ e, upload rule (some f) = .error e)
    ∧ (∀ db env development call,
      (∃ e, extractBookInfoRoute rule (some f) db env development call = .uploadError e)
      ∧ (extractBookInfoRoute rule (some f) db env development call).modelCalls = 0)
    ∧ (∀ s, AddBook.handleImageUpload s (some f)
      = { s with error := some "File size must be less than 10MB" })
    ∧ AddBook.requestFile (AddBook.handleImageUpload ⟨none, none⟩ (some f)) = none := by
  have hup : ∃ e, upload rule (some f) = .error e := by
    cases hm : startsWith f.mimetype.data "image/".data with
    | false => exact ⟨_, upload_not_image rule f hm⟩
    | true => exact ⟨.limitFileSize, upload_image_large rule f hm h⟩
  obtain ⟨e, he⟩ := hup
  refine ⟨⟨e, he⟩, ?_, fun s => handleImageUpload_large s f h, ?_⟩
  · intro db env development call
    rw [route_of_upload_error rule f e he]
    exact ⟨⟨e, rfl⟩, rfl⟩
  · rw [handleImageUpload_large _ f h]
    rfl

/-- C14 (witness): an image of 10,485,761 bytes and a text file of 20,000,000,
under either boundary rule. -/
theorem upload_size_limit_witness :
    upload .whenExceeded (some ⟨10485761, "image/png"⟩) = .error .limitFileSize
    ∧ upload .whenReached (some ⟨20000000, "text/plain"⟩) = .error .onlyImages
    ∧ (∃ e, upload .whenExceeded (some ⟨10485761, "image/png"⟩) = .error e)
    ∧ (∃ e, upload .whenReached (some ⟨10485761, "image/png"⟩) = .error e)
    ∧ AddBook.requestFile (AddBook.handleImageUpload ⟨none, none⟩ (some ⟨10485761, "image/png"⟩))
        = none :=
  ⟨by decide, by decide,
    (upload_size_limit .whenExceeded ⟨10485761, "image/png"⟩ (by decide)).1,
    (upload_size_limit .whenReached ⟨10485761, "image/png"⟩ (by decide)).1,
    (upload_size_limit .whenExceeded ⟨10485761, "image/png"⟩ (by decide)).2.2.2⟩

/-- C15: an upload whose MIME type does not start with `image/` is rejected
whatever its size and whatever the boundary rule of the upload library:
`fileFilter` raises its error, so the handler is not called and no model call
is made, and `handleImageUpload` of the page shows an error and leaves the
uploaded image as it was. -/
theorem upload_mime_check (rule : LimitRule) (f : UploadFile)
    (h : startsWith f.mimetype.data "image/".data = false) :
    upload rule (some f) = .error .onlyImages
    ∧ fileFilter f = .error .onlyImages
    ∧ (∀ db env development call,
      extractBookInfoRoute rule (some f) db env development call = .uploadError .onlyImages
      ∧ (extractBookInfoRoute rule (some f) db env development call).modelCalls = 0)
    ∧ (∀ s, (AddBook.handleImageUpload s (some f)).uploadedImage = s.uploadedImage
      ∧ ∃ notice, (AddBook.handleImageUpload s (some f)).error = some notice)
    ∧ AddBook.requestFile (AddBook.handleImageUpload ⟨none, none⟩ (some f)) = none := by
  have hpage : ∀ s, (AddBook.handleImageUpload s (some f)).uploadedImage = s.uploadedImage
      ∧ ∃ notice, (AddBook.handleImageUpload s (some f)).error = some notice := by
    intro s
    by_cases hs : 10485760 < f.size
    · rw [handleImageUpload_large s f hs]
      exact ⟨rfl, _, rfl⟩
    · rw [handleImageUpload_not_image s f (Nat.not_lt.mp hs) h]
      exact ⟨rfl, _, rfl⟩
  refine ⟨upload_not_image rule f h, by simp [fileFilter, h], ?_, hpage, ?_⟩
  · intro db env development call
    rw [route_of_upload_error rule f _ (upload_not_image rule f h)]
    exact ⟨rfl, rfl⟩
  · exact (hpage ⟨none, none⟩).1

/-- C15 (witness): a small PDF, and a file with no declared type. -/
theorem upload_mime_check_witness :
    upload .whenExceeded (some ⟨1024, "application/pdf"⟩) = .error .onlyImages
    ∧ upload .whenReached (some ⟨1024, ""⟩) = .error .onlyImages
    ∧ AddBook.handleImageUpload ⟨none, none⟩ (some ⟨1024, "application/pdf"⟩)
        = ⟨none, some "Please select a valid image file"⟩ :=
  ⟨(upload_mime_check .whenExceeded ⟨1024, "application/pdf"⟩ (by decide)).1,
    (upload_mime_check .whenReached ⟨1024, ""⟩ (by decide)).1, by decide⟩

/-- C16 (counterexample): a text file of 20,000,000 bytes exceeds the size limit
and fails the MIME check; under either boundary rule the server rejects it with
the reason of the MIME check and not that of the size, and the page with the
reason of the size and not that of the MIME check. And an image of exactly
10,485,760 bytes, which the page accepts, is rejected as too large by an upload
library that raises its error when the size reaches the limit. -/
theorem rejected_upload_single_reason :
    fileSizeLimit < 20000000
    ∧ startsWith "text/plain".data "image/".data = false
    ∧ upload .whenExceeded (some ⟨20000000, "text/plain"⟩) = .error .onlyImages
    ∧ upload .whenReached (some ⟨20000000, "text/plain"⟩) = .error .onlyImages
    ∧ UploadError.onlyImages.message = "Only image files are allowed"
    ∧ upload .whenExceeded (some ⟨20000000, "text/plain"⟩) ≠ .error .limitFileSize
    ∧ upload .whenReached (some ⟨20000000, "text/plain"⟩) ≠ .error .limitFileSize
    ∧ AddBook.handleImageUpload ⟨none, none⟩ (some ⟨20000000, "text/plain"⟩)
        = ⟨none, some "File size must be less than 10MB"⟩
    ∧ upload .whenReached (some ⟨10485760, "image/jpeg"⟩) = .error .limitFileSize
    ∧ AddBook.handleImageUpload ⟨none, none⟩ (some ⟨10485760, "image/jpeg"⟩)
        = ⟨some ⟨10485760, "image/jpeg"⟩, none⟩ := by
  decide

/-- C16 (amended): an upload of less than 10,485,760 bytes whose MIME type starts
with `image/` is accepted by the upload middleware, under either boundary rule
of the upload library, and by the page. An image of exactly 10,485,760 bytes is
accepted by the page; the upload middleware accepts it when the library raises
its error only for a larger file, and rejects it with `File too large` when the
library raises it as soon as the size reaches the limit. A rejected upload
carries one reason. On the server it is `Only image files are allowed` whenever
the MIME check fails, and `File too large` when the MIME check passes and the
size limit is exceeded. On the page it is `File size must be less than 10MB`
whenever the size limit is exceeded, and `Please select a valid image file`
when the size is within the limit and the MIME check fails. -/
theorem upload_acceptance (rule : LimitRule) (f : UploadFile) :
    (f.size < 10485760 → startsWith f.mimetype.data "image/".data = true →
      upload rule (some f) = .ok (some f)
      ∧ ∀ s, AddBook.handleImageUpload s (some f) = { uploadedImage := some f, error := none })
    ∧ (f.size = 10485760 → startsWith f.mimetype.data "image/".data = true →
      upload .whenExceeded (some f) = .ok (some f)
      ∧ upload .whenReached (some f) = .error .limitFileSize
      ∧ ∀ s, AddBook.handleImageUpload s (some f) = { uploadedImage := some f, error := none })
    ∧ (startsWith f.mimetype.data "image/".data = false →
      upload rule (some f) = .error .onlyImages)
    ∧ (startsWith f.mimetype.data "image/".data = true → 10485760 < f.size →
      upload rule (some f) = .error .limitFileSize)
    ∧ (10485760 < f.size → ∀ s, AddBook.handleImageUpload s (some f)
      = { s with error := some "File size must be less than 10MB" })
    ∧ (f.size ≤ 10485760 → startsWith f.mimetype.data "image/".data = false →
      ∀ s, AddBook.handleImageUpload s (some f)
        = { s with error := some "Please select a valid image file" })
    ∧ UploadError.onlyImages.message = "Only image files are allowed"
    ∧ UploadError.limitFileSize.message = "File too large" := by
  refine ⟨?_, ?_, upload_not_image rule f, upload_image_large rule f,
    fun h s => handleImageUpload_large s f h,
    fun h hm s => handleImageUpload_not_image s f h hm, rfl, rfl⟩
  · intro h hm
    exact ⟨upload_image_small rule f hm h,
      fun s => handleImageUpload_accepts s f (Nat.le_of_lt h) hm⟩
  · intro h hm
    refine ⟨?_, ?_, fun s => handleImageUpload_accepts s f (Nat.le_of_eq h) hm⟩
    · rw [upload_image _ f hm, if_neg]
      rintro (h' | ⟨h', _⟩)
      · omega
      · cases h'
    · rw [upload_image _ f hm, if_pos (Or.inr ⟨rfl, h⟩)]

/-- C16 (witness): an image of 10,485,759 bytes is accepted under either rule,
one of exactly 10,485,760 bytes by the page and under one of the two rules, and
one of 10,485,761 bytes is rejected as too large. -/
theorem upload_acceptance_witness :
    (upload .whenReached (some ⟨10485759, "image/jpeg"⟩) = .ok (some ⟨10485759, "image/jpeg"⟩)
      ∧ ∀ s, AddBook.handleImageUpload s (some ⟨10485759, "image/jpeg"⟩)
        = { uploadedImage := some ⟨10485759, "image/jpeg"⟩, error := none })
    ∧ (upload .whenExceeded (some ⟨10485760, "image/jpeg"⟩)
        = .ok (some ⟨10485760, "image/jpeg"⟩)
      ∧ upload .whenReached (some ⟨10485760, "image/jpeg"⟩) = .error .limitFileSize
      ∧ ∀ s, AddBook.handleImageUpload s (some ⟨10485760, "image/jpeg"⟩)
        = { uploadedImage := some ⟨10485760, "image/jpeg"⟩, error := none })
    ∧ upload .whenExceeded (some ⟨10485761, "image/jpeg"⟩) = .error .limitFileSize :=
  ⟨(upload_acceptance .whenReached ⟨10485759, "image/jpeg"⟩).1 (by decide) (by decide),
    (upload_acceptance .whenReached ⟨10485760, "image/jpeg"⟩).2.1 (by decide) (by decide),
    (upload_acceptance .whenExceeded ⟨10485761, "image/jpeg"⟩).2.2.2.1 (by decide) (by decide)⟩

/-! ## The model call -/

theorem extractBookInfoHandler_of_key (f : UploadFile) (db : ConfigDb) (env : Option String)
    (development : Bool) (call : ModelCall) (apiKey : JVal)
    (hk : getGeminiApiKey db env = .ok apiKey) (ht : apiKey.truthy = true) :
    extractBookInfoHandler (some f) db env development call =
      match call with
      | .resolves ms (.text t) => { answer := some (ms, respond t), modelCalls := 1 }
      | .resolves ms .missing =>
        { answer := some (ms, failureResponse (errorDetail development ⟨missingTextMessage⟩))
          modelCalls := 1 }
      | .rejects ms e =>
        { answer := some (ms, failureResponse (errorDetail development e)), modelCalls := 1 }
      | .never => { answer := none, modelCalls := 1 } := by
  simp only [extractBookInfoHandler, hk, ht]
  rfl

theorem raceWithTimer_of_timerFirst (delay : Nat) (call : ModelCall)
    (h : timerFirst delay call) :
    raceWithTimer delay call = (delay, .error ⟨"Request timeout"⟩) := by
  simp [raceWithTimer, h]

theorem raceWithTimer_resolves (delay ms : Nat) (reply : ModelReply) (h : ms ≤ delay) :
    raceWithTimer delay (.resolves ms reply) = (ms, .ok reply) := by
  simp [raceWithTimer, timerFirst, Nat.not_lt.mpr h]

theorem raceWithTimer_rejects (delay ms : Nat) (e : JSException) (h : ms ≤ delay) :
    raceWithTimer delay (.rejects ms e) = (ms, .error e) := by
  simp [raceWithTimer, timerFirst, Nat.not_lt.mpr h]

theorem timerFirst_iff (delay : Nat) (call : ModelCall) :
    timerFirst delay call ↔
      (call = .never ∨ (∃ ms reply, call = .resolves ms reply ∧ delay < ms)
        ∨ ∃ ms e, call = .rejects ms e ∧ delay < ms) := by
  cases call <;> simp [timerFirst]

/-! ## Extraction Requestor -/

/-- C17 (counterexample): with a credential configured, a model call that never
settles leaves the request unanswered, and one that resolves after 70 seconds
is answered after 70 seconds with the ordinary success response: the handler
of `extract-book-info` has no timer. The 60 second limit is that of the
request made by the page, which gives up with its default notice, and the
handler of `test-api-key` answers a call that never settles after 10 seconds
with its timeout message. -/
theorem extraction_has_no_timer :
    extractBookInfoHandler (some ⟨2048, "image/png"⟩)
        (.records [⟨"gemini_api_key", .str "stored-key", false⟩]) none false .never
      = { answer := none, modelCalls := 1 }
    ∧ extractBookInfoHandler (some ⟨2048, "image/png"⟩)
        (.records [⟨"gemini_api_key", .str "stored-key", false⟩]) none false
        (.resolves 70000 (.text "\x7b\"title\":\"Dune\"\x7d".data))
      = { answer := some (70000,
            successResponse { blankInfo (.fin (1 / 2)) with title := .str "Dune" })
          modelCalls := 1 }
    ∧ AddBook.extractBookInfoOver { answer := none, modelCalls := 1 }
      = .failed "Failed to extract book information"
    ∧ testApiKeyHandler (.str "stored-key") false .never
      = { answer := some (10000, keyTestFailure false ⟨"Request timeout"⟩), modelCalls := 1 }
    ∧ (keyTestFailure false ⟨"Request timeout"⟩).message
      = "Request timeout - please check your connection" := by
  refine ⟨by decide, by decide!, by decide, by decide, by decide⟩

/-- C17 (amended): with a credential configured, the handler of
`extract-book-info` awaits the model call itself, with no timer: it answers
when the call settles, however late, with the response made from the reply or
with status 500 for a rejection, and it sends nothing while the call has not
settled. The budget of 60 seconds is that of the request made by the page:
whenever no answer has come within 60,000 milliseconds the page stops waiting
and shows its default notice `Failed to extract book information`, and an
answer that comes earlier is handled as usual. -/
theorem extraction_timeout (f : UploadFile) (db : ConfigDb) (env : Option String)
    (development : Bool) (call : ModelCall) (apiKey : JVal)
    (hk : getGeminiApiKey db env = .ok apiKey) (ht : apiKey.truthy = true) :
    (∀ ms t, call = .resolves ms (.text t) →
      extractBookInfoHandler (some f) db env development call
        = { answer := some (ms, respond t), modelCalls := 1 })
    ∧ (∀ ms e, call = .rejects ms e →
      extractBookInfoHandler (some f) db env development call
        = { answer := some (ms, failureResponse (errorDetail development e)), modelCalls := 1 })
    ∧ (call = .never →
      extractBookInfoHandler (some f) db env development call
        = { answer := none, modelCalls := 1 })
    ∧ ((∀ ms r, (extractBookInfoHandler (some f) db env development call).answer = some (ms, r)
        → 60000 ≤ ms) →
      AddBook.extractBookInfoOver (extractBookInfoHandler (some f) db env development call)
        = .failed "Failed to extract book information")
    ∧ (∀ ms r, (extractBookInfoHandler (some f) db env development call).answer = some (ms, r)
        → ms < 60000 →
      AddBook.extractBookInfoOver (extractBookInfoHandler (some f) db env development call)
        = AddBook.extractBookInfo r) := by
  refine ⟨?_, ?_, ?_, ?_, ?_⟩
  · rintro ms t rfl
    rw [extractBookInfoHandler_of_key f db env development _ apiKey hk ht]
  · rintro ms e rfl
    rw [extractBookInfoHandler_of_key f db env development _ apiKey hk ht]
  · rintro rfl
    rw [extractBookInfoHandler_of_key f db env development _ apiKey hk ht]
  · intro h
    unfold AddBook.extractBookInfoOver
    cases ha : (extractBookInfoHandler (some f) db env development call).answer with
    | none => rfl
    | some p =>
      obtain ⟨ms, r⟩ := p
      have := h ms r ha
      simp only
      rw [if_neg (Nat.not_lt.mpr this)]
  · intro ms r ha hms
    unfold AddBook.extractBookInfoOver
    rw [ha]
    simp only
    rw [if_pos hms]

/-- C17 (witness): with a stored key, a call that never settles: the handler
sends nothing and the page gives up with its default notice; and a call that
resolves after 70 seconds, which the handler still answers. -/
theorem extraction_timeout_witness :
    extractBookInfoHandler (some ⟨2048, "image/png"⟩)
        (.records [⟨"gemini_api_key", .str "stored-key", false⟩]) none false .never
      = { answer := none, modelCalls := 1 }
    ∧ AddBook.extractBookInfoOver (extractBookInfoHandler (some ⟨2048, "image/png"⟩)
        (.records [⟨"gemini_api_key", .str "stored-key", false⟩]) none false .never)
      = .failed "Failed to extract book information"
    ∧ extractBookInfoHandler (some ⟨2048, "image/png"⟩)
        (.records [⟨"gemini_api_key", .str "stored-key", false⟩]) none false
        (.resolves 70000 (.text "\x7b\"title\":\"Dune\"\x7d".data))
      = { answer := some (70000, respond "\x7b\"title\":\"Dune\"\x7d".data), modelCalls := 1 } :=
  ⟨(extraction_timeout ⟨2048, "image/png"⟩
      (.records [⟨"gemini_api_key", .str "stored-key", false⟩]) none false .never
      (.str "stored-key") (by decide) (by decide)).2.2.1 rfl,
    (extraction_timeout ⟨2048, "image/png"⟩
      (.records [⟨"gemini_api_key", .str "stored-key", false⟩]) none false .never
      (.str "stored-key") (by decide) (by decide)).2.2.2.1
      (fun _ _ h => Option.noConfusion
        (h.symm.trans (show _ = (none : Option (Nat × Response)) by decide))),
    (extraction_timeout ⟨2048, "image/png"⟩
      (.records [⟨"gemini_api_key", .str "stored-key", false⟩]) none false
      (.resolves 70000 (.text "\x7b\"title\":\"Dune\"\x7d".data))
      (.str "stored-key") (by decide) (by decide)).1 _ _ rfl⟩

/-- C18 (counterexample): model calls that reject with the messages
`API_KEY_INVALID`, `PERMISSION_DENIED`, `timeout` and `quota exceeded` are all
answered by `extract-book-info` with one and the same response, and the page
shows one and the same notice for it, while the classifier of `test-api-key`
gives the four messages four different reasons. -/
theorem extraction_errors_answered_alike :
    (∀ m ∈ ["API_KEY_INVALID", "PERMISSION_DENIED", "timeout", "quota exceeded"],
      extractBookInfoHandler (some ⟨2048, "image/png"⟩)
          (.records [⟨"gemini_api_key", .str "stored-key", false⟩]) none false (.rejects 5 ⟨m⟩)
        = { answer := some (5,
              { status := 500
                success := false
                message := some
                  "Failed to extract book information. Please check your API key and try again."
                data := none
                error := some "Internal server error" })
            modelCalls := 1 }
      ∧ AddBook.extractBookInfoOver (extractBookInfoHandler (some ⟨2048, "image/png"⟩)
          (.records [⟨"gemini_api_key", .str "stored-key", false⟩]) none false (.rejects 5 ⟨m⟩))
        = .failed "Server error. Please check if your API key is configured correctly.")
    ∧ errorMessage "API_KEY_INVALID" = "Invalid API key provided"
    ∧ errorMessage "PERMISSION_DENIED" = "API key does not have required permissions"
    ∧ errorMessage "timeout" = "Request timeout - please check your connection"
    ∧ errorMessage "quota exceeded" = "Invalid API key or service unavailable" := by
  decide

/-- C18 (amended): with a credential configured, whatever the message of the
error that the model call of `extract-book-info` rejects with, the response is
status 500 with `success: false` and the one fixed message; its member `error`
is `Internal server error`, and in development mode the message of the error
copied as it is. The page shows the same notice for every such response. No
reason is derived from the message. -/
theorem extraction_error_not_classified (f : UploadFile) (db : ConfigDb) (env : Option String)
    (development : Bool) (apiKey : JVal) (m : String) (ms : Nat)
    (hk : getGeminiApiKey db env = .ok apiKey) (ht : apiKey.truthy = true) :
    extractBookInfoHandler (some f) db env development (.rejects ms ⟨m⟩)
      = { answer := some (ms,
            { status := 500
              success := false
              message := some
                "Failed to extract book information. Please check your API key and try again."
              data := none
              error := some (if development then m else "Internal server error") })
          modelCalls := 1 }
    ∧ (∀ m', development = false →
      extractBookInfoHandler (some f) db env development (.rejects ms ⟨m'⟩)
        = extractBookInfoHandler (some f) db env development (.rejects ms ⟨m⟩))
    ∧ (ms < 60000 →
      AddBook.extractBookInfoOver
          (extractBookInfoHandler (some f) db env development (.rejects ms ⟨m⟩))
        = .failed "Server error. Please check if your API key is configured correctly.") := by
  have h : ∀ m : String, extractBookInfoHandler (some f) db env development (.rejects ms ⟨m⟩)
      = { answer := some (ms,
            { status := 500
              success := false
              message := some
                "Failed to extract book information. Please check your API key and try again."
              data := none
              error := some (if development then m else "Internal server error") })
          modelCalls := 1 } := by
    intro m
    rw [extractBookInfoHandler_of_key f db env development _ apiKey hk ht]
    rfl
  refine ⟨h m, ?_, ?_⟩
  · rintro m' rfl
    rw [h m, h m']
    rfl
  · intro hms
    rw [h m]
    simp [AddBook.extractBookInfoOver, hms, AddBook.extractBookInfo]

/-- C18 (witness): a stored key, outside and in development mode. -/
theorem extraction_error_not_classified_witness :
    extractBookInfoHandler (some ⟨2048, "image/png"⟩)
        (.records [⟨"gemini_api_key", .str "stored-key", false⟩]) none false
        (.rejects 5 ⟨"API_KEY_INVALID"⟩)
      = { answer := some (5,
            { status := 500
              success := false
              message := some
                "Failed to extract book information. Please check your API key and try again."
              data := none
              error := some (if false then "API_KEY_INVALID" else "Internal server error") })
          modelCalls := 1 }
    ∧ extractBookInfoHandler (some ⟨2048, "image/png"⟩)
        (.records [⟨"gemini_api_key", .str "stored-key", false⟩]) none true
        (.rejects 5 ⟨"API_KEY_INVALID"⟩)
      = { answer := some (5,
            { status := 500
              success := false
              message := some
                "Failed to extract book information. Please check your API key and try again."
              data := none
              error := some (if true then "API_KEY_INVALID" else "Internal server error") })
          modelCalls := 1 } :=
  ⟨(extraction_error_not_classified ⟨2048, "image/png"⟩
      (.records [⟨"gemini_api_key", .str "stored-key", false⟩]) none false (.str "stored-key")
      "API_KEY_INVALID" 5 (by decide) (by decide)).1,
    (extraction_error_not_classified ⟨2048, "image/png"⟩
      (.records [⟨"gemini_api_key", .str "stored-key", false⟩]) none true (.str "stored-key")
      "API_KEY_INVALID" 5 (by decide) (by decide)).1⟩

/-- C19: in the handler of `test-api-key`, for an API key that is a non-blank
string, the model call is raced against a timer of 10 seconds. Whenever the
timer settles first (the call settles later than 10,000 milliseconds after it
was made, or never) the handler answers after 10 seconds with `success: false`,
`valid: false` and the message `Request timeout - please check your
connection`: the message `Request timeout` of the timer's error contains
`timeout` and neither of the two substrings tested before it, so it is not
given the generic message. Whenever the call settles first, the handler answers
when the call settles and with the call's result: the success response for a
reply with a text, the failure of the caught error for a rejection. -/
theorem key_test_timeout (s : String) (development : Bool) (call : ModelCall)
    (hs : s ≠ "") (ht : trim s.data ≠ []) :
    (timerFirst 10000 call →
      testApiKeyHandler (.str s) development call =
        { answer := some (10000,
            { status := 200
              success := false
              valid := false
              message := "Request timeout - please check your connection"
              testResponse := none
              error := if development then some "Request timeout" else none })
          modelCalls := 1 })
    ∧ (timerFirst 10000 call ↔
      (call = .never ∨ (∃ ms reply, call = .resolves ms reply ∧ 10000 < ms)
        ∨ ∃ ms e, call = .rejects ms e ∧ 10000 < ms))
    ∧ (∀ ms t, call = .resolves ms (.text t) → ms ≤ 10000 →
      testApiKeyHandler (.str s) development call =
        { answer := some (ms,
            { status := 200
              success := true
              valid := true
              message := "API key is valid and working"
              testResponse := some t
              error := none })
          modelCalls := 1 })
    ∧ (∀ ms, call = .resolves ms .missing → ms ≤ 10000 →
      testApiKeyHandler (.str s) development call =
        { answer := some (ms,
            { status := 200
              success := false
              valid := false
              message := "API key test failed - no valid response received"
              testResponse := none
              error := none })
          modelCalls := 1 })
    ∧ (∀ ms e, call = .rejects ms e → ms ≤ 10000 →
      testApiKeyHandler (.str s) development call =
        { answer := some (ms, keyTestFailure development e), modelCalls := 1 })
    ∧ errorMessage "Request timeout" = "Request timeout - please check your connection"
    ∧ errorMessage "Request timeout" ≠ "Invalid API key or service unavailable" := by
  refine ⟨?_, timerFirst_iff 10000 call, ?_, ?_, ?_, by decide, by decide⟩
  · intro hfirst
    simp only [testApiKeyHandler, hs, ht, or_self, if_false,
      raceWithTimer_of_timerFirst 10000 call hfirst]
    have : errorMessage "Request timeout" = "Request timeout - please check your connection" := by
      decide
    simp [keyTestFailure, this]
  · rintro ms t rfl hms
    simp only [testApiKeyHandler, hs, ht, or_self, if_false]
    rw [raceWithTimer_resolves 10000 ms _ hms]
  · rintro ms rfl hms
    simp only [testApiKeyHandler, hs, ht, or_self, if_false]
    rw [raceWithTimer_resolves 10000 ms _ hms]
  · rintro ms e rfl hms
    simp only [testApiKeyHandler, hs, ht, or_self, if_false]
    rw [raceWithTimer_rejects 10000 ms _ hms]

/-- C19 (witness): a call that never settles and one that resolves after 10,001
milliseconds lose the race; a call that resolves after 5 milliseconds, one that
resolves at the very instant the timer is due, and one that rejects after 5
milliseconds win it. -/
theorem key_test_timeout_witness :
    testApiKeyHandler (.str "some-key") false .never =
      { answer := some (10000,
          { status := 200
            success := false
            valid := false
            message := "Request timeout - please check your connection"
            testResponse := none
            error := if false then some "Request timeout" else none })
        modelCalls := 1 }
    ∧ testApiKeyHandler (.str "some-key") true (.resolves 10001 (.text "OK".data)) =
      { answer := some (10000,
          { status := 200
            success := false
            valid := false
            message := "Request timeout - please check your connection"
            testResponse := none
            error := if true then some "Request timeout" else none })
        modelCalls := 1 }
    ∧ testApiKeyHandler (.str "some-key") false (.resolves 5 (.text "OK".data)) =
      { answer := some (5,
          { status := 200
            success := true
            valid := true
            message := "API key is valid and working"
            testResponse := some "OK".data
            error := none })
        modelCalls := 1 }
    ∧ testApiKeyHandler (.str "some-key") false (.resolves 10000 (.text "OK".data)) =
      { answer := some (10000,
          { status := 200
            success := true
            valid := true
            message := "API key is valid and working"
            testResponse := some "OK".data
            error := none })
        modelCalls := 1 }
    ∧ testApiKeyHandler (.str "some-key") false (.rejects 5 ⟨"API_KEY_INVALID"⟩) =
      { answer := some (5, keyTestFailure false ⟨"API_KEY_INVALID"⟩), modelCalls := 1 }
    ∧ (keyTestFailure false ⟨"API_KEY_INVALID"⟩).message = "Invalid API key provided" :=
  ⟨(key_test_timeout "some-key" false .never (by decide) (by decide)).1 trivial,
    (key_test_timeout "some-key" true (.resolves 10001 (.text "OK".data)) (by decide)
      (by decide)).1 (by decide),
    (key_test_timeout "some-key" false (.resolves 5 (.text "OK".data)) (by decide)
      (by decide)).2.2.1 5 _ rfl (by decide),
    (key_test_timeout "some-key" false (.resolves 10000 (.text "OK".data)) (by decide)
      (by decide)).2.2.1 10000 _ rfl (by decide),
    (key_test_timeout "some-key" false (.rejects 5 ⟨"API_KEY_INVALID"⟩) (by decide)
      (by decide)).2.2.2.2.1 5 _ rfl (by decide),
    by decide⟩

/-- C20: for a request whose file passes the upload middleware (under either
boundary rule of the upload library), when the
resolver reports no credential the handler answers at once with status 400,
`success: false` and the message that the API key is not configured, without
calling the model; that message is neither the message of a failed extraction
nor that of an unparseable answer. -/
theorem missing_credential_short_circuit (f : UploadFile) (db : ConfigDb)
    (env : Option String) (development : Bool) (call : ModelCall) (apiKey : JVal)
    (rule : LimitRule) (hfile : upload rule (some f) = .ok (some f))
    (hk : getGeminiApiKey db env = .ok apiKey) (hmissing : apiKey.truthy = false) :
    extractBookInfoRoute rule (some f) db env development call
      = .handled { answer := some (0, notConfiguredResponse), modelCalls := 0 }
    ∧ (extractBookInfoRoute rule (some f) db env development call).modelCalls = 0
    ∧ notConfiguredResponse.success = false
    ∧ notConfiguredResponse.message
      = some "Gemini API key not configured. Please configure it in Settings."
    ∧ (∀ detail, notConfiguredResponse.message ≠ (failureResponse detail).message)
    ∧ notConfiguredResponse.message ≠ fallbackResponse.message := by
  have h : extractBookInfoRoute rule (some f) db env development call
      = .handled { answer := some (0, notConfiguredResponse), modelCalls := 0 } := by
    simp [extractBookInfoRoute, hfile, extractBookInfoHandler, hk, hmissing]
  refine ⟨h, by rw [h]; rfl, rfl, rfl, fun detail => ?_, by decide⟩
  simp [notConfiguredResponse, failureResponse]

/-- C20 (witness): an empty store and no environment variable. -/
theorem missing_credential_short_circuit_witness :
    extractBookInfoRoute .whenReached (some ⟨2048, "image/png"⟩) (.records []) none false
        (.resolves 900 (.text "\x7b\x7d".data))
      = .handled { answer := some (0, notConfiguredResponse), modelCalls := 0 } :=
  (missing_credential_short_circuit ⟨2048, "image/png"⟩ (.records []) none false
    (.resolves 900 (.text "\x7b\x7d".data)) .null .whenReached (by decide) (by decide)
    (by decide)).1

/-! ## Output record shape -/

theorem or_null_ne_undefined (x : JVal) : x.or .null ≠ .undefined := by
  unfold JVal.or
  split
  · rename_i h
    intro e
    rw [e] at h
    exact absurd h (by decide)
  · intro e
    cases e

/-- The ten keys of the schema. -/
theorem jsonKeys_of_defined (d : ExtractedBookInfo)
    (h : ∀ f ∈ stringFields, f.2 d ≠ .undefined) :
    ∀ name ∈ ["title", "author", "gradeLevel", "subject", "series", "publisher", "isbn",
      "description", "confidence", "extractedByAI"], name ∈ d.jsonKeys := by
  have hf : (stringFields.filter fun f => decide (f.2 d ≠ .undefined)) = stringFields :=
    List.filter_eq_self.mpr fun f hf => by simpa using h f hf
  intro name hname
  unfold ExtractedBookInfo.jsonKeys
  rw [hf]
  simp only [stringFields, List.map_cons, List.map_nil]
  simp only [List.mem_cons, List.mem_singleton, List.mem_append, List.not_mem_nil, or_false] at hname ⊢
  tauto

/-- C21: for every model response text the handler has a record to return, on
the parsed path and on the fallback path alike; its member `extractedByAI` is
`true`, and the body sent contains all ten keys of the schema (`title`,
`author`, `gradeLevel`, `subject`, `series`, `publisher`, `isbn`, `description`,
`confidence`, `extractedByAI`), whatever members the model left out. -/
theorem record_shape (text : List Char) :
    ∃ d, (respond text).data = some d ∧ d.extractedByAI = true
      ∧ ∀ name ∈ ["title", "author", "gradeLevel", "subject", "series", "publisher", "isbn",
          "description", "confidence", "extractedByAI"], name ∈ d.jsonKeys := by
  have hfall : ∃ d, fallbackResponse.data = some d ∧ d.extractedByAI = true
      ∧ ∀ name ∈ ["title", "author", "gradeLevel", "subject", "series", "publisher", "isbn",
          "description", "confidence", "extractedByAI"], name ∈ d.jsonKeys :=
    ⟨fallbackData, rfl, rfl, jsonKeys_of_defined _ (by decide)⟩
  cases hb : bookInfo text with
  | error e => rw [respond_of_error text e hb]; exact hfall
  | ok v =>
    rw [respond_of_ok text v hb]
    by_cases hv : v = .null
    · subst hv; rw [sanitizedBookInfo_null]; exact hfall
    by_cases hv' : v = .undefined
    · subst hv'; rw [sanitizedBookInfo_undefined]; exact hfall
    rw [sanitizedBookInfo_eq v hv hv']
    cases clampConfidence (v.member "confidence") with
    | error e => exact hfall
    | ok c =>
      refine ⟨_, rfl, rfl, jsonKeys_of_defined _ ?_⟩
      intro f hf
      simp only [stringFields, List.mem_cons, List.mem_singleton, List.not_mem_nil, or_false] at hf
      rcases hf with h | h | h | h | h | h | h | h <;> subst h <;> exact or_null_ne_undefined _

/-! ## Route dispatch of the API-key test -/

/-- A segment that the literal `test-api-key` matches is also matched by the
parameter `:key`. -/
theorem param_matches_of_literal (segment : String)
    (h : "test-api-key".data.map Char.toLower = segment.data.map Char.toLower) :
    ¬ (segment = "" ∨ '/' ∈ segment.data) := by
  rintro (h' | h')
  · subst h'
    exact absurd h (by decide)
  · have : Char.toLower '/' ∈ segment.data.map Char.toLower := List.mem_map_of_mem _ h'
    rw [← h] at this
    exact absurd this (by decide)

/-- The dispatch of a `POST` never selects the handler of the API-key test. -/
theorem dispatch_post_ne_testApiKey (segment : String) (params : List (String × String)) :
    dispatch configRoutes .post segment ≠ some (.testApiKey, params) := by
  by_cases h : segment = "" ∨ '/' ∈ segment.data
  · have hl : ¬ ("test-api-key".data.map Char.toLower = segment.data.map Char.toLower) :=
      fun hl => param_matches_of_literal segment hl h
    simp only [configRoutes, dispatch, RoutePath.matchSegment, h, hl, reduceCtorEq, ↓reduceIte]
    simp
  · simp only [configRoutes, dispatch, RoutePath.matchSegment, h, reduceCtorEq, ↓reduceIte]
    simp

/-- C22 (the code at the failing input): the request of `configAPI.testApiKey`
with any key is dispatched to the handler of `POST /:key` with `key` bound to
`test-api-key`; that handler finds no `value` in the body and answers 400
`Configuration value is required` without a call to the model and without a
`valid` flag. No `POST` at all reaches the handler of the API-key test. -/
theorem test_api_key_route_shadowed
    (findOneAndUpdate : String → JVal → JVal → Except JSException ConfigDocument)
    (development : Bool) (call : ModelCall) (apiKey : String) :
    dispatch configRoutes .post (configAPI.testApiKey apiKey).1
        = some (.setConfiguration, [("key", "test-api-key")])
    ∧ configPost findOneAndUpdate development call (configAPI.testApiKey apiKey).1
        (configAPI.testApiKey apiKey).2
      = .configuration
          { status := 400
            success := false
            message := some "Configuration value is required"
            hasValue := none
            key := none
            encrypted := none
            updatedAt := none
            error := none }
    ∧ ∀ (segment : String) (body : JVal) (o : Outcome KeyTestResponse),
        configPost findOneAndUpdate development call segment body ≠ .keyTest o := by
  have hd : dispatch configRoutes .post (configAPI.testApiKey apiKey).1
      = some (.setConfiguration, [("key", "test-api-key")]) := by
    show dispatch configRoutes .post "test-api-key" = _
    decide
  refine ⟨hd, ?_, ?_⟩
  · unfold configPost
    rw [hd]
    simp only [configAPI.testApiKey]
    rfl
  · intro segment body o
    unfold configPost
    have hne := dispatch_post_ne_testApiKey segment
    cases hdis : dispatch configRoutes .post segment with
    | none => simp
    | some p =>
      obtain ⟨handler, params⟩ := p
      cases handler with
      | testApiKey => exact absurd hdis (hne params)
      | getConfiguration => simp
      | setConfiguration => simp
      | deleteConfiguration => simp

/-! ## The single-user invariant -/

/-- A registration leaves the documents as they are or adds one to an empty
collection. -/
theorem register_store (env : AuthEnv) (users : List UserRecord) (req : AuthRequest) :
    (register env users req).2 = users
      ∨ (users = [] ∧ ∃ u, (register env users req).2 = [u]) := by
  unfold register
  cases req.storeFailure with
  | some e => exact Or.inl rfl
  | none =>
    by_cases h : users.length > 0
    · simp only [h, ↓reduceIte]
      exact Or.inl trivial
    · have hnil : users = [] := List.length_eq_zero.mp (by omega)
      subst hnil
      simp only [h, ↓reduceIte]
      cases registerSteps env req.body with
      | error e =>
        cases e with
        | duplicateKey field => exact Or.inl rfl
        | other e => exact Or.inl rfl
      | ok p =>
        obtain ⟨response, created⟩ := p
        cases created with
        | none => exact Or.inl rfl
        | some user => exact Or.inr ⟨trivial, user, rfl⟩

theorem register_length (env : AuthEnv) (users : List UserRecord) (req : AuthRequest)
    (h : users.length ≤ 1) : (register env users req).2.length ≤ 1 := by
  rcases register_store env users req with h' | ⟨_, u, h'⟩
  · rw [h']; exact h
  · rw [h']; exact Nat.le_refl 1

theorem registerAll_length (env : AuthEnv) (reqs : List AuthRequest) (users : List UserRecord)
    (h : users.length ≤ 1) : (registerAll env users reqs).length ≤ 1 := by
  induction reqs generalizing users with
  | nil => exact h
  | cons req rest ih => exact ih _ (register_length env users req h)

/-- C23: when the collection holds a user and the store answers, the
registration handler returns 400 `User already exists. This is a single-user
application.` and leaves the collection unchanged; a registration changes the
collection only when it is empty, and then to exactly one user; hence the
collection holds at most one user after any sequence of registration requests
served one after the other from the empty collection. -/
theorem single_user_invariant (env : AuthEnv) (users : List UserRecord) (req : AuthRequest)
    (reqs : List AuthRequest) :
    (users ≠ [] → req.storeFailure = none →
      register env users req
        = (authFailure 400 "User already exists. This is a single-user application.", users))
    ∧ ((register env users req).2 ≠ users →
        users = [] ∧ ∃ u, (register env users req).2 = [u])
    ∧ (registerAll env [] reqs).length ≤ 1 := by
  refine ⟨?_, ?_, registerAll_length env reqs [] (Nat.zero_le 1)⟩
  · intro hne hstore
    have hpos : users.length > 0 := List.length_pos.mpr hne
    simp only [register, hstore, hpos, ↓reduceIte]
  · intro hne
    rcases register_store env users req with h | h
    · exact absurd h hne
    · exact h

/-- C23 (witness): the first registration creates the user; a second one, by
another person, is answered with 400 and changes nothing. -/
theorem single_user_invariant_witness :
    register exampleEnv [] (requestOf exampleRegistration)
      = ({ status := 201
           success := true
           message := "User registered successfully"
           token := some "token-u1"
           user := some exampleUser
           error := none }, [exampleUser])
    ∧ register exampleEnv [exampleUser]
        (requestOf (.obj [("username", .str "eve"), ("email", .str "eve@example.org"),
          ("password", .str "another password"), ("firstName", .str "Eve"),
          ("lastName", .str "Moneypenny")]))
      = (authFailure 400 "User already exists. This is a single-user application.",
          [exampleUser])
    ∧ (registerAll exampleEnv []
        [requestOf exampleRegistration, requestOf exampleRegistration]).length ≤ 1 :=
  ⟨by decide!,
    (single_user_invariant exampleEnv [exampleUser]
      (requestOf (.obj [("username", .str "eve"), ("email", .str "eve@example.org"),
        ("password", .str "another password"), ("firstName", .str "Eve"),
        ("lastName", .str "Moneypenny")])) []).1 (by decide) rfl,
    (single_user_invariant exampleEnv [] (requestOf exampleRegistration)
      [requestOf exampleRegistration, requestOf exampleRegistration]).2.2⟩

/-! ## Configuration values are not disclosed -/

theorem find_agreesUpToValue (key : String) (docs₁ docs₂ : List ConfigDocument)
    (h : List.Forall₂ ConfigDocument.agreesUpToValue docs₁ docs₂) :
    (docs₁.find? (fun d => decide (d.key = key)) = none
      ∧ docs₂.find? (fun d => decide (d.key = key)) = none)
    ∨ ∃ a b, docs₁.find? (fun d => decide (d.key = key)) = some a
      ∧ docs₂.find? (fun d => decide (d.key = key)) = some b ∧ a.agreesUpToValue b := by
  induction h with
  | nil => exact Or.inl ⟨rfl, rfl⟩
  | @cons a b l₁ l₂ hab _ ih =>
    by_cases hk : a.key = key
    · have hk' : b.key = key := hab.1 ▸ hk
      exact Or.inr ⟨a, b, by simp [List.find?, hk], by simp [List.find?, hk'], hab⟩
    · have hk' : ¬ b.key = key := hab.1 ▸ hk
      simpa [List.find?, hk, hk'] using ih

/-- C24: the response of `GET /:key` does not depend on the stored values beyond
whether they are truthy: two stores whose documents agree, one by one, in key,
`encrypted` flag, time of update and truthiness of the value answer every `GET`
with the same response. In particular the responses are identical for two
stores that differ only in the truthy value stored under the key. -/
theorem config_value_not_disclosed (docs₁ docs₂ : List ConfigDocument) (key : String)
    (h : List.Forall₂ ConfigDocument.agreesUpToValue docs₁ docs₂) :
    getConfigHandler (.documents docs₁) key = getConfigHandler (.documents docs₂) key := by
  rcases find_agreesUpToValue key docs₁ docs₂ h with ⟨h₁, h₂⟩ | ⟨a, b, h₁, h₂, hab⟩
  · simp only [getConfigHandler, ConfigStore.findOne, h₁, h₂]
  · obtain ⟨_, he, hu, hv⟩ := hab
    simp only [getConfigHandler, ConfigStore.findOne, h₁, h₂, he, hu, hv]

/-- C24 (witness): two stores that hold different API keys under
`gemini_api_key` answer the `GET` alike. -/
theorem config_value_not_disclosed_witness :
    List.Forall₂ ConfigDocument.agreesUpToValue
        [{ key := "gemini_api_key"
           value := .str "first-secret"
           encrypted := false
           updatedAt := 1700000000000 }]
        [{ key := "gemini_api_key"
           value := .str "second-secret"
           encrypted := false
           updatedAt := 1700000000000 }]
    ∧ getConfigHandler
        (.documents [{ key := "gemini_api_key"
                       value := .str "first-secret"
                       encrypted := false
                       updatedAt := 1700000000000 }]) "gemini_api_key"
      = getConfigHandler
        (.documents [{ key := "gemini_api_key"
                       value := .str "second-secret"
                       encrypted := false
                       updatedAt := 1700000000000 }]) "gemini_api_key"
    ∧ getConfigHandler
        (.documents [{ key := "gemini_api_key"
                       value := .str "first-secret"
                       encrypted := false
                       updatedAt := 1700000000000 }]) "gemini_api_key"
      = { status := 200
          success := true
          message := none
          hasValue := some true
          key := some "gemini_api_key"
          encrypted := some false
          updatedAt := some 1700000000000
          error := none } :=
  have h : List.Forall₂ ConfigDocument.agreesUpToValue
      [{ key := "gemini_api_key"
         value := .str "first-secret"
         encrypted := false
         updatedAt := 1700000000000 }]
      [{ key := "gemini_api_key"
         value := .str "second-secret"
         encrypted := false
         updatedAt := 1700000000000 }] :=
    List.Forall₂.cons ⟨rfl, rfl, rfl, by decide⟩ List.Forall₂.nil
  ⟨h, config_value_not_disclosed _ _ "gemini_api_key" h, by decide⟩

/-! ## The email check -/

theorem plainChar_at : plainChar '@' = false := by decide

theorem plainChar_dot : plainChar '.' = true := by decide

theorem not_whitespace_of_plain (c : Char) (h : plainChar c = true) :
    isJsWhitespace c = false ∧ c ≠ '@' := by
  unfold plainChar at h
  simp only [Bool.and_eq_true, Bool.not_eq_true', bne_iff_ne] at h
  exact h

/-- An element of the inner part of a list splits the list into two non-empty
parts. -/
theorem split_of_mem_inner (x : Char) (l : List Char) (h : x ∈ (l.drop 1).dropLast) :
    ∃ b c, l = b ++ x :: c ∧ b ≠ [] ∧ c ≠ [] := by
  cases l with
  | nil => simp at h
  | cons y t =>
    simp only [List.drop_succ_cons, List.drop_zero] at h
    rcases List.eq_nil_or_concat t with ht | ⟨t', z, ht⟩
    · subst ht; simp at h
    · rw [List.concat_eq_append] at ht
      subst ht
      rw [List.dropLast_concat] at h
      obtain ⟨u, v, huv⟩ := List.append_of_mem h
      subst huv
      exact ⟨y :: u, v ++ [z], by simp, by simp, by simp⟩

theorem mem_inner_of_split (x : Char) (b c : List Char) (hb : b ≠ []) (hc : c ≠ []) :
    x ∈ ((b ++ x :: c).drop 1).dropLast := by
  cases b with
  | nil => exact absurd rfl hb
  | cons y u =>
    rcases List.eq_nil_or_concat c with hc' | ⟨v, z, hc'⟩
    · exact absurd hc' hc
    · rw [List.concat_eq_append] at hc'
      subst hc'
      have : ((y :: u) ++ x :: (v ++ [z])).drop 1 = (u ++ x :: v) ++ [z] := by simp
      rw [this, List.dropLast_concat]
      simp

/-- The test of the regular expression holds exactly of the strings of the
shape the expression describes. -/
theorem emailRegexTest_iff (s : List Char) : emailRegexTest s = true ↔ emailShape s := by
  constructor
  · intro h
    unfold emailRegexTest at h
    have hsplit : s.takeWhile plainChar ++ s.dropWhile plainChar = s :=
      List.takeWhile_append_dropWhile _ _
    cases hd : s.dropWhile plainChar with
    | nil => rw [hd] at h; exact absurd h (by simp)
    | cons c rest =>
      rw [hd] at h hsplit
      simp only [Bool.and_eq_true, decide_eq_true_eq, Bool.not_eq_true', List.all_eq_true,
        List.contains_eq_any_beq, List.any_eq_true, beq_iff_eq] at h
      obtain ⟨⟨⟨hc, ha⟩, hall⟩, x, hdot, hx⟩ := h
      subst hc hx
      obtain ⟨b, c, hbc, hb, hc⟩ := split_of_mem_inner _ rest hdot
      refine ⟨s.takeWhile plainChar, b, c, ?_, ?_, hb, hc, ?_, ?_, ?_⟩
      · rw [← hbc]; exact hsplit.symm
      · intro e; rw [e] at ha; simp at ha
      · intro x hx; exact (List.mem_takeWhile_imp hx)
      · intro x hx; exact hall x (by rw [hbc]; simp [hx])
      · intro x hx; exact hall x (by rw [hbc]; simp [hx])
  · rintro ⟨a, b, c, hs, ha, hb, hc, hpa, hpb, hpc⟩
    subst hs
    have htake : (a ++ '@' :: (b ++ '.' :: c)).takeWhile plainChar = a := by
      rw [List.takeWhile_append_of_pos hpa]
      simp [List.takeWhile_cons, plainChar_at]
    have hdrop : (a ++ '@' :: (b ++ '.' :: c)).dropWhile plainChar = '@' :: (b ++ '.' :: c) := by
      rw [List.dropWhile_append_of_pos hpa]
      simp [List.dropWhile_cons, plainChar_at]
    unfold emailRegexTest
    rw [hdrop, htake]
    have hall : (b ++ '.' :: c).all plainChar = true := by
      simp only [List.all_eq_true, List.mem_append, List.mem_cons]
      rintro x (hx | hx | hx)
      · exact hpb x hx
      · rw [hx]; exact plainChar_dot
      · exact hpc x hx
    have hmem := mem_inner_of_split '.' b c hb hc
    rw [List.drop_one] at hmem
    have hne : a.isEmpty = false := by cases a with
      | nil => exact absurd rfl ha
      | cons _ _ => rfl
    simp [hall, hne, hmem]

/-- A string of the shape has exactly one `@` and no whitespace. -/
theorem emailShape_count (s : List Char) (h : emailShape s) :
    s.count '@' = 1 ∧ ∀ x ∈ s, isJsWhitespace x = false := by
  obtain ⟨a, b, c, hs, _, _, _, hpa, hpb, hpc⟩ := h
  subst hs
  have hcount : ∀ l : List Char, (∀ x ∈ l, plainChar x = true) → l.count '@' = 0 := by
    intro l hl
    rw [List.count_eq_zero]
    intro hmem
    have := hl _ hmem
    rw [plainChar_at] at this
    exact absurd this (by decide)
  constructor
  · simp [List.count_append, List.count_cons, hcount a hpa, hcount b hpb, hcount c hpc]
  · intro x hx
    simp only [List.mem_append, List.mem_cons] at hx
    rcases hx with hx | hx | hx | hx | hx
    · exact (not_whitespace_of_plain x (hpa x hx)).1
    · rw [hx]; decide
    · exact (not_whitespace_of_plain x (hpb x hx)).1
    · rw [hx]; decide
    · exact (not_whitespace_of_plain x (hpc x hx)).1

/-! ## Registration validation -/

theorem trimCall_ok (name : String) (v : JVal) (t : List Char) (h : trimCall name v = .ok t) :
    ∃ s, v = .str s ∧ t = trim s.data := by
  cases v <;> simp [trimCall] at h
  exact ⟨_, rfl, h.symm⟩

theorem toText_str (f : JSNum → List Char) (s : String) :
    JVal.toText f (.str s) = .ok s.data := by
  simp [JVal.toText]

theorem ltNumber_str (p : String) :
    (JVal.str p).lengthOf.ltNumber (.fin 6) = .ok (decide (jsLength p.data < 6)) := by
  simp [JVal.lengthOf, JVal.ltNumber, JVal.toNumber, JSNum.lt]

theorem truthy_str (s : String) : (JVal.str s).truthy = true ↔ s ≠ "" := by
  simp [JVal.truthy]

theorem falsy_of_missing (v : JVal) (h : v.missing ∨ v = .str "") : v.truthy = false := by
  rcases h with (h | h) | h <;> rw [h] <;> rfl

/-- What the registration handler has checked when it creates a user. -/
theorem registerSteps_created (env : AuthEnv) (body : JVal) (r : AuthResponse) (user : UserRecord)
    (h : registerSteps env body = .ok (r, some user)) :
    r.status = 201
    ∧ (∃ u e f l : String, body.member "username" = .str u ∧ body.member "email" = .str e
      ∧ body.member "firstName" = .str f ∧ body.member "lastName" = .str l
      ∧ u ≠ "" ∧ e ≠ "" ∧ f ≠ "" ∧ l ≠ "" ∧ emailRegexTest e.data = true)
    ∧ (body.member "password").truthy = true
    ∧ ∀ p : String, body.member "password" = .str p → 6 ≤ jsLength p.data := by
  rw [registerSteps.eq_def] at h
  split at h
  · cases h
  · cases h
  · simp only at h
    split at h
    · cases h
    · rename_i htruthy
      simp only [Bool.or_eq_true, Bool.not_eq_true', not_or, Bool.not_eq_false] at htruthy
      obtain ⟨⟨⟨⟨hu, he⟩, hp⟩, hf⟩, hl⟩ := htruthy
      split at h
      · cases h
      · cases h
      · rename_i hlen
        split at h
        · cases h
        · rename_i emailText hemail
          split at h
          · cases h
          · rename_i hregex
            split at h
            · cases h
            · rename_i u' hu'
              split at h
              · cases h
              · rename_i m' hm'
                split at h
                · cases h
                · rename_i f' hf'
                  split at h
                  · cases h
                  · rename_i l' hl'
                    split at h
                    · cases h
                    · rename_i stored hsave
                      obtain ⟨u, hus, _⟩ := trimCall_ok _ _ _ hu'
                      obtain ⟨e, hes, _⟩ := trimCall_ok _ _ _ hm'
                      obtain ⟨f, hfs, _⟩ := trimCall_ok _ _ _ hf'
                      obtain ⟨l, hls, _⟩ := trimCall_ok _ _ _ hl'
                      rw [hus] at hu
                      rw [hes] at he hemail
                      rw [hfs] at hf
                      rw [hls] at hl
                      rw [toText_str] at hemail
                      have hemail' : e.data = emailText := by injection hemail
                      rw [← hemail'] at hregex
                      simp only [Except.ok.injEq, Prod.mk.injEq, Option.some.injEq] at h
                      refine ⟨by rw [← h.1], ⟨u, e, f, l, hus, hes, hfs, hls, (truthy_str u).mp hu,
                        (truthy_str e).mp he, (truthy_str f).mp hf, (truthy_str l).mp hl, ?_⟩,
                        hp, ?_⟩
                      · simpa using hregex
                      · intro p hp'
                        rw [hp', ltNumber_str] at hlen
                        have : decide (jsLength p.data < 6) = false := by injection hlen
                        simpa using this

/-- A registration that creates no user and does not throw answers with 400. -/
theorem registerSteps_not_created (env : AuthEnv) (body : JVal) (r : AuthResponse)
    (h : registerSteps env body = .ok (r, none)) : r.status = 400 := by
  rw [registerSteps.eq_def] at h
  split at h
  · cases h
  · cases h
  · simp only at h
    split at h
    · cases h; rfl
    · split at h
      · cases h
      · cases h; rfl
      · split at h
        · cases h
        · split at h
          · cases h; rfl
          · split at h
            · cases h
            · split at h
              · cases h
              · split at h
                · cases h
                · split at h
                  · cases h
                  · split at h
                    · cases h
                    · cases h

/-- The validation of a body whose members are strings where they are present. -/
theorem registerSteps_rejects (env : AuthEnv) (body : JVal)
    (hbody : body ≠ .undefined ∧ body ≠ .null)
    (htyped : ∀ name ∈ registrationMembers,
      (body.member name).missing ∨ ∃ s : String, body.member name = .str s)
    (hbad : (∃ name ∈ registrationMembers,
        (body.member name).missing ∨ body.member name = .str "")
      ∨ (∃ p : String, body.member "password" = .str p ∧ jsLength p.data < 6)
      ∨ (∃ e : String, body.member "email" = .str e ∧ emailRegexTest e.data = false)) :
    ∃ message, registerSteps env body = .ok (authFailure 400 message, none) := by
  rw [registerSteps.eq_def]
  split
  · exact absurd rfl hbody.1
  · exact absurd rfl hbody.2
  · simp only
    split
    · exact ⟨_, rfl⟩
    · rename_i htruthy
      simp only [Bool.or_eq_true, Bool.not_eq_true', not_or, Bool.not_eq_false] at htruthy
      obtain ⟨⟨⟨⟨hu, he⟩, hp⟩, hf⟩, hl⟩ := htruthy
      have hstr : ∀ name ∈ registrationMembers, (body.member name).truthy = true →
          ∃ s : String, body.member name = .str s := by
        intro name hname ht
        rcases htyped name hname with (h | h) | h
        · rw [h] at ht; exact absurd ht (by decide)
        · rw [h] at ht; exact absurd ht (by decide)
        · exact h
      obtain ⟨p, hps⟩ := hstr "password" (by decide) hp
      obtain ⟨e, hes⟩ := hstr "email" (by decide) he
      rw [hps, ltNumber_str]
      by_cases hlen : jsLength p.data < 6
      · simp only [hlen, decide_True]
        exact ⟨_, rfl⟩
      · simp only [hlen, decide_False]
        rw [hes, toText_str]
        simp only
        by_cases hre : emailRegexTest e.data = true
        · exfalso
          rcases hbad with ⟨name, hname, hmiss⟩ | ⟨p', hp', hlen'⟩ | ⟨e', he', hre'⟩
          · have hfalse := falsy_of_missing _ hmiss
            simp only [registrationMembers, List.mem_cons, List.mem_singleton, List.not_mem_nil,
              or_false] at hname
            rcases hname with h | h | h | h | h <;> subst h <;> simp_all
          · rw [hps] at hp'
            have : p = p' := by injection hp'
            subst this
            exact hlen hlen'
          · rw [hes] at he'
            have : e = e' := by injection he'
            subst this
            rw [hre] at hre'
            cases hre'
        · simp only [hre, Bool.not_false, ↓reduceIte]
          exact ⟨_, rfl⟩

/-- C25: with no existing user and a store that answers, a registration whose
body has its five members as strings where they are present is answered with
400, and no user is created, whenever one of `username`, `email`, `password`,
`firstName`, `lastName` is missing or empty, or the password has fewer than six
characters (UTF-16 code units, as `length` counts them), or the email does not
match the regular expression. Whatever the body, a registration is accepted
(status 201, or a user created) only when the four names are non-empty strings,
the password is truthy and, if a string, of six characters or more, and the
email has the shape of the expression: exactly one `@`, no whitespace, and
after the `@` a dot with at least one character on each side. The page's
`validateForm` refuses to submit a form under the same conditions. -/
theorem registration_validation (env : AuthEnv) (req : AuthRequest)
    (hstore : req.storeFailure = none) :
    (req.body ≠ .undefined ∧ req.body ≠ .null →
      (∀ name ∈ registrationMembers,
        (req.body.member name).missing ∨ ∃ s : String, req.body.member name = .str s) →
      ((∃ name ∈ registrationMembers,
          (req.body.member name).missing ∨ req.body.member name = .str "")
        ∨ (∃ p : String, req.body.member "password" = .str p ∧ jsLength p.data < 6)
        ∨ (∃ e : String, req.body.member "email" = .str e ∧ emailRegexTest e.data = false)) →
      ∃ message, register env [] req = (authFailure 400 message, []))
    ∧ ((register env [] req).1.status = 201 ∨ (register env [] req).2 ≠ [] →
      (∃ u e f l : String, req.body.member "username" = .str u
        ∧ req.body.member "email" = .str e ∧ req.body.member "firstName" = .str f
        ∧ req.body.member "lastName" = .str l ∧ u ≠ "" ∧ f ≠ "" ∧ l ≠ ""
        ∧ emailShape e.data ∧ e.data.count '@' = 1 ∧ ∀ x ∈ e.data, isJsWhitespace x = false)
      ∧ (req.body.member "password").truthy = true
      ∧ ∀ p : String, req.body.member "password" = .str p → 6 ≤ jsLength p.data)
    ∧ ∀ form : SetupForm,
        (form.username = "" ∨ form.email = "" ∨ form.password = "" ∨ form.firstName = ""
          ∨ form.lastName = "" ∨ jsLength form.password.data < 6
          ∨ emailRegexTest form.email.data = false) →
        validateForm form ≠ none := by
  refine ⟨?_, ?_, ?_⟩
  · intro hbody htyped hbad
    obtain ⟨message, h⟩ := registerSteps_rejects env req.body hbody htyped hbad
    exact ⟨message, by simp [register, hstore, h]⟩
  · intro hacc
    have hcreated : ∃ r user, registerSteps env req.body = .ok (r, some user) := by
      simp only [register, hstore, List.length_nil, gt_iff_lt, Nat.lt_irrefl, ↓reduceIte] at hacc
      cases hsteps : registerSteps env req.body with
      | error e =>
        rw [hsteps] at hacc
        cases e <;> simp [authFailure, authError] at hacc
      | ok p =>
        obtain ⟨r, created⟩ := p
        cases created with
        | some user => exact ⟨r, user, rfl⟩
        | none =>
          exfalso
          rw [hsteps] at hacc
          simp only [ne_eq, not_true_eq_false, or_false] at hacc
          rw [registerSteps_not_created env req.body r hsteps] at hacc
          exact absurd hacc (by decide)
    obtain ⟨r, user, h⟩ := hcreated
    obtain ⟨_, ⟨u, e, f, l, hu, he, hf, hl, hu', _, hf', hl', hre⟩, hp, hlen⟩ :=
      registerSteps_created env req.body r user h
    have hshape := (emailRegexTest_iff e.data).mp hre
    exact ⟨⟨u, e, f, l, hu, he, hf, hl, hu', hf', hl', hshape, (emailShape_count _ hshape).1,
      (emailShape_count _ hshape).2⟩, hp, hlen⟩
  · intro form hbad
    unfold validateForm
    split_ifs with h1 h2 h3 h4 h5
    · simp
    · simp
    · simp
    · simp
    · simp
    · exfalso
      simp only [not_or] at h1
      simp only [Bool.not_eq_true', Bool.not_eq_false] at h3
      rcases hbad with h | h | h | h | h | h | h
      · exact h1.1 h
      · exact h1.2.1 h
      · exact h1.2.2.2.2.1 h
      · exact h1.2.2.1 h
      · exact h1.2.2.2.1 h
      · exact h4 h
      · rw [h3] at h; cases h

/-- C25 (witness): a registration with the five-character password `12345` is
answered with 400 and creates no user; the registration of the examples is
accepted, and its email has the shape of the expression. -/
theorem registration_validation_witness :
    (∃ message, register exampleEnv []
        (requestOf (.obj [("username", .str "ada"), ("email", .str "ada@example.org"),
          ("password", .str "12345"), ("firstName", .str "Ada"), ("lastName", .str "Lovelace")]))
      = (authFailure 400 message, []))
    ∧ register exampleEnv []
        (requestOf (.obj [("username", .str "ada"), ("email", .str "ada@example.org"),
          ("password", .str "12345"), ("firstName", .str "Ada"), ("lastName", .str "Lovelace")]))
      = (authFailure 400 "Password must be at least 6 characters long.", [])
    ∧ (register exampleEnv [] (requestOf exampleRegistration)).1.status = 201
    ∧ emailShape "Ada@Example.org".data :=
  ⟨(registration_validation exampleEnv
      (requestOf (.obj [("username", .str "ada"), ("email", .str "ada@example.org"),
        ("password", .str "12345"), ("firstName", .str "Ada"), ("lastName", .str "Lovelace")]))
      rfl).1 (by decide)
      (by
        intro name hname
        simp only [registrationMembers, List.mem_cons, List.mem_singleton, List.not_mem_nil,
          or_false] at hname
        rcases hname with h | h | h | h | h <;> subst h
        · exact Or.inr ⟨"ada", by decide⟩
        · exact Or.inr ⟨"ada@example.org", by decide⟩
        · exact Or.inr ⟨"12345", by decide⟩
        · exact Or.inr ⟨"Ada", by decide⟩
        · exact Or.inr ⟨"Lovelace", by decide⟩)
      (Or.inr (Or.inl ⟨"12345", by decide, by decide⟩)),
    by decide!, by decide!,
    by
      obtain ⟨⟨u, e, f, l, _, he, _, _, _, _, _, hshape, _⟩, _⟩ :=
        (registration_validation exampleEnv (requestOf exampleRegistration) rfl).2.1
          (Or.inl (by decide!))
      have : e = "Ada@Example.org" := by
        have h : exampleRegistration.member "email" = .str "Ada@Example.org" := by decide
        have he' : (requestOf exampleRegistration).body.member "email" = .str e := he
        rw [show (requestOf exampleRegistration).body = exampleRegistration from rfl, h] at he'
        injection he' with he''
        exact he''.symm
      rw [← this]
      exact hshape⟩

/-! ## The card `Maintenance` of the dashboard -/

theorem countStatus_cons (b : Book) (books : List Book) (status : String) :
    countStatus (b :: books) status
      = (if b.status = status then 1 else 0) + countStatus books status := by
  unfold countStatus
  by_cases h : b.status = status <;> simp [List.filter_cons, h, Nat.add_comm]

/-- The number of books is the sum of the counts of the four statuses. -/
theorem length_eq_sum_of_statuses (books : List Book)
    (h : ∀ b ∈ books, b.status ∈ bookStatuses) :
    books.length = countStatus books "available" + countStatus books "checked-out"
      + countStatus books "maintenance" + countStatus books "lost" := by
  induction books with
  | nil => rfl
  | cons b books ih =>
    have hb := h b (List.mem_cons_self _ _)
    have ih' := ih fun x hx => h x (List.mem_cons_of_mem _ hx)
    simp only [countStatus_cons, List.length_cons]
    simp only [bookStatuses, List.mem_cons, List.mem_singleton, List.not_mem_nil, or_false] at hb
    rcases hb with hb | hb | hb | hb <;> rw [hb] <;> simp +decide <;> omega

/-- The value of the card on a collection whose statuses are those of the
schema: the number of books in maintenance plus the number of lost books. -/
theorem maintenanceValue_eq (books : List Book) (h : ∀ b ∈ books, b.status ∈ bookStatuses) :
    Dashboard.shown (Dashboard.maintenanceValue (some (statsOverview books)))
      = (countStatus books "maintenance" + countStatus books "lost" : Nat) := by
  have hl := length_eq_sum_of_statuses books h
  unfold Dashboard.shown Dashboard.maintenanceValue countOrZero statsOverview
  simp only
  split_ifs <;> omega

/-- C26 (the code at the failing input): for a collection of one book whose
status is `lost`, the card `Maintenance` shows 1 while no book has the status
`maintenance`. -/
theorem maintenance_card_counts_lost :
    (∀ b ∈ [Book.mk "lost"], b.status ∈ bookStatuses)
    ∧ statsOverview [Book.mk "lost"]
      = { totalBooks := 1, availableBooks := 0, checkedOutBooks := 0 }
    ∧ Dashboard.shown (Dashboard.maintenanceValue (some (statsOverview [Book.mk "lost"]))) = 1
    ∧ countStatus [Book.mk "lost"] "maintenance" = 0 := by
  decide

/-! ## Rounding to the nearest double -/

theorem pow2_eq_zpow (e : Int) : pow2 e = (2 : ℚ) ^ e := by
  unfold pow2
  split
  · rename_i h
    have : e = (e.toNat : ℤ) := (Int.toNat_of_nonneg h).symm
    conv_rhs => rw [this]
    rw [zpow_natCast]
    push_cast
    rfl
  · rename_i h
    have h' : 0 ≤ -e := by omega
    have : e = -((-e).toNat : ℤ) := by rw [Int.toNat_of_nonneg h']; ring
    conv_rhs => rw [this]
    rw [zpow_neg, zpow_natCast]
    push_cast
    rw [one_div]

theorem pow2_pos (e : Int) : 0 < pow2 e := by
  rw [pow2_eq_zpow]
  positivity

theorem log2Fuel_spec (fuel n : Nat) (h : n ≤ fuel) (hn : 1 ≤ n) :
    2 ^ log2Fuel fuel n ≤ n ∧ n < 2 ^ (log2Fuel fuel n + 1) := by
  induction fuel generalizing n with
  | zero => omega
  | succ fuel ih =>
    rw [log2Fuel]
    split
    · rename_i h2
      have := ih (n / 2) (by omega) (by omega)
      constructor
      · rw [pow_succ]
        omega
      · rw [pow_succ]
        omega
    · simp
      omega

theorem floorLog2_spec (n : Nat) (hn : 1 ≤ n) :
    2 ^ floorLog2 n ≤ n ∧ n < 2 ^ (floorLog2 n + 1) :=
  log2Fuel_spec n n (Nat.le_refl n) hn

/-- The binade of a rational other than zero brackets its magnitude. -/
theorem binade_spec (q : ℚ) (hq : q ≠ 0) :
    pow2 (binade q) ≤ |q| ∧ |q| < pow2 (binade q + 1) := by
  have ha : 1 ≤ q.num.natAbs := Nat.one_le_iff_ne_zero.mpr (by simpa using hq)
  have hb : 1 ≤ q.den := q.den_pos
  obtain ⟨ha1, ha2⟩ := floorLog2_spec _ ha
  obtain ⟨hb1, hb2⟩ := floorLog2_spec _ hb
  have habs : |q| = (q.num.natAbs : ℚ) / (q.den : ℚ) := by
    rw [Nat.cast_natAbs, Int.cast_abs]
    conv_lhs => rw [← Rat.num_div_den q]
    rw [abs_div, Nat.abs_cast]
  have hbpos : (0 : ℚ) < q.den := by exact_mod_cast hb
  have ha1' : (2 : ℚ) ^ (floorLog2 q.num.natAbs) ≤ (q.num.natAbs : ℚ) := by exact_mod_cast ha1
  have ha2' : (q.num.natAbs : ℚ) < (2 : ℚ) ^ (floorLog2 q.num.natAbs + 1) := by exact_mod_cast ha2
  have hb1' : (2 : ℚ) ^ (floorLog2 q.den) ≤ (q.den : ℚ) := by exact_mod_cast hb1
  have hb2' : (q.den : ℚ) < (2 : ℚ) ^ (floorLog2 q.den + 1) := by exact_mod_cast hb2
  have hlow : pow2 ((floorLog2 q.num.natAbs : ℤ) - (floorLog2 q.den : ℤ) - 1) ≤ |q| := by
    rw [pow2_eq_zpow, habs, le_div_iff₀ hbpos, sub_sub, zpow_sub₀ (by norm_num), zpow_natCast]
    rw [div_mul_eq_mul_div, div_le_iff₀ (by positivity)]
    have : ((2 : ℚ) ^ ((floorLog2 q.den : ℤ) + 1)) = (2 : ℚ) ^ (floorLog2 q.den + 1) := by
      norm_cast
    rw [this]
    calc (2 : ℚ) ^ (floorLog2 q.num.natAbs) * q.den
        ≤ (q.num.natAbs : ℚ) * q.den := by gcongr
      _ ≤ (q.num.natAbs : ℚ) * (2 : ℚ) ^ (floorLog2 q.den + 1) := by gcongr
  have hhigh : |q| < pow2 ((floorLog2 q.num.natAbs : ℤ) - (floorLog2 q.den : ℤ) + 1) := by
    rw [pow2_eq_zpow, habs, div_lt_iff₀ hbpos]
    have e : (floorLog2 q.num.natAbs : ℤ) - (floorLog2 q.den : ℤ) + 1
        = ((floorLog2 q.num.natAbs + 1 : ℕ) : ℤ) - (floorLog2 q.den : ℤ) := by push_cast; ring
    rw [e, zpow_sub₀ (by norm_num), zpow_natCast, zpow_natCast, div_mul_eq_mul_div,
      lt_div_iff₀ (by positivity)]
    calc (q.num.natAbs : ℚ) * (2 : ℚ) ^ (floorLog2 q.den)
        ≤ (q.num.natAbs : ℚ) * q.den := by gcongr
      _ < (2 : ℚ) ^ (floorLog2 q.num.natAbs + 1) * q.den := by gcongr
  unfold binade
  split
  · rename_i h
    exact ⟨h, hhigh⟩
  · rename_i h
    refine ⟨hlow, ?_⟩
    rw [sub_add_cancel]
    exact lt_of_not_le h

theorem roundHalfEven_intCast (k : ℤ) : roundHalfEven (k : ℚ) = k := by
  unfold roundHalfEven
  simp

theorem roundHalfEven_le (x : ℚ) (n : ℤ) (h : x ≤ n) : roundHalfEven x ≤ n := by
  unfold roundHalfEven
  by_cases hx : x = n
  · subst hx
    simp
  · have hlt : x < n := lt_of_le_of_ne h hx
    have h1 : (⌊x⌋ : ℚ) < n := lt_of_le_of_lt (Int.floor_le x) hlt
    have h2 : ⌊x⌋ < n := by exact_mod_cast h1
    split_ifs <;> omega

theorem roundHalfEven_ge (x : ℚ) (n : ℤ) (h : (n : ℚ) + 1 / 2 < x) : n + 1 ≤ roundHalfEven x := by
  unfold roundHalfEven
  have hn : n ≤ ⌊x⌋ := Int.le_floor.mpr (by linarith)
  by_cases hfl : n + 1 ≤ ⌊x⌋
  · split_ifs <;> omega
  · have hfl' : ⌊x⌋ = n := by omega
    rw [hfl']
    have h1 : ¬ (x - (n : ℚ) < 1 / 2) := by linarith
    have h2 : 1 / 2 < x - (n : ℚ) := by linarith
    rw [if_neg h1, if_pos h2]

/-- The rounded magnitude is within the bounds that multiples of the spacing
give. -/
theorem nearest_bounds (q : ℚ) (lo hi : ℤ) (hhi : |q| / ulp q ≤ hi)
    (hlo : (lo : ℚ) + 1 / 2 < |q| / ulp q) :
    ((lo : ℚ) + 1) * ulp q ≤ nearest q ∧ nearest q ≤ hi * ulp q := by
  have hu : 0 < ulp q := pow2_pos _
  unfold nearest
  constructor
  · have := roundHalfEven_ge _ lo hlo
    have h' : ((lo : ℚ) + 1) ≤ (roundHalfEven (|q| / ulp q) : ℚ) := by exact_mod_cast this
    gcongr
  · have := roundHalfEven_le _ hi hhi
    have h' : (roundHalfEven (|q| / ulp q) : ℚ) ≤ hi := by exact_mod_cast this
    gcongr

theorem pow2_le_pow2 (a b : ℤ) (h : pow2 a ≤ pow2 b) : a ≤ b := by
  rw [pow2_eq_zpow, pow2_eq_zpow] at h
  exact (zpow_le_zpow_iff_right₀ (by norm_num : (1 : ℚ) < 2)).mp h

theorem pow2_lt_pow2 (a b : ℤ) (h : pow2 a < pow2 b) : a < b := by
  rw [pow2_eq_zpow, pow2_eq_zpow] at h
  exact (zpow_lt_zpow_iff_right₀ (by norm_num : (1 : ℚ) < 2)).mp h

theorem pow2_mono (a b : ℤ) (h : a ≤ b) : pow2 a ≤ pow2 b := by
  rw [pow2_eq_zpow, pow2_eq_zpow]
  exact (zpow_le_zpow_iff_right₀ (by norm_num : (1 : ℚ) < 2)).mpr h

theorem pow2_natCast (n : ℕ) : pow2 (n : ℤ) = ((2 ^ n : ℕ) : ℚ) := by
  rw [pow2_eq_zpow, zpow_natCast]
  push_cast
  rfl

theorem pow2_53 : pow2 53 = ((2 ^ 53 : ℕ) : ℚ) := pow2_natCast 53

/-- Up to the binade 52 the spacing of the doubles is the inverse of a power of
two. -/
theorem ulp_eq_inv (q : ℚ) (E : ℤ) (hE : max (binade q) (-1022) = E) (h52 : E ≤ 52) :
    ulp q = 1 / ((2 ^ (52 - E).toNat : ℕ) : ℚ)
      ∧ ((2 ^ (52 - E).toNat : ℕ) : ℚ) * pow2 E = ((2 ^ 52 : ℕ) : ℚ) := by
  have hnn : 0 ≤ 52 - E := by omega
  have hK : ((2 ^ (52 - E).toNat : ℕ) : ℚ) = (2 : ℚ) ^ (52 - E) := by
    conv_rhs => rw [← Int.toNat_of_nonneg hnn]
    rw [zpow_natCast]
    push_cast
    rfl
  constructor
  · unfold ulp
    rw [hE, pow2_eq_zpow, hK, one_div, ← zpow_neg]
    congr 1
    ring
  · rw [hK, pow2_eq_zpow, ← zpow_add₀ (by norm_num : (2 : ℚ) ≠ 0)]
    have : (52 : ℤ) - E + E = ((52 : ℕ) : ℤ) := by push_cast; ring
    rw [this, zpow_natCast]
    push_cast
    rfl

/-- A natural number below `2^53` is a double. -/
theorem roundDouble_natCast (n : ℕ) (h : n < 2 ^ 53) : roundDouble (n : ℚ) = .fin n := by
  by_cases h0 : n = 0
  · subst h0
    simp [roundDouble]
  have hq : (n : ℚ) ≠ 0 := by exact_mod_cast h0
  have hpos : (0 : ℚ) < n := by positivity
  obtain ⟨hb1, hb2⟩ := binade_spec (n : ℚ) hq
  rw [abs_of_pos hpos] at hb1 hb2
  have h53 : (n : ℚ) < pow2 53 := by
    rw [pow2_53]
    exact_mod_cast h
  have hle : binade (n : ℚ) ≤ 52 := by
    have := pow2_lt_pow2 _ _ (lt_of_le_of_lt hb1 h53)
    omega
  have hge : 0 ≤ binade (n : ℚ) := by
    have h1 : pow2 0 ≤ (n : ℚ) := by
      have : pow2 0 = 1 := by simp [pow2]
      rw [this]
      exact_mod_cast Nat.one_le_iff_ne_zero.mpr h0
    have := pow2_lt_pow2 _ _ (lt_of_le_of_lt h1 hb2)
    omega
  have hE : max (binade (n : ℚ)) (-1022) = binade (n : ℚ) := max_eq_left (by omega)
  obtain ⟨hulp, _⟩ := ulp_eq_inv (n : ℚ) _ hE hle
  have hnear : nearest (n : ℚ) = n := by
    unfold nearest
    rw [hulp, abs_of_pos hpos]
    have hx : (n : ℚ) / (1 / ((2 ^ (52 - binade (n : ℚ)).toNat : ℕ) : ℚ))
        = ((n * 2 ^ (52 - binade (n : ℚ)).toNat : ℕ) : ℤ) := by
      push_cast
      field_simp
    rw [hx, roundHalfEven_intCast]
    push_cast
    field_simp
  unfold roundDouble
  rw [if_neg hq, hnear]
  have hno : ¬ pow2 1024 ≤ (n : ℚ) := by
    intro hcon
    have := pow2_lt_pow2 _ _ (lt_of_le_of_lt hcon h53)
    omega
  rw [if_neg hno, if_pos hpos]

/-- The quotient of two natural numbers below `2^53`, rounded to a double, has
the ceiling of the exact quotient. -/
theorem roundDouble_div_ceil (t l : ℕ) (hl : 1 ≤ l) (ht : t < 2 ^ 53) (hl' : l < 2 ^ 53) :
    ∃ r : ℚ, roundDouble ((t : ℚ) / (l : ℚ)) = .fin r ∧ ⌈r⌉ = ⌈(t : ℚ) / (l : ℚ)⌉ := by
  by_cases h0 : t = 0
  · subst h0
    exact ⟨0, by simp [roundDouble], by simp⟩
  have hlpos : (0 : ℚ) < l := by exact_mod_cast hl
  have htpos : (0 : ℚ) < t := by
    have : 0 < t := Nat.pos_of_ne_zero h0
    exact_mod_cast this
  have hpos : (0 : ℚ) < (t : ℚ) / l := div_pos htpos hlpos
  have hq : (t : ℚ) / l ≠ 0 := ne_of_gt hpos
  obtain ⟨hb1, _⟩ := binade_spec _ hq
  rw [abs_of_pos hpos] at hb1
  have hqt : (t : ℚ) / l ≤ t := by
    rw [div_le_iff₀ hlpos]
    have : (1 : ℚ) ≤ l := by exact_mod_cast hl
    nlinarith
  have h53 : (t : ℚ) < pow2 53 := by
    rw [pow2_53]
    exact_mod_cast ht
  have hl53 : (l : ℚ) < pow2 53 := by
    rw [pow2_53]
    exact_mod_cast hl'
  -- the exponent of the spacing
  obtain ⟨E, hE⟩ : ∃ E, max (binade ((t : ℚ) / l)) (-1022) = E := ⟨_, rfl⟩
  have hElow : pow2 E ≤ (t : ℚ) / l := by
    rcases max_cases (binade ((t : ℚ) / l)) (-1022) with ⟨hm, _⟩ | ⟨hm, _⟩
    · rw [← hE, hm]; exact hb1
    · rw [← hE, hm]
      have h1 : pow2 (-1022) ≤ pow2 (-53) := pow2_mono _ _ (by norm_num)
      have h2 : pow2 (-53) * l ≤ 1 := by
        have : pow2 (-53) * pow2 53 = 1 := by
          rw [pow2_eq_zpow, pow2_eq_zpow, ← zpow_add₀ (by norm_num : (2 : ℚ) ≠ 0)]
          norm_num
        have hp : 0 < pow2 (-53) := pow2_pos _
        nlinarith
      have h3 : pow2 (-53) ≤ (t : ℚ) / l := by
        rw [le_div_iff₀ hlpos]
        have : (1 : ℚ) ≤ t := by exact_mod_cast Nat.one_le_iff_ne_zero.mpr h0
        linarith
      linarith
  have hE52 : E ≤ 52 := by
    have := pow2_lt_pow2 _ _ (lt_of_le_of_lt (le_trans hElow hqt) h53)
    omega
  obtain ⟨hulp, hK⟩ := ulp_eq_inv _ E hE hE52
  set K : ℕ := 2 ^ (52 - E).toNat with hKdef
  have hKpos : (0 : ℚ) < K := by positivity
  -- the ceiling
  set n : ℤ := ⌈(t : ℚ) / (l : ℚ)⌉ with hn
  have hn1 : (t : ℚ) / l ≤ n := Int.le_ceil _
  have hn2 : (n : ℚ) - 1 < (t : ℚ) / l := by
    have := Int.ceil_lt_add_one ((t : ℚ) / l)
    linarith
  have hgap : (1 : ℚ) ≤ (t : ℚ) - ((n : ℚ) - 1) * l := by
    have h' : ((n - 1) * l : ℤ) < (t : ℤ) := by
      have : ((n : ℚ) - 1) * l < t := by
        rw [← lt_div_iff₀ hlpos]
        exact hn2
      exact_mod_cast this
    have h'' : ((n - 1) * l : ℤ) + 1 ≤ (t : ℤ) := h'
    have : (((n - 1) * l : ℤ) : ℚ) + 1 ≤ ((t : ℤ) : ℚ) := by exact_mod_cast h''
    push_cast at this
    linarith
  have h2K : (l : ℚ) < 2 * K := by
    -- l * 2^E ≤ t < 2^53 = 2 * K * 2^E
    have h1 : (l : ℚ) * pow2 E ≤ t := by
      have := (le_div_iff₀ hlpos).mp hElow
      linarith
    have hp : 0 < pow2 E := pow2_pos _
    have h2 : (t : ℚ) < 2 * ((K : ℚ) * pow2 E) := by
      rw [hK]
      have : pow2 53 = 2 * ((2 ^ 52 : ℕ) : ℚ) := by
        rw [pow2_53]
        norm_num
      rw [← this]
      exact h53
    by_contra hcon
    push_neg at hcon
    have : 2 * (K : ℚ) * pow2 E ≤ (l : ℚ) * pow2 E := by gcongr
    linarith
  have hx : (t : ℚ) / l / (1 / (K : ℚ)) = (t : ℚ) / l * K := by
    field_simp
  have hbounds := nearest_bounds ((t : ℚ) / l) ((n - 1) * K) (n * K)
    (by
      rw [abs_of_pos hpos, hulp, hx]
      push_cast
      gcongr)
    (by
      rw [abs_of_pos hpos, hulp, hx]
      push_cast
      have h1 : (1 : ℚ) / l ≤ (t : ℚ) / l - ((n : ℚ) - 1) := by
        rw [div_le_iff₀ hlpos]
        have : ((t : ℚ) / l - ((n : ℚ) - 1)) * l = (t : ℚ) - ((n : ℚ) - 1) * l := by
          field_simp
          ring
        rw [this]
        exact hgap
      have h2 : (1 : ℚ) / 2 < (1 : ℚ) / l * K := by
        rw [div_mul_eq_mul_div, lt_div_iff₀ hlpos]
        linarith
      have h3 : (1 : ℚ) / l * K ≤ ((t : ℚ) / l - ((n : ℚ) - 1)) * K := by gcongr
      nlinarith)
  rw [hulp] at hbounds
  obtain ⟨hlo, hhi⟩ := hbounds
  have hhi' : nearest ((t : ℚ) / l) ≤ n := by
    have : ((n * K : ℤ) : ℚ) * (1 / (K : ℚ)) = n := by
      push_cast
      field_simp
    linarith
  have hlo' : (n : ℚ) - 1 < nearest ((t : ℚ) / l) := by
    have : ((((n - 1) * K : ℤ) : ℚ) + 1) * (1 / (K : ℚ)) = (n : ℚ) - 1 + 1 / K := by
      push_cast
      field_simp
    have hKinv : (0 : ℚ) < 1 / K := by positivity
    linarith
  have hnt : (n : ℚ) ≤ t := by
    have : n ≤ (t : ℤ) := Int.ceil_le.mpr (by exact_mod_cast hqt)
    exact_mod_cast this
  have hno : ¬ pow2 1024 ≤ nearest ((t : ℚ) / l) := by
    intro hcon
    have := pow2_lt_pow2 _ _ (lt_of_le_of_lt hcon (lt_of_le_of_lt (le_trans hhi' hnt) h53))
    omega
  refine ⟨nearest ((t : ℚ) / l), ?_, ?_⟩
  · unfold roundDouble
    rw [if_neg hq, if_neg hno, if_pos hpos]
  · rw [Int.ceil_eq_iff]
    exact ⟨hlo', hhi'⟩

/-! ## Pagination of the book list -/

/-- A text that is not numeric parses to NaN. -/
theorem parseInt_nonNumeric (s : List Char) (h : nonNumeric s) : parseInt s = .nan := by
  unfold nonNumeric at h
  unfold parseInt
  cases hb : (scanSign true (s.dropWhile isJsWhitespace)).2 with
  | nil => simp
  | cons c r =>
    rw [hb] at h
    have hc : digitValue 10 c = none := h c rfl
    have hc0 : c ≠ '0' := by
      intro e
      rw [e] at hc
      exact absurd hc (by decide)
    cases r with
    | nil => simp [List.takeWhile_cons, hc]
    | cons x r' => simp [List.takeWhile_cons, hc, hc0]

theorem queryNumber_none (fallback : JSNum) : queryNumber none fallback = fallback := by
  have : parseInt "undefined".data = .nan := by decide!
  simp [queryNumber, this, JSNum.truthy]

theorem queryNumber_default (v : QueryValue) (fallback : JSNum)
    (h : nonNumeric v.toText ∨ parseInt v.toText = .fin 0) :
    queryNumber (some v) fallback = fallback := by
  have : (parseInt v.toText).truthy = false := by
    rcases h with h | h
    · rw [parseInt_nonNumeric _ h]; rfl
    · rw [h]; simp [JSNum.truthy]
  simp [queryNumber, this]

/-- Below `2^53` the subtraction and the multiplication of `skip` are exact. -/
theorem skipOf_fin (page limit : ℕ) (hp : 1 ≤ page) (hl : 1 ≤ limit)
    (hsafe : (page - 1) * limit < 2 ^ 53) :
    skipOf (.fin page) (.fin limit) = .fin (((page - 1) * limit : ℕ) : ℚ) := by
  have h1 : page - 1 < 2 ^ 53 := by
    have : page - 1 ≤ (page - 1) * limit := Nat.le_mul_of_pos_right _ (by omega)
    omega
  have e1 : (page : ℚ) - 1 = ((page - 1 : ℕ) : ℚ) := by
    push_cast [Nat.cast_sub hp]
    ring
  have e2 : ((page - 1 : ℕ) : ℚ) * (limit : ℚ) = (((page - 1) * limit : ℕ) : ℚ) := by
    push_cast
    ring
  simp only [skipOf, JSNum.sub]
  rw [e1, roundDouble_natCast _ h1]
  simp only [JSNum.mul]
  rw [e2, roundDouble_natCast _ hsafe]

/-- Below `2^53` the rounded quotient has the ceiling of the exact one, which
is the least number of pages. -/
theorem pagesOf_fin (total limit : ℕ) (hl : 1 ≤ limit) (ht : total < 2 ^ 53)
    (hl' : limit < 2 ^ 53) :
    ∃ pages : ℕ, pagesOf total (.fin limit) = .fin (pages : ℚ) ∧ total ≤ pages * limit
      ∧ ∀ n : ℕ, total ≤ n * limit → pages ≤ n := by
  have hl0 : (0 : ℚ) < (limit : ℚ) := by exact_mod_cast hl
  have hne : (limit : ℚ) ≠ 0 := ne_of_gt hl0
  have hnonneg : (0 : ℤ) ≤ ⌈(total : ℚ) / (limit : ℚ)⌉ :=
    Int.ceil_nonneg (div_nonneg (Nat.cast_nonneg _) (le_of_lt hl0))
  have h2 : ((⌈(total : ℚ) / (limit : ℚ)⌉.toNat : ℕ) : ℚ) = (⌈(total : ℚ) / (limit : ℚ)⌉ : ℚ) :=
    calc ((⌈(total : ℚ) / (limit : ℚ)⌉.toNat : ℕ) : ℚ)
        = (((⌈(total : ℚ) / (limit : ℚ)⌉.toNat : ℕ) : ℤ) : ℚ) := (Int.cast_natCast _).symm
      _ = (⌈(total : ℚ) / (limit : ℚ)⌉ : ℚ) := by rw [Int.toNat_of_nonneg hnonneg]
  obtain ⟨r, hr, hceil⟩ := roundDouble_div_ceil total limit hl ht hl'
  refine ⟨⌈(total : ℚ) / (limit : ℚ)⌉.toNat, ?_, ?_, ?_⟩
  · simp only [pagesOf, JSNum.div, hne, ↓reduceIte]
    rw [hr]
    simp only [JSNum.ceil]
    rw [hceil, h2]
  · have h1 : (total : ℚ) / (limit : ℚ) ≤ (⌈(total : ℚ) / (limit : ℚ)⌉ : ℚ) := Int.le_ceil _
    rw [← h2, div_le_iff₀ hl0] at h1
    exact_mod_cast h1
  · intro n hn
    have h1 : (total : ℚ) / (limit : ℚ) ≤ ((n : ℤ) : ℚ) := by
      rw [div_le_iff₀ hl0]
      exact_mod_cast hn
    have h2 : ⌈(total : ℚ) / (limit : ℚ)⌉ ≤ (n : ℤ) := Int.ceil_le.mpr h1
    exact Int.toNat_le.mpr h2

theorem toNat?_natCast (n : ℕ) : (JSNum.fin (n : ℚ)).toNat? = some n := by
  simp [JSNum.toNat?]

theorem findWindow_fin {α : Type} (matching : List α) (page limit : ℕ) (hp : 1 ≤ page)
    (hl : 1 ≤ limit) (hsafe : (page - 1) * limit < 2 ^ 53) :
    findWindow matching (skipOf (.fin page) (.fin limit)) (.fin limit)
      = some ((matching.drop ((page - 1) * limit)).take limit) := by
  rw [skipOf_fin page limit hp hl hsafe]
  unfold findWindow
  rw [toNat?_natCast, toNat?_natCast]
  have : limit ≠ 0 := by omega
  simp [this]

theorem inWindow_fin (page limit i : ℕ) (hp : 1 ≤ page) (hl : 1 ≤ limit)
    (hsafe : (page - 1) * limit < 2 ^ 53) :
    inWindow (skipOf (.fin page) (.fin limit)) (.fin limit) i
      ↔ (page - 1) * limit ≤ i ∧ i < (page - 1) * limit + limit := by
  rw [skipOf_fin page limit hp hl hsafe]
  unfold inWindow
  constructor
  · rintro ⟨s, l, hs, hl, h1, h2⟩
    have hs' : ((page - 1) * limit : ℕ) = s := by exact_mod_cast JSNum.fin.inj hs
    have hl' : limit = l := by exact_mod_cast JSNum.fin.inj hl
    subst hs' hl'
    exact ⟨h1, h2⟩
  · rintro ⟨h1, h2⟩
    exact ⟨_, _, rfl, rfl, h1, h2⟩

/-- The windows of the pages partition a list. -/
theorem bind_windows {α : Type} (matching : List α) (limit n : ℕ) :
    ((List.range n).flatMap fun i => (matching.drop (i * limit)).take limit)
      = matching.take (n * limit) := by
  induction n with
  | zero => simp
  | succ n ih =>
    rw [List.range_succ, List.flatMap_append, ih]
    simp only [List.flatMap_cons, List.flatMap_nil, List.append_nil]
    rw [Nat.succ_mul, List.take_add]

/-- C27 (counterexample): with 41 documents and a limit of 20 there are 3 pages,
and the window of page 3 holds the index 45, which is no index of a document;
and for the page 9007199254740994 with limit 3 the code computes the skip
27021597764222976 where `(page - 1) * limit` is 27021597764222979, because
`page - 1` is not a double. -/
theorem pagination_beyond_total :
    pagesOf 41 (.fin 20) = .fin 3
    ∧ inWindow (skipOf (.fin 3) (.fin 20)) (.fin 20) 45
    ∧ ¬ 45 < 41
    ∧ pageOf (some (.str "9007199254740994")) = .fin 9007199254740994
    ∧ skipOf (.fin 9007199254740994) (.fin 3) = .fin 27021597764222976
    ∧ (9007199254740994 - 1) * 3 = 27021597764222979 := by
  refine ⟨by decide!, ⟨40, 20, by decide!, by decide!, by decide, by decide⟩, by decide,
    by decide!, by decide!, by decide⟩

/-- C27 (amended): `page` is 1 and `limit` is 20 when the query value is
missing, is not numeric or parses to 0. For every page of at least 1 and limit
of at least 1 with `page * limit` below `2^53`, and every total below `2^53`,
`skip` is the natural number `(page - 1) * limit`, and `pages` is the least `n`
with `n * limit ≥ total`. The windows `[skip, skip + limit)` of two different
pages among `1..pages` share no index; together they hold exactly the indices
below `pages * limit`, which are all the indices below `total` and fewer than
`limit` more; every one of these windows holds an index below `total`; and the
documents of the pages `1..pages`, one after the other, are exactly the
matching documents. -/
theorem pagination_arithmetic (page limit total : ℕ) (hp : 1 ≤ page) (hl : 1 ≤ limit)
    (hsafe : page * limit < 2 ^ 53) (ht : total < 2 ^ 53) :
    (pageOf none = .fin 1 ∧ limitOf none = .fin 20)
    ∧ (∀ v : QueryValue, nonNumeric v.toText ∨ parseInt v.toText = .fin 0 →
        pageOf (some v) = .fin 1 ∧ limitOf (some v) = .fin 20)
    ∧ skipOf (.fin page) (.fin limit) = .fin (((page - 1) * limit : ℕ) : ℚ)
    ∧ ∃ pages : ℕ, pagesOf total (.fin limit) = .fin (pages : ℚ)
      ∧ total ≤ pages * limit
      ∧ (∀ n : ℕ, total ≤ n * limit → pages ≤ n)
      ∧ pages * limit < total + limit
      ∧ (∀ i, i < pages * limit → ∃ p : ℕ, 1 ≤ p ∧ p ≤ pages
          ∧ inWindow (skipOf (.fin p) (.fin limit)) (.fin limit) i)
      ∧ (∀ p i : ℕ, 1 ≤ p → p ≤ pages →
          inWindow (skipOf (.fin p) (.fin limit)) (.fin limit) i → i < pages * limit)
      ∧ (∀ p q i : ℕ, 1 ≤ p → p ≤ pages → 1 ≤ q → q ≤ pages →
          inWindow (skipOf (.fin p) (.fin limit)) (.fin limit) i →
          inWindow (skipOf (.fin q) (.fin limit)) (.fin limit) i → p = q)
      ∧ (∀ p : ℕ, 1 ≤ p → p ≤ pages →
          ∃ i, i < total ∧ inWindow (skipOf (.fin p) (.fin limit)) (.fin limit) i)
      ∧ ∀ (α : Type) (matching : List α), matching.length = total →
          (∀ p : ℕ, 1 ≤ p → p ≤ pages →
            findWindow matching (skipOf (.fin p) (.fin limit)) (.fin limit)
              = some ((matching.drop ((p - 1) * limit)).take limit))
          ∧ ((List.range pages).flatMap fun i =>
              (findWindow matching (skipOf (.fin ((i + 1 : ℕ) : ℚ)) (.fin limit))
                (.fin limit)).getD []) = matching := by
  have hlim : limit < 2 ^ 53 := by
    have : limit ≤ page * limit := Nat.le_mul_of_pos_left _ (by omega)
    omega
  have hskip : (page - 1) * limit < 2 ^ 53 := by
    have : (page - 1) * limit ≤ page * limit := Nat.mul_le_mul_right _ (by omega)
    omega
  refine ⟨⟨queryNumber_none _, queryNumber_none _⟩,
    fun v hv => ⟨queryNumber_default v _ hv, queryNumber_default v _ hv⟩,
    skipOf_fin page limit hp hl hskip, ?_⟩
  obtain ⟨pages, hpages, hge, hleast⟩ := pagesOf_fin total limit hl ht hlim
  -- every page up to the last starts below the total
  have hstart : ∀ p : ℕ, 1 ≤ p → p ≤ pages → (p - 1) * limit < total := by
    intro p hp' hpp
    by_contra hcon
    have := hleast (p - 1) (by omega)
    omega
  have hsafe' : ∀ p : ℕ, 1 ≤ p → p ≤ pages → (p - 1) * limit < 2 ^ 53 :=
    fun p hp' hpp => lt_trans (hstart p hp' hpp) ht
  have hover : pages * limit < total + limit := by
    by_cases h0 : pages = 0
    · subst h0; omega
    · have := hstart pages (by omega) (Nat.le_refl _)
      have e : pages * limit = (pages - 1) * limit + limit := by
        conv_lhs => rw [show pages = (pages - 1) + 1 by omega]
        rw [Nat.succ_mul]
      omega
  refine ⟨pages, hpages, hge, hleast, hover, ?_, ?_, ?_, ?_, ?_⟩
  · intro i hi
    have hdiv : i / limit < pages := by
      rw [Nat.div_lt_iff_lt_mul (show 0 < limit by omega)]
      exact hi
    refine ⟨i / limit + 1, Nat.le_add_left 1 _, hdiv, ?_⟩
    rw [inWindow_fin _ _ _ (Nat.le_add_left 1 _) hl (hsafe' _ (Nat.le_add_left 1 _) hdiv)]
    have h1 := Nat.div_mul_le_self i limit
    have h2 := Nat.lt_div_mul_add (a := i) (b := limit) (by omega)
    simp only [Nat.add_sub_cancel]
    omega
  · intro p i hp' hpp hw
    rw [inWindow_fin _ _ _ hp' hl (hsafe' p hp' hpp)] at hw
    have e : (p - 1) * limit + limit = p * limit := by
      conv_rhs => rw [show p = (p - 1) + 1 by omega]
      rw [Nat.succ_mul]
    have : p * limit ≤ pages * limit := Nat.mul_le_mul_right _ hpp
    omega
  · intro p q i hp' hpp hq' hqq h₁ h₂
    rw [inWindow_fin _ _ _ hp' hl (hsafe' p hp' hpp)] at h₁
    rw [inWindow_fin _ _ _ hq' hl (hsafe' q hq' hqq)] at h₂
    have e₁ : i / limit = p - 1 := by
      apply Nat.div_eq_of_lt_le
      · exact h₁.1
      · have := h₁.2
        rw [Nat.succ_mul]
        exact this
    have e₂ : i / limit = q - 1 := by
      apply Nat.div_eq_of_lt_le
      · exact h₂.1
      · have := h₂.2
        rw [Nat.succ_mul]
        exact this
    omega
  · intro p hp' hpp
    refine ⟨(p - 1) * limit, hstart p hp' hpp, ?_⟩
    rw [inWindow_fin _ _ _ hp' hl (hsafe' p hp' hpp)]
    omega
  · intro α matching hlen
    refine ⟨fun p hp' hpp => findWindow_fin matching p limit hp' hl (hsafe' p hp' hpp), ?_⟩
    have hfun : ∀ i ∈ List.range pages,
        (findWindow matching (skipOf (.fin ((i + 1 : ℕ) : ℚ)) (.fin limit)) (.fin limit)).getD []
        = (matching.drop (i * limit)).take limit := by
      intro i hi
      have hi' : i < pages := List.mem_range.mp hi
      rw [findWindow_fin matching (i + 1) limit (by omega) hl (hsafe' (i + 1) (by omega) hi')]
      simp
    have hcongr : ((List.range pages).flatMap fun i =>
        (findWindow matching (skipOf (.fin ((i + 1 : ℕ) : ℚ)) (.fin limit))
          (.fin limit)).getD [])
        = (List.range pages).flatMap fun i => (matching.drop (i * limit)).take limit := by
      simp only [List.flatMap]
      congr 1
      exact List.map_congr_left hfun
    rw [hcongr, bind_windows]
    exact List.take_of_length_le (by omega)

/-- C27 (witness): page 3 of 41 documents at 20 per page skips 40 documents;
there are 3 pages; the query values `abc` and `0` give page 1. -/
theorem pagination_arithmetic_witness :
    skipOf (.fin ((3 : ℕ) : ℚ)) (.fin ((20 : ℕ) : ℚ)) = .fin (((3 - 1) * 20 : ℕ) : ℚ)
    ∧ pagesOf 41 (.fin 20) = .fin 3
    ∧ pageOf (some (.str "abc")) = .fin 1
    ∧ pageOf (some (.str "0")) = .fin 1
    ∧ pageOf (some (.str "3")) = .fin 3
    ∧ findWindow [10, 11, 12, 13, 14] (skipOf (.fin 3) (.fin 2)) (.fin 2) = some [14] :=
  ⟨(pagination_arithmetic 3 20 41 (by decide) (by decide) (by decide) (by decide)).2.2.1,
    by decide!, by decide!, by decide!, by decide!, by decide!⟩

/-! ## Login -/

theorem member_of_not_obj (body : JVal) (name : String) (v : JVal) (h : body.member name = v)
    (hv : v ≠ .undefined) : body ≠ .undefined ∧ body ≠ .null := by
  constructor <;> intro e <;> rw [e] at h <;> exact hv h.symm

/-- The login handler on a body that is neither `undefined` nor `null`. -/
theorem login_of_body (env : AuthEnv) (users : List UserRecord) (req : AuthRequest)
    (hbody : req.body ≠ .undefined ∧ req.body ≠ .null) :
    login env users req =
      if !(req.body.member "username").truthy || !(req.body.member "password").truthy then
        authFailure 400 "Username and password are required."
      else
        match trimCall "username" (req.body.member "username") with
        | .error e => authError env "Login failed. Please try again." e
        | .ok name =>
          match req.storeFailure with
          | some e => authError env "Login failed. Please try again." e
          | none =>
            match findUser users name (env.toLowerCase name) with
            | none => authFailure 401 "Invalid credentials."
            | some user =>
              if !user.isActive then authFailure 401 "Account is deactivated."
              else if user.isLocked then
                authFailure 423 ("Account is temporarily locked due to too many failed login " ++
                  "attempts. Please try again later.")
              else
                match env.comparePassword user (req.body.member "password") with
                | .error e => authError env "Login failed. Please try again." e
                | .ok false => authFailure 401 "Invalid credentials."
                | .ok true =>
                  { status := 200
                    success := true
                    message := "Login successful"
                    token := some (env.generateToken user.id)
                    user := some user
                    error := none } := by
  rw [login.eq_def]
  split
  · rename_i h; exact absurd h hbody.1
  · rename_i h; exact absurd h hbody.2
  · rfl

/-- The login handler on a request with a non-empty string as username, a truthy
password and a store that answers. -/
theorem login_of_name (env : AuthEnv) (users : List UserRecord) (req : AuthRequest)
    (name : String) (hname : req.body.member "username" = .str name) (hne : name ≠ "")
    (hp : (req.body.member "password").truthy = true) (hs : req.storeFailure = none) :
    login env users req =
      match findUser users (trim name.data) (env.toLowerCase (trim name.data)) with
      | none => authFailure 401 "Invalid credentials."
      | some user =>
        if !user.isActive then authFailure 401 "Account is deactivated."
        else if user.isLocked then
          authFailure 423 ("Account is temporarily locked due to too many failed login " ++
            "attempts. Please try again later.")
        else
          match env.comparePassword user (req.body.member "password") with
          | .error e => authError env "Login failed. Please try again." e
          | .ok false => authFailure 401 "Invalid credentials."
          | .ok true =>
            { status := 200
              success := true
              message := "Login successful"
              token := some (env.generateToken user.id)
              user := some user
              error := none } := by
  rw [login_of_body env users req (member_of_not_obj _ _ _ hname (by simp))]
  have hu : (JVal.str name).truthy = true := by
    simpa [JVal.truthy] using hne
  simp only [hname, hu, hp, trimCall, hs, Bool.not_true, Bool.or_self, Bool.false_eq_true,
    ↓reduceIte]

/-- C28: the response of the login handler contains a token exactly when the
username is a non-empty string, the password is truthy, the store answers with
a user whose `username` is the trimmed text or whose `email` its lower-cased
form, that user is active and not locked, and the comparison of the password
succeeds. The checks are made in this order and their failures are answered
with 400, 401, 401, 423 and 401. -/
theorem login_token (env : AuthEnv) (users : List UserRecord) (req : AuthRequest) :
    ((login env users req).token.isSome = true ↔
      ∃ (name : String) (user : UserRecord),
        req.body.member "username" = .str name ∧ name ≠ ""
        ∧ (req.body.member "password").truthy = true
        ∧ req.storeFailure = none
        ∧ findUser users (trim name.data) (env.toLowerCase (trim name.data)) = some user
        ∧ user.isActive = true ∧ user.isLocked = false
        ∧ env.comparePassword user (req.body.member "password") = .ok true)
    ∧ (req.body ≠ .undefined ∧ req.body ≠ .null →
        (req.body.member "username").truthy = false
          ∨ (req.body.member "password").truthy = false →
        login env users req = authFailure 400 "Username and password are required.")
    ∧ ∀ name : String, req.body.member "username" = .str name → name ≠ "" →
        (req.body.member "password").truthy = true → req.storeFailure = none →
        (findUser users (trim name.data) (env.toLowerCase (trim name.data)) = none →
          login env users req = authFailure 401 "Invalid credentials.")
        ∧ ∀ user, findUser users (trim name.data) (env.toLowerCase (trim name.data)) = some user →
          (user.isActive = false →
            login env users req = authFailure 401 "Account is deactivated.")
          ∧ (user.isActive = true → user.isLocked = true →
            login env users req = authFailure 423
              ("Account is temporarily locked due to too many failed login " ++
                "attempts. Please try again later."))
          ∧ (user.isActive = true → user.isLocked = false →
            env.comparePassword user (req.body.member "password") = .ok false →
            login env users req = authFailure 401 "Invalid credentials.")
          ∧ (user.isActive = true → user.isLocked = false →
            env.comparePassword user (req.body.member "password") = .ok true →
            login env users req =
              { status := 200
                success := true
                message := "Login successful"
                token := some (env.generateToken user.id)
                user := some user
                error := none }) := by
  refine ⟨⟨?_, ?_⟩, ?_, ?_⟩
  · intro h
    by_cases hbody : req.body ≠ .undefined ∧ req.body ≠ .null
    · rw [login_of_body env users req hbody] at h
      split at h
      · simp [authFailure] at h
      · rename_i htruthy
        simp only [Bool.or_eq_true, Bool.not_eq_true', not_or, Bool.not_eq_false] at htruthy
        split at h
        · simp [authError] at h
        · rename_i t ht
          split at h
          · simp [authError] at h
          · rename_i hs
            split at h
            · simp [authFailure] at h
            · rename_i user hfind
              split at h
              · simp [authFailure] at h
              · rename_i hactive
                split at h
                · simp [authFailure] at h
                · rename_i hlocked
                  split at h
                  · simp [authError] at h
                  · simp [authFailure] at h
                  · rename_i hcmp
                    cases hn : req.body.member "username" with
                    | str name =>
                      rw [hn] at ht htruthy
                      simp only [trimCall, Except.ok.injEq] at ht
                      subst ht
                      refine ⟨name, user, rfl, ?_, htruthy.2, hs, hfind, ?_, ?_, hcmp⟩
                      · simpa [JVal.truthy] using htruthy.1
                      · simpa using hactive
                      · simpa using hlocked
                    | _ => rw [hn] at ht; simp [trimCall] at ht
    · exfalso
      have : req.body = .undefined ∨ req.body = .null := by
        by_contra hcon
        exact hbody ⟨fun e => hcon (Or.inl e), fun e => hcon (Or.inr e)⟩
      rcases this with hb | hb <;> simp [login, hb, authError] at h
  · rintro ⟨name, user, hname, hne, hp, hs, hfind, hactive, hlocked, hcmp⟩
    rw [login_of_name env users req name hname hne hp hs, hfind]
    simp [hactive, hlocked, hcmp]
  · intro hbody hfalsy
    rw [login_of_body env users req hbody]
    rcases hfalsy with h | h <;> simp [h]
  · intro name hname hne hp hs
    rw [login_of_name env users req name hname hne hp hs]
    refine ⟨fun hfind => by rw [hfind], fun user hfind => ?_⟩
    rw [hfind]
    refine ⟨?_, ?_, ?_, ?_⟩
    · intro ha; simp [ha]
    · intro ha hl; simp [ha, hl]
    · intro ha hl hc; simp [ha, hl, hc]
    · intro ha hl hc; simp [ha, hl, hc]

/-- C28 (witness): the registered user logs in with the email in capitals and
the right password and receives a token; with a wrong password the answer is
401 without a token. -/
theorem login_token_witness :
    (login exampleEnv [exampleUser]
        (requestOf (.obj [("username", .str " ADA@example.org "),
          ("password", .str "correct horse")]))).token = some "token-u1"
    ∧ login exampleEnv [exampleUser]
        (requestOf (.obj [("username", .str "ada"), ("password", .str "wrong")]))
      = authFailure 401 "Invalid credentials." :=
  ⟨by
      have h := (login_token exampleEnv [exampleUser]
        (requestOf (.obj [("username", .str " ADA@example.org "),
          ("password", .str "correct horse")]))).1.2
        ⟨" ADA@example.org ", exampleUser, by decide, by decide, by decide, rfl, by decide,
          rfl, rfl, by decide⟩
      revert h
      decide,
    ((login_token exampleEnv [exampleUser]
        (requestOf (.obj [("username", .str "ada"), ("password", .str "wrong")]))).2.2
      "ada" (by decide) (by decide) (by decide) rfl).2 exampleUser (by decide)
      |>.2.2.1 rfl rfl (by decide)⟩

/-! ## The quantity of a saved book -/

/-- C29 (the code at the failing input): with title and author filled in and
the quantity `0` entered, `saveBook` submits the quantity 1; an entered
quantity of `3` is submitted as 3. -/
theorem save_book_zero_quantity :
    saveBook { title := .str "Matilda", author := .str "Roald Dahl", quantity := enteredNumber 0 }
      = .submitted (.str "Matilda") (.str "Roald Dahl") (.fin 1)
    ∧ enteredNumber 0 = .entered ['0']
    ∧ saveBook { title := .str "Matilda", author := .str "Roald Dahl", quantity := enteredNumber 3 }
      = .submitted (.str "Matilda") (.str "Roald Dahl") (.fin 3) := by
  decide!

/-! ## The route guards -/

/-- C30: in every state of the authentication context with `loading = false`
in which a user is set only when no setup is required, `ProtectedRoute` renders
its content exactly when a user is set, `Setup` exactly when no user is set and
the setup is required, `Login` exactly when no user is set and no setup is
required; exactly one of the three routes renders its content and each of the
other two navigates to it, so that following the navigations from any route
reaches the rendering one after at most one step, and hence within two. -/
theorem route_guards_agree (s : AuthState) (hl : s.loading = false)
    (hinv : s.user.isSome = true → s.setupRequired = false) :
    (ProtectedRoute s = .content ↔ s.user.isSome = true)
    ∧ (Setup s = .content ↔ s.user = none ∧ s.setupRequired = true)
    ∧ (Login s = .content ↔ s.user = none ∧ s.setupRequired = false)
    ∧ ∃ target : Page, App target s = .content
      ∧ (∀ page, App page s = .content → page = target)
      ∧ (∀ page, page ≠ target → App page s = .navigate target)
      ∧ (∀ page, followRedirects s 1 page = some target)
      ∧ (∀ page, followRedirects s 2 page = some target) := by
  obtain ⟨user, loading, setupRequired⟩ := s
  simp only at hl hinv
  subst hl
  cases user with
  | some u =>
    have hs : setupRequired = false := hinv rfl
    subst hs
    refine ⟨by simp [ProtectedRoute], by simp [Setup], by simp [Login], .home, ?_⟩
    refine ⟨rfl, ?_, ?_, ?_, ?_⟩ <;> intro page <;> cases page <;>
      simp [App, ProtectedRoute, Login, Setup, followRedirects]
  | none =>
    cases setupRequired with
    | true =>
      refine ⟨by simp [ProtectedRoute], by simp [Setup], by simp [Login], .setup, ?_⟩
      refine ⟨rfl, ?_, ?_, ?_, ?_⟩ <;> intro page <;> cases page <;>
        simp [App, ProtectedRoute, Login, Setup, followRedirects]
    | false =>
      refine ⟨by simp [ProtectedRoute], by simp [Setup], by simp [Login], .login, ?_⟩
      refine ⟨rfl, ?_, ?_, ?_, ?_⟩ <;> intro page <;> cases page <;>
        simp [App, ProtectedRoute, Login, Setup, followRedirects]

/-- C30 (witness): before any account exists (no user, setup required) the
setup page renders and the two other routes navigate to it. -/
theorem route_guards_agree_witness :
    (ProtectedRoute ⟨none, false, true⟩ = .content ↔ (none : Option UserRecord).isSome = true)
    ∧ (Setup ⟨none, false, true⟩ = .content ↔ (none : Option UserRecord) = none ∧ true = true)
    ∧ (Login ⟨none, false, true⟩ = .content ↔ (none : Option UserRecord) = none ∧ true = false)
    ∧ ∃ target : Page, App target ⟨none, false, true⟩ = .content
      ∧ (∀ page, App page ⟨none, false, true⟩ = .content → page = target)
      ∧ (∀ page, page ≠ target → App page ⟨none, false, true⟩ = .navigate target)
      ∧ (∀ page, followRedirects ⟨none, false, true⟩ 1 page = some target)
      ∧ (∀ page, followRedirects ⟨none, false, true⟩ 2 page = some target) :=
  route_guards_agree ⟨none, false, true⟩ rfl (fun h => absurd h (by decide))

end BookInventory
